import Mathlib

/-!
# Galera replication engine: total-order gate and commit coordinator

A shallow embedding of `gcs/src/gcs_to.c` (the total-order gate) and of the
commit path of `wsdb/src/galera.c`, followed by theorems about them.

Conventions of the embedding

* `gcs_seqno_t` is an unsigned 64-bit integer: a `Nat` below `2 ^ 64`;
  `to->seqno++` is addition modulo `2 ^ 64`.
* The waiter ring `to->queue` is a `List to_waiter_t`; a pointer
  `to_waiter_t*` into it is the index of the slot.
* `gu_mutex_lock` succeeds and returns 0 (the gate mutex is valid), so that
  every function body below is what runs under the gate mutex.
* `gu_fatal(...); abort();` is the result `abort`.
* `gu_cond_wait` suspends the caller: `gcs_to_grab` is cut at that call into
  `gcs_to_grab` (up to the wait) and `gcs_to_grab_wakeup` (after it).
  `gu_cond_signal` always returns 0; the slot whose condition is signalled is
  reported in the result.
-/

namespace Galera

/-! ## gcs_to.c : data model -/

/-- States of a waiter slot, `waiter_state_t` of gcs_to.c. -/
inductive waiter_state_t where
  | HOLDER
  | WAIT
  | CANCELED
  | WITHDRAW
  | RELEASED
  deriving DecidableEq, Repr

/-- A waiter slot, `to_waiter_t` of gcs_to.c, without its condition variable
(signals are reported in `to_result`). -/
structure to_waiter_t where
  state : waiter_state_t
  has_aborted : Int
  deriving DecidableEq, Repr

/-- The gate, `struct gcs_to` of gcs_to.c, without its mutex. -/
structure gcs_to where
  seqno : Nat
  used : Nat
  qlen : Nat
  qmask : Nat
  queue : List to_waiter_t
  deriving DecidableEq, Repr

/-- Number of values of `gcs_seqno_t` and of `size_t` (64-bit unsigned). -/
def SEQNO_RANGE : Nat := 2 ^ 64

/-- Value of `ECANCELED` in errno.h (Linux). -/
def ECANCELED : Int := 125

/-- Value of `ERANGE` in errno.h. -/
def ERANGE : Int := 34

/-- Result of one gate call. -/
inductive to_result where
  /-- The call returned `err`; `signal` is the slot whose condition was
  signalled with `gu_cond_signal`, if any. -/
  | ret (err : Int) (tq : gcs_to) (signal : Option Nat)
  /-- The caller is suspended in `gu_cond_wait` (only `gcs_to_grab`). -/
  | wait (tq : gcs_to)
  /-- The call ended in `gu_fatal` and `abort()`. -/
  | abort
  /-- The sweep loop did not finish within its fuel. -/
  | diverge
  deriving DecidableEq, Repr

/-- Index of the waiter of `seqno`: `to->queue + (seqno & to->qmask)`. -/
def to_get_waiter (tq : gcs_to) (seqno : Nat) : Nat :=
  seqno &&& tq.qmask

/-- Read of the slot `to->queue[w]`. -/
def waiter_at (tq : gcs_to) (w : Nat) : to_waiter_t :=
  tq.queue.getD w ⟨waiter_state_t.RELEASED, 0⟩

/-- Read of `w->state`. -/
def w_state (tq : gcs_to) (w : Nat) : waiter_state_t :=
  (waiter_at tq w).state

/-- Assignment `w->state = st`. -/
def set_state (tq : gcs_to) (w : Nat) (st : waiter_state_t) : gcs_to :=
  { tq with queue := tq.queue.set w { waiter_at tq w with state := st } }

/-- Assignment `w->has_aborted = v`. -/
def set_has_aborted (tq : gcs_to) (w : Nat) (v : Int) : gcs_to :=
  { tq with queue := tq.queue.set w { waiter_at tq w with has_aborted := v } }

/-- State of the slot of seqno `s`. -/
def slot_state (tq : gcs_to) (s : Nat) : waiter_state_t :=
  w_state tq (to_get_waiter tq s)

/-- Increment `to->seqno++` of a 64-bit unsigned. -/
def seqno_inc (tq : gcs_to) : gcs_to :=
  { tq with seqno := (tq.seqno + 1) % SEQNO_RANGE }

/-- Increment `to->used++` of a `size_t`. -/
def used_inc (tq : gcs_to) : gcs_to :=
  { tq with used := (tq.used + 1) % SEQNO_RANGE }

/-- Decrement `to->used--` of a `size_t`. -/
def used_dec (tq : gcs_to) : gcs_to :=
  { tq with used := (tq.used + SEQNO_RANGE - 1) % SEQNO_RANGE }

/-! ## gcs_to.c : operations -/

/-- Loop `while (ret->qlen < len) ret->qlen = ret->qlen << 1;` of
gcs_to_create; `len` is a positive `int`, the fuel bounds the iterations. -/
def create_qlen : Nat → Nat → Int → Nat
  | 0, qlen, _ => qlen
  | fuel + 1, qlen, len =>
    if (qlen : Int) < len then create_qlen fuel ((qlen <<< 1) % SEQNO_RANGE) len
    else qlen

/-- Function `gcs_to_create (int len, gcs_seqno_t seqno)`; `none` is NULL.
Both allocations succeed. -/
def gcs_to_create (len : Int) (seqno : Nat) : Option gcs_to :=
  if len ≤ 0 then none
  else
    let qlen := create_qlen 64 1 len
    some { seqno := seqno
           used := 0
           qlen := qlen
           qmask := qlen - 1
           queue := List.replicate qlen ⟨waiter_state_t.RELEASED, 0⟩ }

/-- Function `gcs_to_grab`, up to its return or to `gu_cond_wait`. -/
def gcs_to_grab (tq : gcs_to) (seqno : Nat) : to_result :=
  let w := to_get_waiter tq seqno
  match w_state tq w with
  | waiter_state_t.CANCELED => to_result.ret (-ECANCELED) tq none
  | waiter_state_t.RELEASED =>
    if seqno = tq.seqno then
      to_result.ret 0 (set_state tq w waiter_state_t.HOLDER) none
    else if seqno < tq.seqno then
      to_result.abort
    else
      to_result.wait (used_inc (set_state tq w waiter_state_t.WAIT))
  | _ => to_result.abort

/-- Function `gcs_to_grab` after `gu_cond_wait` has returned: the rest of the
`seqno > to->seqno` branch. -/
def gcs_to_grab_wakeup (tq : gcs_to) (seqno : Nat) : to_result :=
  let w := to_get_waiter tq seqno
  let tq1 := used_dec tq
  if w_state tq1 w = waiter_state_t.CANCELED then
    to_result.ret (-ECANCELED) tq1 none
  else if w_state tq1 w = waiter_state_t.WAIT then
    to_result.ret 0 (set_state tq1 w waiter_state_t.HOLDER) none
  else
    to_result.abort

/-- Sweep loop of gcs_to_release, entered after the first `to->seqno++`:
`for (...; (w = to_get_waiter(to, to->seqno)) && w->state == CANCELED;
to->seqno++) w->state = RELEASED;`. One unit of fuel per test of the loop
condition. -/
def release_sweep : Nat → gcs_to → Option gcs_to
  | 0, _ => none
  | fuel + 1, tq =>
    let w := to_get_waiter tq tq.seqno
    if w_state tq w = waiter_state_t.CANCELED then
      release_sweep fuel (seqno_inc (set_state tq w waiter_state_t.RELEASED))
    else
      some tq

/-- Function `gcs_to_release`. The sweep is given `qlen` tests of its
condition (see `release_sweep_run`). -/
def gcs_to_release (tq : gcs_to) (seqno : Nat) : to_result :=
  let w := to_get_waiter tq seqno
  if seqno = tq.seqno then
    let tq1 := set_state tq w waiter_state_t.RELEASED
    match release_sweep tq.qlen (seqno_inc tq1) with
    | none => to_result.diverge
    | some tq2 =>
      let w2 := to_get_waiter tq2 tq2.seqno
      if w_state tq2 w2 = waiter_state_t.WAIT then to_result.ret 0 tq2 (some w2)
      else to_result.ret 0 tq2 none
  else if tq.seqno < seqno then
    if w_state tq w ≠ waiter_state_t.CANCELED then to_result.abort
    else to_result.ret 0 tq none
  else
    if w_state tq w ≠ waiter_state_t.RELEASED then to_result.abort
    else to_result.ret 0 tq none

/-- Function `gcs_to_seqno`: `to->seqno - 1` on a 64-bit unsigned. -/
def gcs_to_seqno (tq : gcs_to) : Nat :=
  (tq.seqno + SEQNO_RANGE - 1) % SEQNO_RANGE

/-- Function `gcs_to_cancel`. -/
def gcs_to_cancel (tq : gcs_to) (seqno : Nat) : to_result :=
  let w := to_get_waiter tq seqno
  if tq.seqno < seqno then
    to_result.ret 0 (set_state tq w waiter_state_t.CANCELED) (some w)
  else if seqno = tq.seqno then
    to_result.abort
  else
    to_result.abort

/-- Function `gcs_to_self_cancel` (a `void` function: `err` is 0). -/
def gcs_to_self_cancel (tq : gcs_to) (seqno : Nat) : to_result :=
  if seqno < tq.seqno then to_result.abort
  else
    let w := to_get_waiter tq seqno
    to_result.ret 0 (set_state tq w waiter_state_t.CANCELED) none

/-- Function `gcs_to_withdraw`. -/
def gcs_to_withdraw (tq : gcs_to) (seqno : Nat) : to_result :=
  if tq.seqno ≤ seqno then
    let w := to_get_waiter tq seqno
    let tq1 := set_has_aborted (set_state tq w waiter_state_t.WITHDRAW) w 0
    to_result.ret 0 tq1 (some w)
  else
    to_result.ret (-ERANGE) tq none

/-- Function `gcs_to_renew_wait`. -/
def gcs_to_renew_wait (tq : gcs_to) (seqno : Nat) : to_result :=
  if tq.seqno ≤ seqno then
    let w := to_get_waiter tq seqno
    let tq1 := set_has_aborted (set_state tq w waiter_state_t.RELEASED) w 0
    to_result.ret 0 tq1 none
  else
    to_result.ret (-ERANGE) tq none

/-- A gate as gcs_to_create builds it: the ring length is a power of two that
fits `size_t`, the mask is the length minus one, the ring has `qlen` slots and
the seqno is a 64-bit value. -/
def to_wf (tq : gcs_to) : Prop :=
  (∃ j, j ≤ 63 ∧ tq.qlen = 2 ^ j) ∧ tq.qmask = tq.qlen - 1 ∧
    tq.queue.length = tq.qlen ∧ tq.seqno < SEQNO_RANGE


/-! ## Example gates -/

/-- A gate with a ring of four slots at seqno 1: slot 1 is held, slot 2 is
cancelled, slot 3 waits. -/
def gate_ex1 : gcs_to :=
  { seqno := 1, used := 1, qlen := 4, qmask := 3,
    queue := [⟨waiter_state_t.RELEASED, 0⟩, ⟨waiter_state_t.HOLDER, 0⟩,
              ⟨waiter_state_t.CANCELED, 0⟩, ⟨waiter_state_t.WAIT, 0⟩] }

/-- A fresh gate with a ring of four slots at seqno 1, as `gcs_to_create(4, 1)`
builds it. -/
def gate_ex2 : gcs_to :=
  { seqno := 1, used := 0, qlen := 4, qmask := 3,
    queue := List.replicate 4 ⟨waiter_state_t.RELEASED, 0⟩ }

/-- A gate with a ring of two slots at seqno 1 whose slot 1 is held. -/
def gate_ex3 : gcs_to :=
  { seqno := 1, used := 0, qlen := 2, qmask := 1,
    queue := [⟨waiter_state_t.RELEASED, 0⟩, ⟨waiter_state_t.HOLDER, 0⟩] }

/-! ## Threads around the gate

`gcs_to_grab` suspends its caller in `gu_cond_wait`; the caller resumes, under
the gate mutex, only after its condition has been signalled, and any number of
other gate calls may run between the signal and the resumption. `to_sys` is
the gate together with the callers of `gcs_to_grab`; `to_step` runs one of the
gate functions under the mutex. -/

/-- A caller of `gcs_to_grab(seqno)`: suspended in `gu_cond_wait` (and whether
its condition has been signalled since), returned, or ended in `abort()`. -/
inductive grab_thread where
  | waiting (seqno : Nat) (signalled : Bool)
  | returned (seqno : Nat) (err : Int)
  | aborted (seqno : Nat)
  deriving DecidableEq, Repr

/-- The gate and the callers of `gcs_to_grab`, in the order of their calls;
`holders` lists the seqnos whose grab returned 0, in the order of the returns;
`aborted` is set once a call has ended in `abort()`. -/
structure to_sys where
  tq : gcs_to
  threads : List grab_thread
  holders : List Nat
  aborted : Bool
  deriving DecidableEq, Repr

/-- One scheduling step: a call of a gate function, or the resumption of the
suspended caller number `t`. With a call that may signal a condition goes the
caller `woken` by the signal, if any. -/
inductive to_event where
  | grab (s : Nat)
  | wakeup (t : Nat)
  | release (s : Nat) (woken : Option Nat)
  | cancel (s : Nat) (woken : Option Nat)
  | self_cancel (s : Nat)
  deriving DecidableEq, Repr

/-- Whether a caller is suspended on the condition of slot `w`, not yet
signalled. -/
def blocked_on (tq : gcs_to) (w : Nat) : grab_thread → Bool
  | grab_thread.waiting s false => decide (to_get_waiter tq s = w)
  | _ => false

/-- Delivery of `gu_cond_signal` on the condition of slot `sig`: it wakes the
caller `woken`, which has to be suspended on that condition; it may wake
nobody only when nobody is suspended there. `none` when the choice of `woken`
is not possible. -/
def gu_cond_signal (tq : gcs_to) (threads : List grab_thread) (sig woken : Option Nat) :
    Option (List grab_thread) :=
  match sig, woken with
  | none, none => some threads
  | none, some _ => none
  | some w, none => if threads.any (blocked_on tq w) then none else some threads
  | some w, some t =>
    match threads[t]? with
    | some (grab_thread.waiting s false) =>
      if to_get_waiter tq s = w then some (threads.set t (grab_thread.waiting s true))
      else none
    | _ => none

/-- Outcome of a gate call other than a grab, in the system. -/
def to_apply (sys : to_sys) (r : to_result) (woken : Option Nat) : Option to_sys :=
  match r with
  | to_result.ret _ tq' sig =>
    match gu_cond_signal tq' sys.threads sig woken with
    | some th => some { sys with tq := tq', threads := th }
    | none => none
  | to_result.abort =>
    match woken with
    | none => some { sys with aborted := true }
    | some _ => none
  | _ => none

/-- One step of the system; `none` when the event cannot happen (the process
has aborted, the caller to resume is not a signalled waiter, the woken caller
is not suspended on the signalled condition). -/
def to_step (sys : to_sys) (ev : to_event) : Option to_sys :=
  if sys.aborted then none
  else
    match ev with
    | to_event.grab s =>
      match gcs_to_grab sys.tq s with
      | to_result.ret err tq' _ =>
        some { sys with tq := tq'
                        threads := sys.threads ++ [grab_thread.returned s err]
                        holders := if err = 0 then sys.holders ++ [s] else sys.holders }
      | to_result.wait tq' =>
        some { sys with tq := tq'
                        threads := sys.threads ++ [grab_thread.waiting s false] }
      | to_result.abort =>
        some { sys with threads := sys.threads ++ [grab_thread.aborted s]
                        aborted := true }
      | to_result.diverge => none
    | to_event.wakeup t =>
      match sys.threads[t]? with
      | some (grab_thread.waiting s true) =>
        match gcs_to_grab_wakeup sys.tq s with
        | to_result.ret err tq' _ =>
          some { sys with tq := tq'
                          threads := sys.threads.set t (grab_thread.returned s err)
                          holders := if err = 0 then sys.holders ++ [s] else sys.holders }
        | to_result.abort =>
          some { sys with threads := sys.threads.set t (grab_thread.aborted s)
                          aborted := true }
        | _ => none
      | _ => none
    | to_event.release s woken => to_apply sys (gcs_to_release sys.tq s) woken
    | to_event.cancel s woken => to_apply sys (gcs_to_cancel sys.tq s) woken
    | to_event.self_cancel s => to_apply sys (gcs_to_self_cancel sys.tq s) none

/-- A run of the system. -/
def to_run : to_sys → List to_event → Option to_sys
  | sys, [] => some sys
  | sys, ev :: evs =>
    match to_step sys ev with
    | some sys' => to_run sys' evs
    | none => none

/-- A run of the system during which the current seqno stays below `s`. -/
def to_run_below (s : Nat) : to_sys → List to_event → Option to_sys
  | sys, [] => some sys
  | sys, ev :: evs =>
    match to_step sys ev with
    | some sys' => if sys'.tq.seqno < s then to_run_below s sys' evs else none
    | none => none

/-- The system around a gate on which nobody has called yet. -/
def to_sys_init (tq : gcs_to) : to_sys :=
  { tq := tq, threads := [], holders := [], aborted := false }

/-- Number of slots of the ring in state HOLDER. -/
def holder_count (tq : gcs_to) : Nat :=
  (tq.queue.filter (fun w => decide (w.state = waiter_state_t.HOLDER))).length

/-- The fields of the gate that no slot assignment changes. -/
def to_frame (tq tq' : gcs_to) : Prop :=
  tq'.seqno = tq.seqno ∧ tq'.qlen = tq.qlen ∧ tq'.qmask = tq.qmask ∧
    tq'.queue.length = tq.queue.length

/-- What may be said of the caller of `gcs_to_grab(s)` while the current seqno
is below `s`: it waits, and if its condition has been signalled its slot is no
longer WAIT; or its grab has returned `-ECANCELED`; or it has ended in
`abort()`. -/
def thread_below (s : Nat) (tq : gcs_to) : grab_thread → Prop
  | grab_thread.waiting s' sig =>
    s' = s ∧ (sig = true → slot_state tq s ≠ waiter_state_t.WAIT)
  | grab_thread.returned s' e => s' = s ∧ e = -ECANCELED
  | grab_thread.aborted s' => s' = s

/-- Invariant of the runs in which the current seqno stays below `s`, for the
caller number `t` of `gcs_to_grab(s)`. -/
def grab_inv (s t : Nat) (sys : to_sys) : Prop :=
  to_wf sys.tq ∧ sys.tq.seqno < s ∧ s < sys.tq.seqno + sys.tq.qlen ∧
    s + sys.tq.qlen ≤ SEQNO_RANGE ∧
    slot_state sys.tq s ≠ waiter_state_t.RELEASED ∧
    ∃ th, sys.threads[t]? = some th ∧ thread_below s sys.tq th

/-! ## wsdb : write sets, local transaction table, certification

The sources of the write-set database are not part of the repository slice;
wsdb_api.h declares its types and functions. The types are taken from
wsdb_api.h, the functions are modelled from the specification. -/

/-- The sentinel `GALERA_ABORT_SEQNO` of wsdb_api.h: `ULLONG_MAX`. -/
def GALERA_ABORT_SEQNO : Nat := 18446744073709551615

/-- Return code `WSDB_OK` of wsdb_api.h. -/
def WSDB_OK : Int := 0

/-- Return code `WSDB_CERTIFICATION_FAIL` of wsdb_api.h. -/
def WSDB_CERTIFICATION_FAIL : Int := 102

/-- Type of a write set, `enum wsdb_ws_type`. -/
inductive wsdb_ws_type where
  | WSDB_WS_TYPE_TRX
  | WSDB_WS_TYPE_CONN
  deriving DecidableEq, Repr

/-- Level of a write set, `enum wsdb_ws_level`. -/
inductive wsdb_ws_level where
  | WSDB_WS_DATA_ROW
  | WSDB_WS_DATA_COLS
  | WSDB_WS_QUERY
  deriving DecidableEq, Repr

/-- Data mode of an item, `enum wsdb_item_data_mode`. -/
inductive wsdb_item_data_mode where
  | NO_DATA
  | COLUMN
  | ROW
  deriving DecidableEq, Repr

/-- Key of a row, `struct wsdb_key_rec`: the table name and the bytes of the
key parts. -/
structure wsdb_key_rec where
  dbtable : List Nat
  key : List Nat
  deriving DecidableEq, Repr

/-- Item of a write set, `struct wsdb_item_rec`; `row` is `u.row.data`. -/
structure wsdb_item_rec where
  action : Nat
  key : wsdb_key_rec
  data_mode : wsdb_item_data_mode
  row : List Nat
  deriving DecidableEq, Repr

/-- Write set, `struct wsdb_write_set`; a query is the list of its bytes, the
counts are the lengths of the lists. -/
structure wsdb_write_set where
  local_trx_id : Nat
  last_seen_trx : Nat
  type : wsdb_ws_type
  level : wsdb_ws_level
  queries : List (List Nat)
  conn_queries : List (List Nat)
  items : List wsdb_item_rec
  deriving DecidableEq, Repr

/-- Row-key footprint of an item: table, key bytes and action. -/
structure footprint where
  dbtable : List Nat
  key : List Nat
  action : Nat
  deriving DecidableEq, Repr

/-- Footprint of an item of a write set. -/
def item_footprint (it : wsdb_item_rec) : footprint :=
  { dbtable := it.key.dbtable, key := it.key.key, action := it.action }

/-- Footprints of a write set, in the order of its items. -/
def ws_footprints (ws : wsdb_write_set) : List footprint :=
  ws.items.map item_footprint

/-- Record of a local transaction: its id and the seqnos assigned to it. -/
structure local_trx_rec where
  trx_id : Nat
  seqno_l : Nat
  seqno_g : Nat
  deriving DecidableEq, Repr

/-- Modelled from the spec: `wsdb_get_local_trx_seqno`, the lookup
`get_seqno_local(trx_id)` of the local transaction table; 0 (the reserved
seqno) when no seqno is recorded for the transaction. -/
def wsdb_get_local_trx_seqno (tbl : List local_trx_rec) (trx_id : Nat) : Nat :=
  match tbl.find? (fun r => decide (r.trx_id = trx_id)) with
  | some r => r.seqno_l
  | none => 0

/-- Modelled from the spec: `wsdb_delete_local_trx_info`, the operation
`erase(trx_id)` of the local transaction table. -/
def wsdb_delete_local_trx_info (tbl : List local_trx_rec) (trx_id : Nat) :
    List local_trx_rec :=
  tbl.filter (fun r => !decide (r.trx_id = trx_id))

/-- Modelled from the spec: `wsdb_assign_trx`, the operation
`assign(trx_id, seqno_local, seqno_global)` of the local transaction table:
it records the seqnos of the transaction, replacing earlier ones. -/
def wsdb_assign_trx (tbl : List local_trx_rec) (trx_id seqno_l seqno_g : Nat) :
    List local_trx_rec :=
  { trx_id := trx_id, seqno_l := seqno_l, seqno_g := seqno_g } ::
    wsdb_delete_local_trx_info tbl trx_id

/-- Modelled from the spec: `wsdb_get_write_set`, the write set built by the
append operations for a local transaction; `none` (NULL) when nothing was
appended. -/
def wsdb_get_write_set (wss : List (Nat × wsdb_write_set)) (trx_id _conn_id : Nat) :
    Option wsdb_write_set :=
  match wss.find? (fun p => decide (p.1 = trx_id)) with
  | some p => some p.2
  | none => none

/-- Modelled from the spec: `wsdb_delete_local_trx`, which drops the write set
of a local transaction. -/
def wsdb_delete_local_trx (wss : List (Nat × wsdb_write_set)) (trx_id : Nat) :
    List (Nat × wsdb_write_set) :=
  wss.filter (fun p => !decide (p.1 = trx_id))

/-- Modelled from the spec: the lookup of a footprint in the certification
index, a map from footprint to the seqno of its latest committer. -/
def cert_lookup (index : List (footprint × Nat)) (f : footprint) : Option Nat :=
  match index.find? (fun p => decide (p.1 = f)) with
  | some p => some p.2
  | none => none

/-- Modelled from the spec: `wsdb_certification_test`, the certification
contract of the write-set store: the write set fails iff one of its footprints
is in the index at a seqno `s_x` with `last_seen < s_x < trx_seqno`. -/
def wsdb_certification_test (index : List (footprint × Nat)) (ws : wsdb_write_set)
    (trx_seqno : Nat) : Int :=
  if (ws_footprints ws).any (fun f =>
      match cert_lookup index f with
      | some sx => decide (ws.last_seen_trx < sx ∧ sx < trx_seqno)
      | none => false)
  then WSDB_CERTIFICATION_FAIL else WSDB_OK

/-- Modelled from the spec: insertion of a footprint at `trx_seqno`,
overwriting an earlier value. -/
def cert_insert (index : List (footprint × Nat)) (f : footprint) (trx_seqno : Nat) :
    List (footprint × Nat) :=
  (f, trx_seqno) :: index.filter (fun p => !decide (p.1 = f))

/-- Modelled from the spec: `wsdb_append_write_set`, certification followed,
on pass, by the insertion of the footprints of the write set at `trx_seqno`;
on fail the index is not changed. -/
def wsdb_append_write_set (index : List (footprint × Nat)) (trx_seqno : Nat)
    (ws : wsdb_write_set) : Int × List (footprint × Nat) :=
  if wsdb_certification_test index ws trx_seqno = WSDB_OK then
    (WSDB_OK, (ws_footprints ws).foldl (fun ix f => cert_insert ix f trx_seqno) index)
  else (WSDB_CERTIFICATION_FAIL, index)

/-! ## galera.c : engine state

The static variables of galera.c are gathered in `galera_state`. Every
function returns, with its status and the new state, the list of the calls it
made to the gate, to the write-set store, to group communication and to the
handlers of the application. -/

/-- Status codes, `enum galera_status` of galera.h. -/
inductive galera_status where
  | GALERA_OK
  | GALERA_WARNING
  | GALERA_TRX_FAIL
  | GALERA_CONN_FAIL
  | GALERA_NODE_FAIL
  | GALERA_FATAL
  deriving DecidableEq, Repr

/-- Replication state, `enum galera_repl_state` of galera.c. -/
inductive galera_repl_state where
  | GALERA_INITIALIZED
  | GALERA_ENABLED
  | GALERA_DISABLED
  deriving DecidableEq, Repr

/-- Types of action delivered by `gcs_recv`, as galera_recv tells them
apart; `GCS_ACT_OTHER` is any other value. -/
inductive gcs_act_type_t where
  | GCS_ACT_DATA
  | GCS_ACT_SNAPSHOT
  | GCS_ACT_PRIMARY
  | GCS_ACT_NON_PRIMARY
  | GCS_ACT_OTHER
  deriving DecidableEq, Repr

/-- A call made by a function of galera.c. -/
inductive galera_call where
  | to_grab (seqno : Nat)
  | to_release (seqno : Nat)
  | to_cancel (seqno : Nat)
  | to_self_cancel (seqno : Nat)
  | gcs_repl
  | append_write_set (seqno_g : Nat) (ws : wsdb_write_set)
  | assign_trx (trx_id seqno_l seqno_g : Nat)
  | delete_local_trx (trx_id : Nat)
  | delete_local_trx_info (trx_id : Nat)
  | set_local_trx_committed (trx_id : Nat)
  | set_global_trx_committed (seqno_g : Nat)
  | job_start (seqno_l : Nat)
  | job_end
  | ws_start (seqno : Nat)
  | execute (query : List Nat)
  | apply_row (row : List Nat)
  deriving DecidableEq, Repr

/-- The static variables of galera.c and the state of the write-set store:
`Galera.repl_state`, the gate `to_queue`, the local transaction table, the
write sets under construction, the certification index and the seqnos
registered as committed. -/
structure galera_state where
  repl_state : galera_repl_state
  to_queue : gcs_to
  local_trx : List local_trx_rec
  local_ws : List (Nat × wsdb_write_set)
  cert_index : List (footprint × Nat)
  committed : List Nat
  deriving DecidableEq, Repr

/-- Handlers set by the application: `bf_execute_cb` and `bf_apply_row_cb`
(`none` is NULL). A handler is a function of the number of calls made so far,
and of its argument, to its return code. -/
structure galera_handlers where
  bf_execute_cb : Nat → List Nat → Int
  bf_apply_row_cb : Option (Nat → List Nat → Int)

/-- Outcome of a function of galera.c. -/
inductive galera_outcome where
  /-- The function returned `rc`. -/
  | ret (rc : galera_status) (st : galera_state) (calls : List galera_call)
  /-- The function ended in `abort()`. -/
  | abort (calls : List galera_call)
  /-- A retry loop did not finish within its fuel. -/
  | diverge
  deriving DecidableEq, Repr

/-- The blocking call `gcs_to_grab(to_queue, seqno)`. When the caller has to
wait, `wake` is what the other threads have done to the engine by the time the
caller resumes. `none` when the call ends in `abort()`. -/
def to_queue_grab (wake : galera_state → galera_state) (st : galera_state) (seqno : Nat) :
    Option (Int × galera_state) :=
  match gcs_to_grab st.to_queue seqno with
  | to_result.ret err tq' _ => some (err, { st with to_queue := tq' })
  | to_result.wait tq' =>
    let st2 := wake { st with to_queue := tq' }
    match gcs_to_grab_wakeup st2.to_queue seqno with
    | to_result.ret err tq2 _ => some (err, { st2 with to_queue := tq2 })
    | _ => none
  | _ => none

/-- The initialisation of the gate in galera_init:
`to_queue = gcs_to_create(16384, 1)`. -/
def galera_init_to_queue : Option gcs_to :=
  gcs_to_create 16384 1

/-- Function `galera_committed`. -/
def galera_committed (st : galera_state) (trx_id : Nat) : galera_outcome :=
  if st.repl_state ≠ galera_repl_state.GALERA_ENABLED then
    galera_outcome.ret galera_status.GALERA_OK st []
  else
    let seqno_l := wsdb_get_local_trx_seqno st.local_trx trx_id
    let st1 := { st with local_trx := wsdb_delete_local_trx_info st.local_trx trx_id }
    let calls := [galera_call.set_local_trx_committed trx_id,
                  galera_call.delete_local_trx_info trx_id]
    if 0 < seqno_l then
      match gcs_to_release st1.to_queue seqno_l with
      | to_result.ret err tq' _ =>
        if err ≠ 0 then galera_outcome.abort (calls ++ [galera_call.to_release seqno_l])
        else
          galera_outcome.ret galera_status.GALERA_OK { st1 with to_queue := tq' }
            (calls ++ [galera_call.to_release seqno_l])
      | to_result.diverge => galera_outcome.diverge
      | _ => galera_outcome.abort (calls ++ [galera_call.to_release seqno_l])
    else
      galera_outcome.ret galera_status.GALERA_OK st1 calls

/-- Function `galera_rolledback`. -/
def galera_rolledback (st : galera_state) (trx_id : Nat) : galera_outcome :=
  if st.repl_state ≠ galera_repl_state.GALERA_ENABLED then
    galera_outcome.ret galera_status.GALERA_OK st []
  else
    let seqno_l := wsdb_get_local_trx_seqno st.local_trx trx_id
    let st1 := { st with local_trx := wsdb_delete_local_trx_info st.local_trx trx_id }
    let calls := [galera_call.delete_local_trx_info trx_id]
    if 0 < seqno_l ∧ seqno_l < GALERA_ABORT_SEQNO then
      match gcs_to_release st1.to_queue seqno_l with
      | to_result.ret _ tq' _ =>
        galera_outcome.ret galera_status.GALERA_OK { st1 with to_queue := tq' }
          (calls ++ [galera_call.to_release seqno_l])
      | to_result.diverge => galera_outcome.diverge
      | _ => galera_outcome.abort (calls ++ [galera_call.to_release seqno_l])
    else
      galera_outcome.ret galera_status.GALERA_OK st1 calls

/-- Function `galera_cancel_commit`. -/
def galera_cancel_commit (st : galera_state) (victim_trx : Nat) : galera_outcome :=
  if st.repl_state ≠ galera_repl_state.GALERA_ENABLED then
    galera_outcome.ret galera_status.GALERA_OK st []
  else
    let victim_seqno := wsdb_get_local_trx_seqno st.local_trx victim_trx
    if victim_seqno ≠ 0 then
      match gcs_to_cancel st.to_queue victim_seqno with
      | to_result.ret rcode tq' _ =>
        if rcode ≠ 0 then
          galera_outcome.ret galera_status.GALERA_WARNING { st with to_queue := tq' }
            [galera_call.to_cancel victim_seqno]
        else
          galera_outcome.ret galera_status.GALERA_OK { st with to_queue := tq' }
            [galera_call.to_cancel victim_seqno]
      | _ => galera_outcome.abort [galera_call.to_cancel victim_seqno]
    else
      galera_outcome.ret galera_status.GALERA_WARNING
        { st with local_trx :=
            wsdb_assign_trx st.local_trx victim_trx GALERA_ABORT_SEQNO GALERA_ABORT_SEQNO }
        [galera_call.assign_trx victim_trx GALERA_ABORT_SEQNO GALERA_ABORT_SEQNO]

/-- Function `galera_commit`. `xdr_ok` is the result of the XDR encoding of
the write set, `repl` the result `(rcode, seqno_g, seqno_l)` of `gcs_repl`,
`during_repl` what the other threads do to the engine while `gcs_repl` runs
(the commit mutex is released around it), and `wake` what they do while the
caller waits in the gate. -/
def galera_commit (st : galera_state) (trx_id conn_id : Nat) (xdr_ok : Bool)
    (repl : Int × Nat × Nat) (during_repl wake : galera_state → galera_state) :
    galera_outcome :=
  if st.repl_state ≠ galera_repl_state.GALERA_ENABLED then
    galera_outcome.ret galera_status.GALERA_OK st []
  else if wsdb_get_local_trx_seqno st.local_trx trx_id = GALERA_ABORT_SEQNO then
    galera_outcome.ret galera_status.GALERA_TRX_FAIL
      { st with local_ws := wsdb_delete_local_trx st.local_ws trx_id }
      [galera_call.delete_local_trx trx_id]
  else
    match wsdb_get_write_set st.local_ws trx_id conn_id with
    | none => galera_outcome.ret galera_status.GALERA_OK st []
    | some ws =>
      if !xdr_ok then galera_outcome.ret galera_status.GALERA_TRX_FAIL st []
      else
        let st1 := during_repl st
        let seqno_g := repl.2.1
        let seqno_l := repl.2.2
        if repl.1 < 0 then
          galera_outcome.ret galera_status.GALERA_CONN_FAIL st1 [galera_call.gcs_repl]
        else if wsdb_get_local_trx_seqno st1.local_trx trx_id = GALERA_ABORT_SEQNO then
          let st2 := { st1 with local_trx := wsdb_assign_trx st1.local_trx trx_id seqno_l seqno_g }
          let calls := [galera_call.gcs_repl, galera_call.assign_trx trx_id seqno_l seqno_g,
                        galera_call.to_self_cancel seqno_l]
          match gcs_to_self_cancel st2.to_queue seqno_l with
          | to_result.ret _ tq' _ =>
            galera_outcome.ret galera_status.GALERA_TRX_FAIL { st2 with to_queue := tq' } calls
          | _ => galera_outcome.abort calls
        else
          let st2 := { st1 with local_trx := wsdb_assign_trx st1.local_trx trx_id seqno_l seqno_g }
          let calls := [galera_call.gcs_repl, galera_call.assign_trx trx_id seqno_l seqno_g,
                        galera_call.to_grab seqno_l]
          match to_queue_grab wake st2 seqno_l with
          | none => galera_outcome.abort calls
          | some (rcode, st3) =>
            if rcode ≠ 0 then galera_outcome.ret galera_status.GALERA_TRX_FAIL st3 calls
            else
              let cert := wsdb_append_write_set st3.cert_index seqno_g ws
              let st4 := { st3 with cert_index := cert.2 }
              let calls2 := calls ++ [galera_call.append_write_set seqno_g ws]
              if cert.1 = WSDB_OK then
                galera_outcome.ret galera_status.GALERA_OK st4 calls2
              else if cert.1 = WSDB_CERTIFICATION_FAIL then
                galera_outcome.ret galera_status.GALERA_TRX_FAIL st4 calls2
              else
                galera_outcome.ret galera_status.GALERA_CONN_FAIL st4 calls2

/-- Function `ws_conflict_check`, on the jobs `(seqno, ws)`; `index` is the
certification index on which `wsdb_certification_test` works. -/
def ws_conflict_check (index : List (footprint × Nat)) (job1 job2 : Nat × wsdb_write_set) :
    Int :=
  if job1.1 < job2.1 then 0
  else
    let ws1 := { job1.2 with last_seen_trx := (job2.1 + SEQNO_RANGE - 1) % SEQNO_RANGE }
    let rcode := wsdb_certification_test index ws1 ((job2.1 + 1) % SEQNO_RANGE)
    if rcode ≠ 0 then 1 else 0

/-! ## galera.c : applying write sets and the receive loop -/

/-- The statement of `apply_query(app_ctx, "commit\0", 7)`: the seven bytes
of `commit` and its terminator. -/
def commit_query : List Nat := [99, 111, 109, 109, 105, 116, 0]

/-- Loop of `apply_queries` (and of the connection queries in
`apply_write_set`): `bf_execute_cb` on each query in order, stopping with
`GALERA_TRX_FAIL` at the first return code that is not 0. -/
def apply_queries (h : galera_handlers) :
    List galera_call → List (List Nat) → galera_status × List galera_call
  | calls, [] => (galera_status.GALERA_OK, calls)
  | calls, q :: qs =>
    if h.bf_execute_cb calls.length q = 0 then
      apply_queries h (calls ++ [galera_call.execute q]) qs
    else (galera_status.GALERA_TRX_FAIL, calls ++ [galera_call.execute q])

/-- Loop of `apply_rows` over the items, `cb` being `bf_apply_row_cb`: an item
whose data mode is not ROW is skipped. -/
def apply_rows_loop (cb : Nat → List Nat → Int) :
    List galera_call → List wsdb_item_rec → galera_status × List galera_call
  | calls, [] => (galera_status.GALERA_OK, calls)
  | calls, it :: its =>
    if it.data_mode ≠ wsdb_item_data_mode.ROW then apply_rows_loop cb calls its
    else if cb calls.length it.row = 0 then
      apply_rows_loop cb (calls ++ [galera_call.apply_row it.row]) its
    else (galera_status.GALERA_TRX_FAIL, calls ++ [galera_call.apply_row it.row])

/-- Function `apply_rows`. -/
def apply_rows (h : galera_handlers) (calls : List galera_call) (ws : wsdb_write_set) :
    galera_status × List galera_call :=
  match h.bf_apply_row_cb with
  | none => (galera_status.GALERA_FATAL, calls)
  | some cb => apply_rows_loop cb calls ws.items

/-- Function `apply_write_set`. -/
def apply_write_set (h : galera_handlers) (calls : List galera_call) (ws : wsdb_write_set) :
    galera_status × List galera_call :=
  let r := apply_queries h calls ws.conn_queries
  if r.1 ≠ galera_status.GALERA_OK then (galera_status.GALERA_TRX_FAIL, r.2)
  else
    match ws.level with
    | wsdb_ws_level.WSDB_WS_QUERY => apply_queries h r.2 ws.queries
    | wsdb_ws_level.WSDB_WS_DATA_ROW => apply_rows h r.2 ws
    | wsdb_ws_level.WSDB_WS_DATA_COLS => (galera_status.GALERA_TRX_FAIL, r.2)

/-- Loop `while((rcode = apply_write_set(app_ctx, ws))) gu_warn(...)` of
process_query_write_set; one unit of fuel per call of apply_write_set. -/
def apply_retry (h : galera_handlers) (ws : wsdb_write_set) :
    Nat → List galera_call → Option (List galera_call)
  | 0, _ => none
  | fuel + 1, calls =>
    let r := apply_write_set h calls ws
    if r.1 ≠ galera_status.GALERA_OK then apply_retry h ws fuel r.2 else some r.2

/-- Case WSDB_OK under the label `retry` of process_query_write_set: start
the job, apply the write set until it succeeds, end the job, execute the
commit statement, and start over when that fails. -/
def apply_commit_retry (h : galera_handlers) (ws : wsdb_write_set) (seqno_l : Nat) :
    Nat → List galera_call → Option (List galera_call)
  | 0, _ => none
  | fuel + 1, calls =>
    match apply_retry h ws (fuel + 1) (calls ++ [galera_call.job_start seqno_l]) with
    | none => none
    | some c1 =>
      let c2 := c1 ++ [galera_call.job_end]
      if h.bf_execute_cb c2.length commit_query ≠ 0 then
        apply_commit_retry h ws seqno_l fuel (c2 ++ [galera_call.execute commit_query])
      else some (c2 ++ [galera_call.execute commit_query])

/-- The call `gcs_to_release(to_queue, seqno_l)` that ends the processing of a
delivered action; its return value is not looked at. -/
def to_queue_release (st : galera_state) (seqno_l : Nat) (calls : List galera_call) :
    galera_outcome :=
  match gcs_to_release st.to_queue seqno_l with
  | to_result.ret _ tq' _ =>
    galera_outcome.ret galera_status.GALERA_OK { st with to_queue := tq' }
      (calls ++ [galera_call.to_release seqno_l])
  | to_result.diverge => galera_outcome.diverge
  | _ => galera_outcome.abort (calls ++ [galera_call.to_release seqno_l])

/-- Function `process_conn_write_set` (a `void` function: the status of a
normal return is `GALERA_OK`). `calls` are the calls made so far by the
caller. -/
def process_conn_write_set (h : galera_handlers) (wake : galera_state → galera_state)
    (st : galera_state) (calls : List galera_call) (ws : wsdb_write_set) (seqno_l : Nat) :
    galera_outcome :=
  let calls1 := calls ++ [galera_call.to_grab seqno_l]
  match to_queue_grab wake st seqno_l with
  | none => galera_outcome.abort calls1
  | some (rcode, st1) =>
    if rcode ≠ 0 then galera_outcome.abort calls1
    else
      let r := apply_write_set h calls1 ws
      to_queue_release st1 seqno_l r.2

/-- Function `process_query_write_set` (a `void` function). -/
def process_query_write_set (fuel : Nat) (h : galera_handlers)
    (wake : galera_state → galera_state) (st : galera_state) (calls : List galera_call)
    (ws : wsdb_write_set) (seqno_g seqno_l : Nat) : galera_outcome :=
  let calls1 := calls ++ [galera_call.to_grab seqno_l]
  match to_queue_grab wake st seqno_l with
  | none => galera_outcome.abort calls1
  | some (rcode, st1) =>
    if rcode ≠ 0 then galera_outcome.abort calls1
    else
      let cert := wsdb_append_write_set st1.cert_index seqno_g ws
      let st2 := { st1 with cert_index := cert.2 }
      let calls2 := calls1 ++ [galera_call.append_write_set seqno_g ws]
      if cert.1 = WSDB_OK then
        match apply_commit_retry h ws seqno_l fuel calls2 with
        | none => galera_outcome.diverge
        | some calls3 =>
          to_queue_release { st2 with committed := seqno_g :: st2.committed } seqno_l
            (calls3 ++ [galera_call.set_global_trx_committed seqno_g])
      else
        to_queue_release st2 seqno_l calls2

/-- Function `process_write_set`; `ws` is the result of the XDR decoding of
the action (`none` when it fails). -/
def process_write_set (fuel : Nat) (h : galera_handlers)
    (wake : galera_state → galera_state) (st : galera_state) (ws : Option wsdb_write_set)
    (seqno_g seqno_l : Nat) : galera_outcome :=
  match ws with
  | none => galera_outcome.ret galera_status.GALERA_OK st []
  | some ws =>
    let calls := [galera_call.ws_start seqno_l]
    let r :=
      match ws.type with
      | wsdb_ws_type.WSDB_WS_TYPE_TRX =>
        process_query_write_set fuel h wake st calls ws seqno_g seqno_l
      | wsdb_ws_type.WSDB_WS_TYPE_CONN =>
        process_conn_write_set h wake st calls ws seqno_l
    match r with
    | galera_outcome.ret rc st' calls' =>
      galera_outcome.ret rc st' (calls' ++ [galera_call.ws_start 0])
    | other => other

/-- One delivery of `gcs_recv` to the loop of galera_recv: the return code of
`gcs_recv`, the type of the action, its decoded write set and its seqnos. -/
structure gcs_action where
  rcode : Int
  action_type : gcs_act_type_t
  ws : Option wsdb_write_set
  seqno_g : Nat
  seqno_l : Nat
  deriving DecidableEq, Repr

/-- Body of the loop of `galera_recv` for one delivery. The result is the
outcome of the pass and whether the loop goes on (`true`) or galera_recv
returns the status (`false`). -/
def galera_recv_action (fuel : Nat) (h : galera_handlers)
    (wake : galera_state → galera_state) (st : galera_state) (a : gcs_action) :
    galera_outcome × Bool :=
  if a.rcode < 0 then (galera_outcome.ret galera_status.GALERA_CONN_FAIL st [], false)
  else
    match a.action_type with
    | gcs_act_type_t.GCS_ACT_DATA =>
      (process_write_set fuel h wake st a.ws a.seqno_g a.seqno_l, true)
    | gcs_act_type_t.GCS_ACT_OTHER =>
      (galera_outcome.ret galera_status.GALERA_FATAL st [], false)
    | _ =>
      let calls := [galera_call.to_grab a.seqno_l]
      match to_queue_grab wake st a.seqno_l with
      | none => (galera_outcome.abort calls, false)
      | some (rcode, st1) =>
        if rcode ≠ 0 then (galera_outcome.abort calls, false)
        else (to_queue_release st1 a.seqno_l calls, true)

/-- Loop of `galera_recv` over the successive deliveries of `gcs_recv`, the
gcs connection being open; the calls of the passes are concatenated. The loop
has no exit of its own: when the deliveries run out the state reached is
returned with status `GALERA_OK`. -/
def galera_recv (fuel : Nat) (h : galera_handlers) (wake : galera_state → galera_state) :
    galera_state → List galera_call → List gcs_action → galera_outcome
  | st, calls, [] => galera_outcome.ret galera_status.GALERA_OK st calls
  | st, calls, a :: as =>
    match galera_recv_action fuel h wake st a with
    | (galera_outcome.ret rc st' calls', goes_on) =>
      if goes_on then galera_recv fuel h wake st' (calls ++ calls') as
      else galera_outcome.ret rc st' (calls ++ calls')
    | (galera_outcome.abort calls', _) => galera_outcome.abort (calls ++ calls')
    | (galera_outcome.diverge, _) => galera_outcome.diverge

/-! ## Example engine states -/

/-- The row key `k` of table `t`. -/
def key_ex : wsdb_key_rec := { dbtable := [116], key := [107] }

/-- A transaction write set of one statement that updates row `k`, built when
seqno 10 was the last one seen. -/
def ws_ex : wsdb_write_set :=
  { local_trx_id := 1, last_seen_trx := 10,
    type := wsdb_ws_type.WSDB_WS_TYPE_TRX, level := wsdb_ws_level.WSDB_WS_QUERY,
    queries := [[85]], conn_queries := [],
    items := [{ action := 85, key := key_ex,
                data_mode := wsdb_item_data_mode.NO_DATA, row := [] }] }

/-- An enabled engine on a fresh gate of four slots at seqno 1, with the write
set `ws_ex` of local transaction 1 and an empty certification index. -/
def galera_ex1 : galera_state :=
  { repl_state := galera_repl_state.GALERA_ENABLED, to_queue := gate_ex2,
    local_trx := [], local_ws := [(1, ws_ex)], cert_index := [], committed := [] }

/-- The engine `galera_ex1` after row `k` has been committed at seqno 11. -/
def galera_ex2 : galera_state :=
  { galera_ex1 with cert_index := [(item_footprint
      { action := 85, key := key_ex, data_mode := wsdb_item_data_mode.NO_DATA,
        row := [] }, 11)] }

/-- Handlers of an application whose statements and rows always apply. -/
def handlers_ok : galera_handlers :=
  { bf_execute_cb := fun _ _ => 0, bf_apply_row_cb := some (fun _ _ => 0) }

/-- The engine that galera_init and galera_enable leave, with nothing
committed yet: the gate is `gcs_to_create(16384, 1)`. -/
def galera_init_state (tq : gcs_to) : galera_state :=
  { repl_state := galera_repl_state.GALERA_ENABLED, to_queue := tq,
    local_trx := [], local_ws := [], cert_index := [], committed := [] }

/-- The write set of scenario 1: one INSERT statement of local transaction 1,
touching row `k`, with nothing seen before. -/
def ws_ex1 : wsdb_write_set :=
  { local_trx_id := 1, last_seen_trx := 0,
    type := wsdb_ws_type.WSDB_WS_TYPE_TRX, level := wsdb_ws_level.WSDB_WS_QUERY,
    queries := [[73]], conn_queries := [],
    items := [{ action := 73, key := key_ex,
                data_mode := wsdb_item_data_mode.NO_DATA, row := [] }] }

/-- The engine `galera_ex2` once local transaction 1 holds the gate at local
seqno 1 with global seqno 12. -/
def galera_ex2_held : galera_state :=
  { galera_ex2 with
    to_queue := set_state gate_ex2 1 waiter_state_t.HOLDER
    local_trx := [{ trx_id := 1, seqno_l := 1, seqno_g := 12 }] }

/-- The gate that galera_init creates: 16384 slots, all RELEASED, at seqno 1. -/
def to_queue_init : gcs_to :=
  { seqno := 1, used := 0, qlen := 16384, qmask := 16383,
    queue := List.replicate 16384 ⟨waiter_state_t.RELEASED, 0⟩ }

/-- Scenario 1: the engine after galera_init and galera_enable, with the write
set of local transaction 1 built by `append_query`. -/
def galera_scn1 : galera_state :=
  { galera_init_state to_queue_init with local_ws := [(1, ws_ex1)] }

/-- Scenario 1 after the grab of galera_commit at local seqno 1, global seqno
1: slot 1 is HOLDER and the seqnos are recorded. -/
def galera_scn1_held : galera_state :=
  { galera_scn1 with
    to_queue := set_state to_queue_init 1 waiter_state_t.HOLDER
    local_trx := [{ trx_id := 1, seqno_l := 1, seqno_g := 1 }] }

/-- The current seqno of the gate after a function of galera.c has returned. -/
def outcome_seqno : galera_outcome → Option Nat
  | galera_outcome.ret _ st _ => some st.to_queue.seqno
  | _ => none

/-- The status with which a function of galera.c has returned. -/
def outcome_status : galera_outcome → Option galera_status
  | galera_outcome.ret rc _ _ => some rc
  | _ => none

/-- The calls made by a function of galera.c. -/
def outcome_calls : galera_outcome → List galera_call
  | galera_outcome.ret _ _ calls => calls
  | galera_outcome.abort calls => calls
  | galera_outcome.diverge => []

/-- What another thread does to the engine when it runs
`galera_cancel_commit(victim_trx)` to its return. -/
def cancel_commit_by_other (victim_trx : Nat) (st : galera_state) : galera_state :=
  match galera_cancel_commit st victim_trx with
  | galera_outcome.ret _ st' _ => st'
  | _ => st

/-- A gate with a ring of eight slots at seqno 3 whose slot 3 is held. -/
def gate_ex4 : gcs_to :=
  { seqno := 3, used := 0, qlen := 8, qmask := 7,
    queue := [⟨waiter_state_t.RELEASED, 0⟩, ⟨waiter_state_t.RELEASED, 0⟩,
              ⟨waiter_state_t.RELEASED, 0⟩, ⟨waiter_state_t.HOLDER, 0⟩,
              ⟨waiter_state_t.RELEASED, 0⟩, ⟨waiter_state_t.RELEASED, 0⟩,
              ⟨waiter_state_t.RELEASED, 0⟩, ⟨waiter_state_t.RELEASED, 0⟩] }

/-- Scenario 5: an enabled engine whose gate is held at seqno 3, with the
write set of local transaction 7. -/
def galera_scn5 : galera_state :=
  { repl_state := galera_repl_state.GALERA_ENABLED, to_queue := gate_ex4,
    local_trx := [], local_ws := [(7, ws_ex)], cert_index := [], committed := [] }

/-- A gate with a ring of eight slots at seqno 4 whose slot 4 is held. -/
def gate_ex5 : gcs_to :=
  { seqno := 4, used := 0, qlen := 8, qmask := 7,
    queue := [⟨waiter_state_t.RELEASED, 0⟩, ⟨waiter_state_t.RELEASED, 0⟩,
              ⟨waiter_state_t.RELEASED, 0⟩, ⟨waiter_state_t.RELEASED, 0⟩,
              ⟨waiter_state_t.HOLDER, 0⟩, ⟨waiter_state_t.RELEASED, 0⟩,
              ⟨waiter_state_t.RELEASED, 0⟩, ⟨waiter_state_t.RELEASED, 0⟩] }

/-- Scenario 3: an enabled engine whose gate is held at seqno 4, with the
write set of local transaction 9. -/
def galera_scn3 : galera_state :=
  { repl_state := galera_repl_state.GALERA_ENABLED, to_queue := gate_ex5,
    local_trx := [], local_ws := [(9, ws_ex)], cert_index := [], committed := [] }

/-- Scenario 3 when the commit of transaction 9, replicated at local seqno 5,
returns from its grab: it waited, and galera_cancel_commit ran meanwhile. -/
def galera_scn3_out : galera_state :=
  { galera_scn3 with
    to_queue := { gate_ex5 with
      queue := [⟨waiter_state_t.RELEASED, 0⟩, ⟨waiter_state_t.RELEASED, 0⟩,
                ⟨waiter_state_t.RELEASED, 0⟩, ⟨waiter_state_t.RELEASED, 0⟩,
                ⟨waiter_state_t.HOLDER, 0⟩, ⟨waiter_state_t.CANCELED, 0⟩,
                ⟨waiter_state_t.RELEASED, 0⟩, ⟨waiter_state_t.RELEASED, 0⟩] }
    local_trx := [{ trx_id := 9, seqno_l := 5, seqno_g := 20 }] }

/-- An enabled engine in which local transaction 7 was marked aborted before
its commit. -/
def galera_ex3 : galera_state :=
  { galera_scn5 with
    local_trx := [{ trx_id := 7, seqno_l := GALERA_ABORT_SEQNO,
                    seqno_g := GALERA_ABORT_SEQNO }] }

/-- The engine `galera_ex1` before galera_enable. -/
def galera_ex4 : galera_state :=
  { galera_ex1 with repl_state := galera_repl_state.GALERA_INITIALIZED }

/-- Scenario 3 while transaction 9, replicated at local seqno 5, is about to
be cancelled: its seqnos are recorded and the gate is held at seqno 4. -/
def galera_scn3_assigned : galera_state :=
  { galera_scn3 with local_trx := [{ trx_id := 9, seqno_l := 5, seqno_g := 20 }] }

/-- Whether a call is `gcs_to_release` on seqno `s`. -/
def is_release (s : Nat) : galera_call → Bool
  | galera_call.to_release s' => decide (s' = s)
  | _ => false

/-- Whether a call is `gcs_to_cancel` or `gcs_to_self_cancel` on seqno `s`. -/
def is_cancel (s : Nat) : galera_call → Bool
  | galera_call.to_cancel s' => decide (s' = s)
  | galera_call.to_self_cancel s' => decide (s' = s)
  | _ => false

/-- Number of calls of `gcs_to_release` on seqno `s`. -/
def release_count (s : Nat) (calls : List galera_call) : Nat :=
  calls.countP (is_release s)

/-- Number of calls of `gcs_to_cancel` and `gcs_to_self_cancel` on seqno `s`. -/
def cancel_count (s : Nat) (calls : List galera_call) : Nat :=
  calls.countP (is_cancel s)

/-- The life of a local transaction in its own thread: galera_commit, then
galera_committed when the commit returned `GALERA_OK` and galera_rolledback
otherwise. The result is the list of the calls of both functions, `none` when
one of them did not return. -/
def trx_life (st : galera_state) (trx_id conn_id : Nat) (repl : Int × Nat × Nat)
    (during_repl wake : galera_state → galera_state) : Option (List galera_call) :=
  match galera_commit st trx_id conn_id true repl during_repl wake with
  | galera_outcome.ret rc st1 calls1 =>
    match (if rc = galera_status.GALERA_OK then galera_committed st1 trx_id
           else galera_rolledback st1 trx_id) with
    | galera_outcome.ret _ _ calls2 => some (calls1 ++ calls2)
    | _ => none
  | _ => none


/-- Whether a call is one of the handlers that apply a write set:
`bf_execute_cb` or `bf_apply_row_cb`. -/
def is_apply_call : galera_call → Bool
  | galera_call.execute _ => true
  | galera_call.apply_row _ => true
  | _ => false

/-- Whether a call is the certification `wsdb_append_write_set`. -/
def is_certify_call : galera_call → Bool
  | galera_call.append_write_set _ _ => true
  | _ => false

/-- The write set `ws_ex1` at level WSDB_WS_DATA_COLS. -/
def ws_cols : wsdb_write_set :=
  { ws_ex1 with level := wsdb_ws_level.WSDB_WS_DATA_COLS }

/-- A connection-level write set of one statement, with the footprint of row
`k`, built when seqno 10 was the last one seen. -/
def ws_conn : wsdb_write_set :=
  { ws_ex with type := wsdb_ws_type.WSDB_WS_TYPE_CONN }

/-- Scenario 4: the deliveries DATA at local seqno 1, PRIMARY at local seqno 2
and DATA at local seqno 3; the write sets are `ws_ex1` at global seqno 1 and
`ws_ex` at global seqno 2. -/
def recv_scn4 : List gcs_action :=
  [{ rcode := 0, action_type := gcs_act_type_t.GCS_ACT_DATA, ws := some ws_ex1,
     seqno_g := 1, seqno_l := 1 },
   { rcode := 0, action_type := gcs_act_type_t.GCS_ACT_PRIMARY, ws := none,
     seqno_g := 1, seqno_l := 2 },
   { rcode := 0, action_type := gcs_act_type_t.GCS_ACT_DATA, ws := some ws_ex,
     seqno_g := 2, seqno_l := 3 }]

/-- The row key `g` of table `t`. -/
def key_ex2 : wsdb_key_rec := { dbtable := [116], key := [103] }

/-- A transaction write set of one statement that updates row `g`. -/
def ws_ex2 : wsdb_write_set :=
  { local_trx_id := 2, last_seen_trx := 0,
    type := wsdb_ws_type.WSDB_WS_TYPE_TRX, level := wsdb_ws_level.WSDB_WS_QUERY,
    queries := [[85]], conn_queries := [],
    items := [{ action := 85, key := key_ex2,
                data_mode := wsdb_item_data_mode.NO_DATA, row := [] }] }

/-- The delivery PRIMARY at local seqno 2 of scenario 4. -/
def recv_primary2 : gcs_action :=
  { rcode := 0, action_type := gcs_act_type_t.GCS_ACT_PRIMARY, ws := none,
    seqno_g := 1, seqno_l := 2 }

/-- Scenario 4 after the delivery DATA at local seqno 1: the gate is at seqno
2, the index holds row `k` at global seqno 1, which is registered committed. -/
def galera_scn4_data1 : galera_state :=
  { galera_ex1 with
    to_queue := { gate_ex2 with seqno := 2 }
    cert_index := [({ dbtable := [116], key := [107], action := 73 }, 1)]
    committed := [1] }

/-- Scenario 4 while the receive loop holds slot 2 for the PRIMARY action. -/
def galera_scn4_held : galera_state :=
  { galera_scn4_data1 with
    to_queue := set_state { gate_ex2 with seqno := 2 } 2 waiter_state_t.HOLDER }

/-- The gate that `gcs_to_create(2, 0)` builds: two slots, at seqno 0. -/
def gate_ex6 : gcs_to :=
  { seqno := 0, used := 0, qlen := 2, qmask := 1,
    queue := List.replicate 2 ⟨waiter_state_t.RELEASED, 0⟩ }

/-- The gate that `gcs_to_create(2, 1)` builds: two slots, at seqno 1. -/
def gate_ex7 : gcs_to :=
  { seqno := 1, used := 0, qlen := 2, qmask := 1,
    queue := List.replicate 2 ⟨waiter_state_t.RELEASED, 0⟩ }

/-- The gate that `gcs_to_create(8, 4)` builds: eight slots, at seqno 4. -/
def gate_ex8 : gcs_to :=
  { seqno := 4, used := 0, qlen := 8, qmask := 7,
    queue := List.replicate 8 ⟨waiter_state_t.RELEASED, 0⟩ }

/-- Whether the seqno of an event is in the ring of the gate:
`s - current_seqno < ring_size`, the seqno not being behind the gate. The
resumption of a caller has no seqno of its own. -/
def in_ring (tq : gcs_to) : to_event → Bool
  | to_event.grab s => decide (tq.seqno ≤ s ∧ s - tq.seqno < tq.qlen)
  | to_event.wakeup _ => true
  | to_event.release s _ => decide (tq.seqno ≤ s ∧ s - tq.seqno < tq.qlen)
  | to_event.cancel s _ => decide (tq.seqno ≤ s ∧ s - tq.seqno < tq.qlen)
  | to_event.self_cancel s => decide (tq.seqno ≤ s ∧ s - tq.seqno < tq.qlen)

/-- A run of the system in which the seqno of every event is in the ring of
the gate when the event happens. -/
def to_run_ring : to_sys → List to_event → Option to_sys
  | sys, [] => some sys
  | sys, ev :: evs =>
    if in_ring sys.tq ev then
      match to_step sys ev with
      | some sys' => to_run_ring sys' evs
      | none => none
    else none

/-! ## Apply order of the specification -/

/-- The apply order of the specification for a write set: the connection
queries in recorded order, then the body in recorded order, the statements for
level QUERY and the items that carry row data for level ROW; nothing for level
COLS. -/
def apply_plan (ws : wsdb_write_set) : List galera_call :=
  ws.conn_queries.map galera_call.execute ++
    (match ws.level with
     | wsdb_ws_level.WSDB_WS_QUERY => ws.queries.map galera_call.execute
     | wsdb_ws_level.WSDB_WS_DATA_ROW =>
       (ws.items.filter (fun it => decide (it.data_mode = wsdb_item_data_mode.ROW))).map
         (fun it => galera_call.apply_row it.row)
     | wsdb_ws_level.WSDB_WS_DATA_COLS => [])

/-- Return code of the handler behind a planned call, when `n` calls have been
made. -/
def callback_rc (h : galera_handlers) (n : Nat) : galera_call → Int
  | galera_call.execute q => h.bf_execute_cb n q
  | galera_call.apply_row r =>
    match h.bf_apply_row_cb with
    | some cb => cb n r
    | none => 0
  | _ => 0

/-- The specification of an apply: the planned calls are made in order, the
run stops with `GALERA_TRX_FAIL` at the first handler that returns non-zero,
and ends with `GALERA_OK` when every handler returned 0. -/
def run_callbacks (h : galera_handlers) :
    List galera_call → List galera_call → galera_status × List galera_call
  | calls, [] => (galera_status.GALERA_OK, calls)
  | calls, c :: cs =>
    if callback_rc h calls.length c = 0 then run_callbacks h (calls ++ [c]) cs
    else (galera_status.GALERA_TRX_FAIL, calls ++ [c])

/-- A row-level write set of two rows, the first item carrying no row data. -/
def ws_rows : wsdb_write_set :=
  { local_trx_id := 3, last_seen_trx := 0,
    type := wsdb_ws_type.WSDB_WS_TYPE_TRX, level := wsdb_ws_level.WSDB_WS_DATA_ROW,
    queries := [], conn_queries := [[83]],
    items := [{ action := 85, key := key_ex,
                data_mode := wsdb_item_data_mode.NO_DATA, row := [] },
              { action := 85, key := key_ex,
                data_mode := wsdb_item_data_mode.ROW, row := [1] },
              { action := 85, key := key_ex2,
                data_mode := wsdb_item_data_mode.ROW, row := [2] }] }

/-- Handlers whose row handler fails on row `[2]`. -/
def handlers_row2 : galera_handlers :=
  { bf_execute_cb := fun _ _ => 0,
    bf_apply_row_cb := some (fun _ r => if r = [2] then 1 else 0) }

/-- A gate of four slots at seqno 1 held by its holder, every other slot
CANCELED. -/
def gate_ex9 : gcs_to :=
  { seqno := 1, used := 0, qlen := 4, qmask := 3,
    queue := [⟨waiter_state_t.CANCELED, 0⟩, ⟨waiter_state_t.HOLDER, 0⟩,
              ⟨waiter_state_t.CANCELED, 0⟩, ⟨waiter_state_t.CANCELED, 0⟩] }

/-- An enabled engine on a fresh gate of four slots at seqno 1, in which
transaction 7 has no seqno recorded. -/
def galera_ex5 : galera_state :=
  { repl_state := galera_repl_state.GALERA_ENABLED, to_queue := gate_ex2,
    local_trx := [], local_ws := [(7, ws_ex)], cert_index := [], committed := [] }

/-! ## galeracomm : serialization helpers

The headers of gcomm (`write_uint32`, `read_uint32`, `Address`, `WriteBuf`)
are not part of the repository slice. A buffer is the list of its bytes. -/

/-- Range of `size_t` and of `uint64_t`. -/
def SIZE_RANGE : Nat := 2 ^ 64

/-- The four bytes of a 32-bit value, most significant first. -/
def be32 (w : Nat) : List Nat :=
  [w / 16777216 % 256, w / 65536 % 256, w / 256 % 256, w % 256]

/-- The 32-bit value held by four bytes, most significant first. -/
def of_be32 (b : List Nat) : Nat :=
  ((b.getD 0 0 * 256 + b.getD 1 0) * 256 + b.getD 2 0) * 256 + b.getD 3 0

/-- Modelled from the spec: `write_uint32(w, buf, buflen, offset)` of gcomm,
which is not part of the sources. It writes the four bytes of `w` in
big-endian order at `offset` and returns the offset that follows them, or 0
when the buffer has no room. The result is the pair of the return value and of
the buffer. -/
def write_uint32 (w : Nat) (buf : List Nat) (buflen offset : Nat) : Nat × List Nat :=
  if buflen < offset + 4 then (0, buf)
  else (offset + 4, buf.take offset ++ be32 (w % 4294967296) ++ buf.drop (offset + 4))

/-- Modelled from the spec: `read_uint32(buf, buflen, offset, &w)` of gcomm,
the inverse of `write_uint32`: the pair of the return value (0 when the buffer
has no four bytes at `offset`) and of the value read. -/
def read_uint32 (buf : List Nat) (buflen offset : Nat) : Nat × Nat :=
  if buflen < offset + 4 then (0, 0)
  else (offset + 4, of_be32 ((buf.drop offset).take 4))

/-- Modelled from the spec: class `Address` of gcomm, which is not part of the
sources. The assertion `off == 8 + offset` of `VSRCommand::write` fixes its
serial size at four bytes; an address is taken as a 32-bit value written by
`write_uint32`. -/
structure Address where
  value : Nat
  deriving DecidableEq, Repr

/-- Modelled from the spec: `Address::write`. -/
def Address.write (a : Address) (buf : List Nat) (buflen offset : Nat) : Nat × List Nat :=
  write_uint32 a.value buf buflen offset

/-- Modelled from the spec: `Address::read`; the pair of the return value and
of the address read. -/
def Address.read (buf : List Nat) (buflen offset : Nat) : Nat × Address :=
  ((read_uint32 buf buflen offset).1, ⟨(read_uint32 buf buflen offset).2⟩)

/-- Modelled from the spec: `Address::size`. -/
def Address.size (_a : Address) : Nat := 4

/-! ## vs_remote_backend.hpp : VSRCommand -/

/-- The enumeration `VSRCommand::Type`. -/
inductive VSRCommand_Type where
  | SET
  | JOIN
  | LEAVE
  | RESULT
  deriving DecidableEq, Repr

/-- The enumeration `VSRCommand::Result`. -/
inductive VSRCommand_Result where
  | SUCCESS
  | FAIL
  deriving DecidableEq, Repr

/-- Value of an enumerator of `VSRCommand::Type`. -/
def VSRCommand_Type.val : VSRCommand_Type → Nat
  | SET => 0
  | JOIN => 1
  | LEAVE => 2
  | RESULT => 3

/-- Value of an enumerator of `VSRCommand::Result`. -/
def VSRCommand_Result.val : VSRCommand_Result → Nat
  | SUCCESS => 0
  | FAIL => 1

/-- The conversion `static_cast<Type>(n)`; `none` for a value that is not an
enumerator. -/
def VSRCommand_Type.cast (n : Nat) : Option VSRCommand_Type :=
  if n = 0 then some SET else if n = 1 then some JOIN
  else if n = 2 then some LEAVE else if n = 3 then some RESULT else none

/-- The conversion `static_cast<Result>(n)`; `none` for a value that is not an
enumerator. -/
def VSRCommand_Result.cast (n : Nat) : Option VSRCommand_Result :=
  if n = 0 then some SUCCESS else if n = 1 then some FAIL else none

/-- Class `VSRCommand`. -/
structure VSRCommand where
  addr : Address
  type : VSRCommand_Type
  result : VSRCommand_Result
  deriving DecidableEq, Repr

/-- Function `VSRCommand::write`: the pair of the return value and of the
buffer. -/
def VSRCommand.write (c : VSRCommand) (buf : List Nat) (buflen offset : Nat) :
    Nat × List Nat :=
  let w := c.type.val ||| (c.result.val <<< 8)
  let r1 := write_uint32 w buf buflen offset
  if r1.1 = 0 then (0, r1.2)
  else
    let r2 := c.addr.write r1.2 buflen r1.1
    if r2.1 = 0 then (0, r2.2)
    else r2

/-- Function `VSRCommand::read` on a command `c`: the return value and the
command after the call; `none` when a value read is not an enumerator. -/
def VSRCommand.read (c : VSRCommand) (buf : List Nat) (buflen offset : Nat) :
    Option (Nat × VSRCommand) :=
  let r1 := read_uint32 buf buflen offset
  if r1.1 = 0 then some (0, c)
  else
    match VSRCommand_Type.cast (r1.2 &&& 255),
          VSRCommand_Result.cast ((r1.2 >>> 8) &&& 255) with
    | some t, some r =>
      let c1 := { c with type := t, result := r }
      match t with
      | VSRCommand_Type.JOIN | VSRCommand_Type.LEAVE =>
        let r2 := Address.read buf buflen r1.1
        if r2.1 = 0 then some (0, c1)
        else some (r2.1, { c1 with addr := r2.2 })
      | VSRCommand_Type.SET | VSRCommand_Type.RESULT => some (r1.1, c1)
    | _, _ => none

/-- Function `VSRCommand::size`. -/
def VSRCommand.size (c : VSRCommand) : Nat :=
  4 + c.addr.size

/-! ## transport_tcp.cpp : framing -/

/-- Class `TCPTransportHdr`: the four raw bytes and the length. -/
structure TCPTransportHdr where
  raw : List Nat
  len : Nat
  deriving DecidableEq, Repr

/-- Constructor `TCPTransportHdr(const size_t l)`; `len` is a `uint32_t`.
`none` when the constructor throws. -/
def TCPTransportHdr.of_len (l : Nat) : Option TCPTransportHdr :=
  let len := l % 4294967296
  let r := write_uint32 len (List.replicate 4 0) 4 0
  if r.1 = 0 then none else some { raw := r.2, len := len }

/-- Constructor `TCPTransportHdr(buf, buflen, offset)`; `none` when it throws.
The sum `sizeof(raw) + offset` is a `size_t`. -/
def TCPTransportHdr.of_buf (buf : List Nat) (buflen offset : Nat) :
    Option TCPTransportHdr :=
  if buflen < (4 + offset) % SIZE_RANGE then none
  else
    let raw := (buf.drop offset).take 4
    let r := read_uint32 raw 4 0
    if r.1 = 0 then none else some { raw := raw, len := r.2 }

/-- Function `TCPTransportHdr::get_raw_len`. -/
def TCPTransportHdr.get_raw_len : Nat := 4

/-- Modelled from the spec: class `WriteBuf` of gcomm, which is not part of the
sources: the headers prepended so far, outermost first, and the payload. -/
structure WriteBuf where
  hdr : List Nat
  buf : List Nat
  deriving DecidableEq, Repr

/-- Modelled from the spec: `WriteBuf::get_hdrlen`. -/
def WriteBuf.get_hdrlen (wb : WriteBuf) : Nat := wb.hdr.length

/-- Modelled from the spec: `WriteBuf::get_len`. -/
def WriteBuf.get_len (wb : WriteBuf) : Nat := wb.buf.length

/-- Modelled from the spec: `WriteBuf::get_totlen`. -/
def WriteBuf.get_totlen (wb : WriteBuf) : Nat := wb.hdr.length + wb.buf.length

/-- Modelled from the spec: `WriteBuf::prepend_hdr(h, len)`. -/
def WriteBuf.prepend_hdr (wb : WriteBuf) (h : List Nat) (len : Nat) : WriteBuf :=
  { wb with hdr := h.take len ++ wb.hdr }

/-- Modelled from the spec: `WriteBuf::rollback_hdr(len)`. -/
def WriteBuf.rollback_hdr (wb : WriteBuf) (len : Nat) : WriteBuf :=
  { wb with hdr := wb.hdr.drop len }

/-- Outcome of one call of `::send` on the socket: `n` bytes accepted, or -1
with `errno` EINTR, EAGAIN or another error. -/
inductive sock_result where
  | sent (n : Nat)
  | eintr
  | eagain
  | error
  deriving DecidableEq, Repr

/-- State of a transport, `enum TransportState`, as far as transport_tcp.cpp
uses it. -/
inductive TransportState where
  | TRANSPORT_S_CLOSED
  | TRANSPORT_S_CONNECTING
  | TRANSPORT_S_CONNECTED
  | TRANSPORT_S_LISTENING
  | TRANSPORT_S_FAILED
  deriving DecidableEq, Repr

/-- Class `TCPTransport`, with its socket: `wire` is the bytes the socket has
accepted so far and `sock` the outcomes of the calls of `::send` to come (when
they run out the socket answers EAGAIN); `pending` holds the copies of the
buffers not yet sent in full, each with the number of its bytes already
sent. -/
structure TCPTransport where
  state : TransportState
  pending : List (WriteBuf × Nat)
  pending_bytes : Nat
  max_pending_bytes : Nat
  contention_tries : Nat
  wire : List Nat
  sock : List sock_result
  deriving DecidableEq, Repr

/-- Value of `ENOTCONN` in errno.h (Linux). -/
def ENOTCONN : Int := 107

/-- Value of `EAGAIN` in errno.h (Linux). -/
def EAGAIN : Int := 11

/-- Value of `EPIPE` in errno.h (Linux). -/
def EPIPE : Int := 32

/-- The loops of `TCPTransport::send_nointr` over the outcomes of `::send`:
`data` is the buffer, `sent` the bytes sent so far by this call. The result is
the return value, the wire and the outcomes left. -/
def send_loop (data : List Nat) (offset : Nat) :
    List sock_result → Nat → List Nat → Int × List Nat × List sock_result
  | [], sent, wire => (sent, wire, [])
  | r :: rs, sent, wire =>
    match r with
    | sock_result.eintr => send_loop data offset rs sent wire
    | sock_result.eagain => (sent, wire, rs)
    | sock_result.error => (-1, wire, rs)
    | sock_result.sent n =>
      let n' := min n (data.length - offset - sent)
      if n' = 0 then (-1, wire, rs)
      else
        let wire' := wire ++ (data.drop (offset + sent)).take n'
        if sent + n' + offset < data.length then send_loop data offset rs (sent + n') wire'
        else (((sent + n' : Nat) : Int), wire', rs)

/-- Function `TCPTransport::send_nointr(buf, buflen, offset, flags)` on the
socket of `tp`: the return value and the transport. -/
def TCPTransport.send_nointr (tp : TCPTransport) (data : List Nat) (offset : Nat) :
    Int × TCPTransport :=
  if data.length = offset then (0, tp)
  else
    let r := send_loop data offset tp.sock 0 tp.wire
    (r.1, { tp with wire := r.2.1, sock := r.2.2 })

/-- The contention loop of `handle_down`: up to `contention_tries` calls of
`tmp_poll`, each of which lets the poll context run (`poll_out` is what it did
to the transport), while the pending bytes leave no room for `totlen`. -/
def contention_loop (poll_out : TCPTransport → TCPTransport) (totlen : Nat) :
    Nat → TCPTransport → TCPTransport
  | 0, tp => tp
  | n + 1, tp =>
    if tp.pending_bytes + totlen > tp.max_pending_bytes then
      contention_loop poll_out totlen n (poll_out tp)
    else tp

/-- Function `TCPTransport::handle_down(wb, dm)`: the return value, the
transport and the buffer of the caller after the call; `none` when the header
constructor throws. -/
def TCPTransport.handle_down (poll_out : TCPTransport → TCPTransport) (tp : TCPTransport)
    (wb : WriteBuf) : Option (Int × TCPTransport × WriteBuf) :=
  if tp.state ≠ TransportState.TRANSPORT_S_CONNECTED then some (ENOTCONN, tp, wb)
  else
    let tp1 :=
      if tp.pending_bytes + wb.get_totlen > tp.max_pending_bytes then
        (if tp.contention_tries > 0 then
          contention_loop poll_out wb.get_totlen tp.contention_tries tp
         else tp)
      else tp
    if tp.pending_bytes + wb.get_totlen > tp.max_pending_bytes ∧
        tp1.pending_bytes + wb.get_totlen > tp1.max_pending_bytes then
      some (EAGAIN, tp1, wb)
    else
      match TCPTransportHdr.of_len wb.get_totlen with
      | none => none
      | some hdr =>
        let wb1 := wb.prepend_hdr hdr.raw TCPTransportHdr.get_raw_len
        if tp1.pending.length ≠ 0 then
          some (0, { tp1 with pending := tp1.pending ++ [(wb1, 0)]
                              pending_bytes := tp1.pending_bytes + wb1.get_totlen },
                wb1.rollback_hdr TCPTransportHdr.get_raw_len)
        else
          let r1 := tp1.send_nointr wb1.hdr 0
          if r1.1 = -1 then some (EPIPE, r1.2, wb1.rollback_hdr TCPTransportHdr.get_raw_len)
          else if r1.1 ≠ (wb1.get_hdrlen : Int) then
            some (0, { r1.2 with pending := r1.2.pending ++ [(wb1, r1.1.toNat)]
                                 pending_bytes := r1.2.pending_bytes + wb1.get_totlen },
                  wb1.rollback_hdr TCPTransportHdr.get_raw_len)
          else
            let r2 := r1.2.send_nointr wb1.buf 0
            if r2.1 = -1 then some (EPIPE, r2.2, wb1.rollback_hdr TCPTransportHdr.get_raw_len)
            else if r1.1 + r2.1 ≠ ((wb1.get_len + wb1.get_hdrlen : Nat) : Int) then
              some (0, { r2.2 with
                         pending := r2.2.pending ++ [(wb1, (r1.1 + r2.1).toNat)]
                         pending_bytes := r2.2.pending_bytes + wb1.get_totlen },
                    wb1.rollback_hdr TCPTransportHdr.get_raw_len)
            else some (0, r2.2, wb1.rollback_hdr TCPTransportHdr.get_raw_len)

/-- The bytes that the peer receives from a transport once its pending
buffers are sent: the wire, then what is left to send of each pending
buffer. -/
def TCPTransport.outgoing (tp : TCPTransport) : List Nat :=
  tp.wire ++ (tp.pending.map (fun p => (p.1.hdr ++ p.1.buf).drop p.2)).flatten

/-- A connected transport with nothing pending, whose socket accepts three
bytes, then is interrupted, then accepts five bytes and would block. -/
def tcp_ex1 : TCPTransport :=
  { state := TransportState.TRANSPORT_S_CONNECTED, pending := [], pending_bytes := 0,
    max_pending_bytes := 1000, contention_tries := 0, wire := [],
    sock := [sock_result.sent 3, sock_result.eintr, sock_result.sent 5, sock_result.eagain] }

/-! ## gcs_queue.c and gcs_dummy.c : the dummy backend

Memory is a finite map from the addresses handed out by `malloc` to the queue
members stored there; a pointer is an address or NULL (`none`). The data of a
queue member is the message itself. -/

/-- Type of a message, `gcs_msg_type_t` of gcs.h (not part of the sources): the
two values that gcs_dummy.c names, and the others. -/
inductive gcs_msg_type_t where
  | GCS_MSG_ERROR
  | GCS_MSG_COMPONENT
  | GCS_MSG_OTHER (n : Nat)
  deriving DecidableEq, Repr

/-- The constant `GCS_SENDER_NONE` of gcs.h (not part of the sources). -/
def GCS_SENDER_NONE : Int := -1

/-- Value of `ENOMEM` in errno.h (Linux). -/
def ENOMEM : Int := 12

/-- Value of `EFAULT` in errno.h (Linux). -/
def EFAULT : Int := 14

/-- Value of `ENODATA` in errno.h (Linux). -/
def ENODATA : Int := 61

/-- Value of `ECONNABORTED` in errno.h (Linux). -/
def ECONNABORTED : Int := 103

/-- Message of the dummy backend, `dummy_msg_t`. -/
structure dummy_msg_t where
  type : gcs_msg_type_t
  len : Nat
  buf : List Nat
  deriving DecidableEq, Repr

/-- Function `dummy_msg_create`, its allocation succeeding: `memcpy` takes the
first `len` bytes of `buf`. -/
def dummy_msg_create (type : gcs_msg_type_t) (len : Nat) (buf : List Nat) : dummy_msg_t :=
  { type := type, len := len, buf := buf.take len }

/-- Member of a queue, `gcs_queue_memb_t`. -/
structure gcs_queue_memb_t where
  data : dummy_msg_t
  next : Option Nat
  deriving DecidableEq, Repr

/-- Read of the member stored at address `a`. -/
def mem_get (mem : List (Nat × gcs_queue_memb_t)) (a : Nat) : Option gcs_queue_memb_t :=
  match mem.find? (fun p => decide (p.1 = a)) with
  | some p => some p.2
  | none => none

/-- Release of the member at address `a`, `gu_free`. -/
def mem_free (mem : List (Nat × gcs_queue_memb_t)) (a : Nat) :
    List (Nat × gcs_queue_memb_t) :=
  mem.filter (fun p => !decide (p.1 = a))

/-- Write of the member at address `a`. -/
def mem_set (mem : List (Nat × gcs_queue_memb_t)) (a : Nat) (m : gcs_queue_memb_t) :
    List (Nat × gcs_queue_memb_t) :=
  (a, m) :: mem_free mem a

/-- The queue, `gcs_queue_t`, with the memory of its members. -/
structure gcs_queue_t where
  mem : List (Nat × gcs_queue_memb_t)
  head : Option Nat
  next : Option Nat
  tail : Option Nat
  err : Int
  deriving DecidableEq, Repr

/-- Function `gcs_queue`, its allocation succeeding: `GU_CALLOC` zeroes the
queue. -/
def gcs_queue : gcs_queue_t :=
  { mem := [], head := none, next := none, tail := none, err := 0 }

/-- Function `gcs_queue_push`; `memb` is the result of `GU_MALLOC` for the new
member. The lock is taken without error. -/
def gcs_queue_push (queue : gcs_queue_t) (data : dummy_msg_t) (memb : Option Nat) :
    Int × gcs_queue_t :=
  match memb with
  | none => (-ENOMEM, queue)
  | some a =>
    let q1 := { queue with mem := mem_set queue.mem a { data := data, next := none } }
    if q1.err = 0 then
      let q2 :=
        match q1.tail with
        | some t =>
          match mem_get q1.mem t with
          | some m => { q1 with mem := mem_set q1.mem t { m with next := some a } }
          | none => q1
        | none => { q1 with head := some a }
      let q3 := if q2.next = none then { q2 with next := some a } else q2
      let q4 := { q3 with tail := some a }
      (q4.err, q4)
    else (q1.err, q1)

/-- Function `gcs_queue_pop_wait`: the return value, the data and the queue;
`none` while the caller waits in `gu_cond_wait` on an empty queue. The lock is
taken without error. -/
def gcs_queue_pop_wait (queue : gcs_queue_t) :
    Option (Int × Option dummy_msg_t × gcs_queue_t) :=
  if queue.head = none ∧ queue.err = 0 then none
  else
    match queue.head with
    | some h =>
      match mem_get queue.mem h with
      | some m =>
        let q1 := { queue with head := m.next }
        let q2 := if queue.next = some h then { q1 with next := q1.head } else q1
        let q3 := if q2.head = none then { q2 with tail := none } else q2
        some (q3.err, some m.data, { q3 with mem := mem_free q3.mem h })
      | none => some (queue.err, none, queue)
    | none => some (queue.err, none, queue)

/-- Connection of the dummy backend, `dummy_t`. -/
structure dummy_t where
  gc_q : gcs_queue_t
  msg : Option dummy_msg_t
  msg_id : Nat
  msg_max_size : Nat
  deriving DecidableEq, Repr

/-- Function `dummy_send` on the connection `backend->conn`; `msg_ok` says
whether the allocation of the message succeeds and `memb` is the result of the
allocation of the queue member. The result is the return value and the
connection. -/
def dummy_send (conn : Option dummy_t) (buf : List Nat) (len : Nat)
    (msg_type : gcs_msg_type_t) (msg_ok : Bool) (memb : Option Nat) :
    Int × Option dummy_t :=
  match conn with
  | some c =>
    if msg_ok then
      let r := gcs_queue_push c.gc_q (dummy_msg_create msg_type len buf) memb
      if r.1 ≠ 0 then (r.1, some { c with gc_q := r.2 })
      else ((len : Int), some { c with gc_q := r.2 })
    else (-ENOMEM, conn)
  | none => (-EFAULT, conn)

/-- Function `dummy_recv` with a buffer `buf` of `len` bytes: the return value,
the buffer, `*msg_type`, `*sender_id` and the connection; `none` while the
call waits for a message. -/
def dummy_recv (conn : dummy_t) (buf : List Nat) (len : Nat) :
    Option (Int × List Nat × gcs_msg_type_t × Int × dummy_t) :=
  let deliver := fun (c : dummy_t) (m : dummy_msg_t) =>
    if m.len ≤ len then
      some ((m.len : Int), m.buf.take m.len ++ buf.drop m.len, m.type, (0 : Int),
        { c with msg := none })
    else
      some ((m.len : Int), m.buf.take len ++ buf.drop len,
        gcs_msg_type_t.GCS_MSG_ERROR, (0 : Int), c)
  match conn.msg with
  | some m => deliver conn m
  | none =>
    match gcs_queue_pop_wait conn.gc_q with
    | none => none
    | some (ret, data, q') =>
      let c1 := { conn with gc_q := q', msg := data }
      if ret ≠ 0 then
        some (if ret = -ENODATA then -ECONNABORTED else ret, buf,
          gcs_msg_type_t.GCS_MSG_ERROR, GCS_SENDER_NONE, c1)
      else
        match data with
        | some m => deliver c1 m
        | none => none

/-- Function `gcs_dummy_open`, the allocations of the connection and of the
queue succeeding. `comp` is the component message built by `dummy_create_pc`
(the functions of gcs_comp_msg.h are not part of the sources), `none` when its
allocation fails; `page` is `sysconf(_SC_PAGESIZE)`. The result is the return
value and `backend->conn`. -/
def gcs_dummy_open (comp : Option (List Nat)) (page : Nat) (msg_ok : Bool)
    (memb : Option Nat) : Int × Option dummy_t :=
  let dummy : dummy_t := { gc_q := gcs_queue, msg := none, msg_id := 0, msg_max_size := page }
  match comp with
  | none => (-ENOMEM, none)
  | some pc =>
    let r := dummy_send (some dummy) pc pc.length gcs_msg_type_t.GCS_MSG_COMPONENT msg_ok memb
    if r.1 < 0 then (r.1, none) else (0, r.2)

/-- The chain of queue members that starts at pointer `p`, goes through the
members `nodes` (address and data) and ends with the pointer `e`. -/
def q_chain (mem : List (Nat × gcs_queue_memb_t)) :
    Option Nat → List (Nat × dummy_msg_t) → Option Nat → Prop
  | p, [], e => p = e
  | p, (a, d) :: rest, e =>
    p = some a ∧ ∃ nx, mem_get mem a = some { data := d, next := nx } ∧ q_chain mem nx rest e

/-- A queue without error whose members, from the head to the tail, are
`nodes`, stored at distinct addresses. -/
def q_wf (q : gcs_queue_t) (nodes : List (Nat × dummy_msg_t)) : Prop :=
  q.err = 0 ∧ q_chain q.mem q.head nodes none ∧
    q.tail = (nodes.getLast?).map (fun n => n.1) ∧ (nodes.map (fun n => n.1)).Nodup

/-- The messages that a connection has still to deliver are `ds`, in this
order: the message popped and not yet delivered, then the members of the
queue; each message holds `len` bytes. -/
def dummy_pending (conn : dummy_t) (ds : List dummy_msg_t) : Prop :=
  (∃ nodes, q_wf conn.gc_q nodes ∧ ds = conn.msg.toList ++ nodes.map (fun n => n.2)) ∧
    ∀ m ∈ ds, m.buf.length = m.len

/-- Successive calls of `dummy_send`, one for each message (its type, its
bytes, all of them sent, and the address that `malloc` gives to its queue
member); `none` when a call does not return the length of its message. -/
def dummy_send_list :
    Option dummy_t → List (gcs_msg_type_t × List Nat × Nat) → Option dummy_t
  | conn, [] => conn
  | conn, (ty, bytes, a) :: rest =>
    let r := dummy_send conn bytes bytes.length ty true (some a)
    if r.1 = (bytes.length : Int) then dummy_send_list r.2 rest else none

/-- Up to `n` successive calls of `dummy_recv`, each with a zeroed buffer of
`len` bytes, until one of them has to wait: the return value, the type and
the bytes received of each call, and the connection left. -/
def dummy_recv_list (len : Nat) :
    Nat → dummy_t → List (Int × gcs_msg_type_t × List Nat) × dummy_t
  | 0, c => ([], c)
  | n + 1, c =>
    match dummy_recv c (List.replicate len 0) len with
    | none => ([], c)
    | some (ret, buf, ty, _, c') =>
      ((ret, ty, buf.take ret.toNat) :: (dummy_recv_list len n c').1,
        (dummy_recv_list len n c').2)

/-! ## wsdb hash : test_hash.c

The hash table of wsdb (hash.c) is not part of the repository slice; its test
is, with the hash and comparison functions handed to `wsdb_hash_open`. A key
is the list of its `char`s, as signed values. -/

/-- Range of `uint32_t`. -/
def U32_RANGE : Nat := 4294967296

/-- One pass of the loop of `hash_fun`: `hash = ((hash << 5) + hash) + c` on a
`uint32_t`, `c` being an `int`. -/
def hash_step (hash : Nat) (c : Int) : Nat :=
  (((((hash <<< 5) % U32_RANGE + hash) % U32_RANGE : Nat) : Int) + c).emod U32_RANGE |>.toNat

/-- Function `hash_fun` of test_hash.c; `s_hash_size` is the static variable
of the test. -/
def hash_fun (s_hash_size : Nat) (_max_size : Nat) (len : Nat) (str : List Int) : Nat :=
  ((str.take len).foldl hash_step 5381) % s_hash_size

/-- The loop `while (i<len1 && i<len2)` of `hash_cmp`: the value returned from
inside the loop, `none` when the loop ends. -/
def hash_cmp_loop : List Int → List Int → Option Int
  | a :: as, b :: bs =>
    if a < b then some (-1) else if a > b then some 1 else hash_cmp_loop as bs
  | _, _ => none

/-- Function `hash_cmp` of test_hash.c. -/
def hash_cmp (len1 : Nat) (key1 : List Int) (len2 : Nat) (key2 : List Int) : Int :=
  match hash_cmp_loop (key1.take len1) (key2.take len2) with
  | some r => r
  | none => if len1 < len2 then -1 else if len1 > len2 then 1 else 0

/-- Entry of the hash table: a key, with its length, and the data stored with
it. -/
structure hash_entry where
  key_len : Nat
  key : List Int
  data : Nat
  deriving DecidableEq, Repr

/-- Modelled from the spec: `struct wsdb_hash` of hash.c, which is not part of
the sources: a table of `max_size` buckets, each the list of the entries whose
key hashes to it, with the hash and comparison functions given at
`wsdb_hash_open`. -/
structure wsdb_hash where
  max_size : Nat
  hash_fun : Nat → Nat → List Int → Nat
  hash_cmp : Nat → List Int → Nat → List Int → Int
  buckets : List (List hash_entry)

/-- Modelled from the spec: `wsdb_hash_open(max_size, hash_fun, hash_cmp)`. -/
def wsdb_hash_open (max_size : Nat) (hf : Nat → Nat → List Int → Nat)
    (hc : Nat → List Int → Nat → List Int → Int) : wsdb_hash :=
  { max_size := max_size, hash_fun := hf, hash_cmp := hc,
    buckets := List.replicate max_size [] }

/-- The bucket of a key. -/
def wsdb_hash.bucket (h : wsdb_hash) (key_len : Nat) (key : List Int) : List hash_entry :=
  h.buckets.getD (h.hash_fun h.max_size key_len key) []

/-- Modelled from the spec: `wsdb_hash_push(hash, key_len, key, data)`: the
entry is put in the bucket of the key; the return value is `WSDB_OK`. -/
def wsdb_hash_push (h : wsdb_hash) (key_len : Nat) (key : List Int) (data : Nat) :
    Int × wsdb_hash :=
  let idx := h.hash_fun h.max_size key_len key
  let e : hash_entry := { key_len := key_len, key := key, data := data }
  (WSDB_OK, { h with buckets := h.buckets.set idx (e :: h.bucket key_len key) })

/-- Modelled from the spec: `wsdb_hash_search(hash, key_len, key)`: the data
of the entry of the bucket whose key compares equal, NULL (0) when there is
none. -/
def wsdb_hash_search (h : wsdb_hash) (key_len : Nat) (key : List Int) : Nat :=
  match (h.bucket key_len key).find?
      (fun e => decide (h.hash_cmp key_len key e.key_len e.key = 0)) with
  | some e => e.data
  | none => 0

/-- Modelled from the spec: `wsdb_hash_delete(hash, key_len, key)`: the entry
whose key compares equal is taken out of the bucket and its data returned. -/
def wsdb_hash_delete (h : wsdb_hash) (key_len : Nat) (key : List Int) : Nat × wsdb_hash :=
  let idx := h.hash_fun h.max_size key_len key
  let rest := (h.bucket key_len key).filter
    (fun e => !decide (h.hash_cmp key_len key e.key_len e.key = 0))
  (wsdb_hash_search h key_len key, { h with buckets := h.buckets.set idx rest })

/-- The finite map that a table stands for: key `key` is bound to `data`. -/
def hash_binds (h : wsdb_hash) (key : List Int) (data : Nat) : Prop :=
  { key_len := key.length, key := key, data := data } ∈ h.bucket key.length key

/-- A table as the operations leave it: `max_size` buckets, the hash function
gives a bucket of the table and the comparison function is 0 exactly on equal
keys; every entry is in the bucket of its key, with the length of its key, and
no key is twice in a bucket. -/
def hash_inv (h : wsdb_hash) : Prop :=
  h.buckets.length = h.max_size ∧
  (∀ len key, h.hash_fun h.max_size len key < h.max_size) ∧
  (∀ k1 k2 : List Int, h.hash_cmp k1.length k1 k2.length k2 = 0 ↔ k1 = k2) ∧
  (∀ i, ∀ e ∈ h.buckets.getD i [],
    e.key_len = e.key.length ∧ h.hash_fun h.max_size e.key_len e.key = i) ∧
  (∀ i, ((h.buckets.getD i []).map (fun e => e.key)).Nodup)

/-- The four bytes of a 32-bit key of the tests, least significant first, as
`char`s. -/
def key32 (i : Nat) : List Int :=
  [((i % 256 : Nat) : Int), ((i / 256 % 256 : Nat) : Int),
   ((i / 65536 % 256 : Nat) : Int), ((i / 16777216 % 256 : Nat) : Int)]

/-- The pushes `wsdb_hash_push(hash, 4, &i, 10000 + i)` of the tests, for the
keys of a list. -/
def hash_push_all : wsdb_hash → List Nat → wsdb_hash
  | h, [] => h
  | h, i :: is => hash_push_all (wsdb_hash_push h 4 (key32 i) (10000 + i)).2 is

/-- A call on the hash table: `wsdb_hash_push(hash, len, key, data)` or
`wsdb_hash_delete(hash, len, key)`, `len` being the length of the key. -/
inductive hash_call where
  | push (key : List Int) (data : Nat)
  | delete (key : List Int)
  deriving DecidableEq, Repr

/-- The key of a call. -/
def hash_call.key : hash_call → List Int
  | .push key _ => key
  | .delete key => key

/-- One call on the table: the value it returns and the table after it. -/
def wsdb_hash_call (h : wsdb_hash) : hash_call → Int × wsdb_hash
  | .push key data => wsdb_hash_push h key.length key data
  | .delete key =>
    let r := wsdb_hash_delete h key.length key
    ((r.1 : Int), r.2)

/-- A sequence of calls on the table: the values returned, in order, and the
table after the last call. -/
def wsdb_hash_calls : wsdb_hash → List hash_call → List Int × wsdb_hash
  | h, [] => ([], h)
  | h, c :: cs =>
    let r := wsdb_hash_call h c
    let rs := wsdb_hash_calls r.2 cs
    (r.1 :: rs.1, rs.2)

/-- The finite map of the specification: the value bound to a key. -/
def map_lookup : List (List Int × Nat) → List Int → Option Nat
  | [], _ => none
  | (k, v) :: m, key => if k = key then some v else map_lookup m key

/-- The finite map of the specification: the map without a key. -/
def map_delete (m : List (List Int × Nat)) (key : List Int) : List (List Int × Nat) :=
  m.filter (fun e => decide (e.1 ≠ key))

/-- The finite map of the specification: one call. A push is of a key that is
not bound (the keys of a sequence are distinct) and returns `WSDB_OK`; a
delete returns the value bound to the key, NULL (0) when there is none. -/
def map_call (m : List (List Int × Nat)) : hash_call → Option (Int × List (List Int × Nat))
  | .push key data =>
    if map_lookup m key = none then some (WSDB_OK, (key, data) :: m) else none
  | .delete key => some ((((map_lookup m key).getD 0 : Nat) : Int), map_delete m key)

/-- The finite map of the specification: a sequence of calls. -/
def map_calls : List (List Int × Nat) → List hash_call →
    Option (List Int × List (List Int × Nat))
  | m, [] => some ([], m)
  | m, c :: cs =>
    match map_call m c with
    | none => none
    | some (r, m1) =>
      match map_calls m1 cs with
      | none => none
      | some (rs, m2) => some (r :: rs, m2)

/-- The calls of `test_hash_overflow`, with a table of 2 buckets and 5 keys,
followed by the deletion of one key as in `test_hash_trivial`. -/
def hash_calls_ex : List hash_call :=
  [.push (key32 1) 10001, .push (key32 2) 10002, .push (key32 3) 10003,
   .push (key32 4) 10004, .push (key32 5) 10005, .delete (key32 3)]

/-- A table stands for a finite map of the specification: it is as the
operations leave it, and binds a key to a value exactly when the map does. -/
def hash_rel (h : wsdb_hash) (m : List (List Int × Nat)) : Prop :=
  hash_inv h ∧ ∀ k w, hash_binds h k w ↔ map_lookup m k = some w
/-! ## Ring arithmetic and slot access -/

theorem to_get_waiter_eq_mod (tq : gcs_to) (h : to_wf tq) (s : Nat) :
    to_get_waiter tq s = s % tq.qlen := by
  obtain ⟨⟨j, _, hj⟩, hm, _, _⟩ := h
  unfold to_get_waiter
  rw [hm, hj]
  exact Nat.and_pow_two_sub_one_eq_mod s j

theorem to_wf_qlen_pos (tq : gcs_to) (h : to_wf tq) : 0 < tq.qlen := by
  obtain ⟨⟨j, _, hj⟩, _, _, _⟩ := h
  rw [hj]
  exact Nat.pos_pow_of_pos j (by decide)

theorem to_wf_qlen_dvd (tq : gcs_to) (h : to_wf tq) : tq.qlen ∣ SEQNO_RANGE := by
  obtain ⟨⟨j, hj63, hj⟩, _, _, _⟩ := h
  rw [hj]
  exact Nat.pow_dvd_pow 2 (by omega)

theorem to_get_waiter_lt (tq : gcs_to) (h : to_wf tq) (s : Nat) :
    to_get_waiter tq s < tq.queue.length := by
  rw [to_get_waiter_eq_mod tq h, h.2.2.1]
  exact Nat.mod_lt _ (to_wf_qlen_pos tq h)

theorem mod_range_mod (tq : gcs_to) (h : to_wf tq) (a : Nat) :
    a % SEQNO_RANGE % tq.qlen = a % tq.qlen :=
  Nat.mod_mod_of_dvd a (to_wf_qlen_dvd tq h)

theorem ring_index_inj (q s i j : Nat) (hi : i < q) (hj : j < q)
    (h : (s + i) % q = (s + j) % q) : i = j := by
  have h1 : i ≡ j [MOD q] := Nat.ModEq.add_left_cancel' s h
  exact Nat.ModEq.eq_of_lt_of_lt h1 hi hj

theorem waiter_at_set_state (tq : gcs_to) (w j : Nat) (st : waiter_state_t)
    (hw : w < tq.queue.length) :
    waiter_at (set_state tq w st) j =
      if j = w then { waiter_at tq w with state := st } else waiter_at tq j := by
  simp only [waiter_at, set_state, List.getD_eq_getElem?_getD, List.getElem?_set]
  by_cases hji : j = w
  · subst hji; simp [hw]
  · have : ¬ w = j := fun e => hji e.symm
    simp [this, hji]

theorem w_state_set_state_self (tq : gcs_to) (w : Nat) (st : waiter_state_t)
    (hw : w < tq.queue.length) : w_state (set_state tq w st) w = st := by
  simp [w_state, waiter_at_set_state tq w w st hw]

theorem waiter_at_set_state_ne (tq : gcs_to) (w j : Nat) (st : waiter_state_t)
    (hj : j ≠ w) : waiter_at (set_state tq w st) j = waiter_at tq j := by
  have : ¬ w = j := fun e => hj e.symm
  simp [waiter_at, set_state, List.getD_eq_getElem?_getD, List.getElem?_set, this]

theorem w_state_set_state_ne (tq : gcs_to) (w j : Nat) (st : waiter_state_t)
    (hj : j ≠ w) : w_state (set_state tq w st) j = w_state tq j := by
  simp [w_state, waiter_at_set_state_ne tq w j st hj]

theorem to_wf_set_state (tq : gcs_to) (w : Nat) (st : waiter_state_t)
    (h : to_wf tq) : to_wf (set_state tq w st) := by
  obtain ⟨h1, h2, h3, h4⟩ := h
  refine ⟨h1, h2, ?_, h4⟩
  simp only [set_state, List.length_set]
  exact h3

theorem to_wf_seqno_inc (tq : gcs_to) (h : to_wf tq) : to_wf (seqno_inc tq) := by
  obtain ⟨h1, h2, h3, _⟩ := h
  refine ⟨h1, h2, h3, ?_⟩
  exact Nat.mod_lt _ (by decide)

/-! ## The release sweep -/

/-- The sweep started at seqno `s` (modulo `2 ^ 64`) over `k` cancelled slots
followed by a slot that is not cancelled: it stops after `k` steps, has
released exactly those `k` slots and changed nothing else. -/
theorem release_sweep_run (k : Nat) :
    ∀ (fuel s : Nat) (tq : gcs_to), to_wf tq → tq.seqno = s % SEQNO_RANGE →
      k < fuel → k < tq.qlen →
      (∀ i, i < k → w_state tq ((s + i) % tq.qlen) = waiter_state_t.CANCELED) →
      w_state tq ((s + k) % tq.qlen) ≠ waiter_state_t.CANCELED →
      ∃ tq', release_sweep fuel tq = some tq' ∧
        tq'.seqno = (s + k) % SEQNO_RANGE ∧
        tq'.qlen = tq.qlen ∧ tq'.qmask = tq.qmask ∧ tq'.used = tq.used ∧
        tq'.queue.length = tq.queue.length ∧
        (∀ i, i < k → w_state tq' ((s + i) % tq.qlen) = waiter_state_t.RELEASED) ∧
        (∀ j, (∀ i, i < k → j ≠ (s + i) % tq.qlen) →
          waiter_at tq' j = waiter_at tq j) := by
  induction k with
  | zero =>
    intro fuel s tq hwf hs hf _ _ hstop
    obtain ⟨f, rfl⟩ : ∃ f, fuel = f + 1 := ⟨fuel - 1, by omega⟩
    have hidx : to_get_waiter tq tq.seqno = (s + 0) % tq.qlen := by
      rw [to_get_waiter_eq_mod tq hwf, hs, mod_range_mod tq hwf, Nat.add_zero]
    refine ⟨tq, ?_, ?_, rfl, rfl, rfl, rfl, ?_, ?_⟩
    · simp only [release_sweep, hidx]
      rw [if_neg hstop]
    · simpa using hs
    · intro i hi; omega
    · intro j _; rfl
  | succ k ih =>
    intro fuel s tq hwf hs hf hq hcan hstop
    obtain ⟨f, rfl⟩ : ∃ f, fuel = f + 1 := ⟨fuel - 1, by omega⟩
    have hidx : to_get_waiter tq tq.seqno = s % tq.qlen := by
      rw [to_get_waiter_eq_mod tq hwf, hs, mod_range_mod tq hwf]
    have hlt : s % tq.qlen < tq.queue.length := by
      rw [hwf.2.2.1]; exact Nat.mod_lt _ (to_wf_qlen_pos tq hwf)
    have h0 : w_state tq (s % tq.qlen) = waiter_state_t.CANCELED := by
      simpa using hcan 0 (by omega)
    let tq2 := seqno_inc (set_state tq (s % tq.qlen) waiter_state_t.RELEASED)
    have hwf2 : to_wf tq2 := to_wf_seqno_inc _ (to_wf_set_state _ _ _ hwf)
    have hs2 : tq2.seqno = (s + 1) % SEQNO_RANGE := by
      show (tq.seqno + 1) % SEQNO_RANGE = (s + 1) % SEQNO_RANGE
      rw [hs, Nat.add_mod, Nat.mod_mod, ← Nat.add_mod]
    have hq2 : tq2.qlen = tq.qlen := rfl
    have hne : ∀ i, i < k + 1 → (s + 1 + i) % tq.qlen ≠ s % tq.qlen := by
      intro i hi he
      have := ring_index_inj tq.qlen s (1 + i) 0 (by omega) (by omega)
        (by rw [← Nat.add_assoc, he, Nat.add_zero])
      omega
    have hst2 : ∀ j, j ≠ s % tq.qlen → waiter_at tq2 j = waiter_at tq j := by
      intro j hj
      exact waiter_at_set_state_ne tq _ j _ hj
    obtain ⟨tq', hrun, hseq, hql, hqm, hus, hlen, hrel, hfr⟩ :=
      ih f (s + 1) tq2 hwf2 hs2 (by omega) (by rw [hq2]; omega)
        (by
          intro i hi
          rw [hq2]
          have := hcan (i + 1) (by omega)
          have e : s + (i + 1) = s + 1 + i := by omega
          rw [e] at this
          rw [← this]
          simp only [w_state]
          rw [hst2 _ (hne i (by omega))])
        (by
          rw [hq2]
          have e : s + (k + 1) = s + 1 + k := by omega
          rw [e] at hstop
          simp only [w_state]
          rw [hst2 _ (hne k (by omega))]
          exact hstop)
    refine ⟨tq', ?_, ?_, ?_, ?_, ?_, ?_, ?_, ?_⟩
    · simp only [release_sweep, hidx]
      rw [if_pos h0]
      exact hrun
    · rw [hseq]; congr 1; omega
    · rw [hql, hq2]
    · rw [hqm]; rfl
    · rw [hus]; rfl
    · rw [hlen]
      show (tq.queue.set _ _).length = _
      exact List.length_set _ _ _
    · intro i hi
      rcases Nat.eq_zero_or_pos i with h | h
      · subst h
        have := hfr (s % tq.qlen) (by
          intro i' hi' he
          rw [hq2] at he
          exact hne i' (by omega) he.symm)
        simp only [w_state, Nat.add_zero]
        rw [this]
        show w_state (set_state tq (s % tq.qlen) waiter_state_t.RELEASED) (s % tq.qlen) = _
        exact w_state_set_state_self tq _ _ hlt
      · have := hrel (i - 1) (by omega)
        rw [hq2] at this
        have e : s + 1 + (i - 1) = s + i := by omega
        rw [e] at this
        exact this
    · intro j hj
      have hj0 : j ≠ s % tq.qlen := by simpa using hj 0 (by omega)
      rw [hfr j (by
        intro i hi
        rw [hq2]
        have := hj (i + 1) (by omega)
        have e : s + (i + 1) = s + 1 + i := by omega
        rw [e] at this
        exact this)]
      exact hst2 j hj0

/-- Release at the head of the gate, for a known length `k` of the run of
cancelled slots behind it. -/
theorem gcs_to_release_run (tq : gcs_to) (k : Nat) (hwf : to_wf tq)
    (hk : k < tq.qlen)
    (hcan : ∀ i, 1 ≤ i → i ≤ k →
      w_state tq ((tq.seqno + i) % tq.qlen) = waiter_state_t.CANCELED)
    (hstop : k + 1 < tq.qlen →
      w_state tq ((tq.seqno + k + 1) % tq.qlen) ≠ waiter_state_t.CANCELED) :
    ∃ tq' sig, gcs_to_release tq tq.seqno = to_result.ret 0 tq' sig ∧
      tq'.seqno = (tq.seqno + k + 1) % SEQNO_RANGE ∧
      (∀ i, i ≤ k → w_state tq' ((tq.seqno + i) % tq.qlen) = waiter_state_t.RELEASED) ∧
      (∀ j, (∀ i, i ≤ k → j ≠ (tq.seqno + i) % tq.qlen) →
        waiter_at tq' j = waiter_at tq j) ∧
      tq'.qlen = tq.qlen ∧ tq'.qmask = tq.qmask ∧
      tq'.queue.length = tq.queue.length ∧ tq'.used = tq.used ∧
      (sig = none ∨ sig = some ((tq.seqno + k + 1) % tq.qlen)) ∧
      w_state tq' ((tq.seqno + k + 1) % tq.qlen) ≠ waiter_state_t.CANCELED := by
  have hpos := to_wf_qlen_pos tq hwf
  have hlt : tq.seqno % tq.qlen < tq.queue.length := by
    rw [hwf.2.2.1]; exact Nat.mod_lt _ hpos
  have hw : to_get_waiter tq tq.seqno = tq.seqno % tq.qlen :=
    to_get_waiter_eq_mod tq hwf _
  let tq1 := set_state tq (tq.seqno % tq.qlen) waiter_state_t.RELEASED
  have hwf1 : to_wf (seqno_inc tq1) := to_wf_seqno_inc _ (to_wf_set_state _ _ _ hwf)
  have hne : ∀ i, i + 1 < tq.qlen → (tq.seqno + 1 + i) % tq.qlen ≠ tq.seqno % tq.qlen := by
    intro i hi he
    have := ring_index_inj tq.qlen tq.seqno (1 + i) 0 (by omega) (by omega)
      (by rw [← Nat.add_assoc, he, Nat.add_zero])
    omega
  have hst1 : ∀ j, j ≠ tq.seqno % tq.qlen →
      waiter_at (seqno_inc tq1) j = waiter_at tq j := by
    intro j hj
    exact waiter_at_set_state_ne tq _ j _ hj
  have hself : w_state (seqno_inc tq1) (tq.seqno % tq.qlen) = waiter_state_t.RELEASED :=
    w_state_set_state_self tq _ _ hlt
  have hstop1 : w_state (seqno_inc tq1) ((tq.seqno + 1 + k) % tq.qlen) ≠
      waiter_state_t.CANCELED := by
    by_cases hkq : k + 1 < tq.qlen
    · have h := hstop hkq
      have e : tq.seqno + k + 1 = tq.seqno + 1 + k := by omega
      rw [e] at h
      show (waiter_at (seqno_inc tq1) ((tq.seqno + 1 + k) % tq.qlen)).state ≠ _
      rw [hst1 _ (hne k hkq)]
      exact h
    · have e : tq.seqno + 1 + k = tq.seqno + tq.qlen := by omega
      rw [e, Nat.add_mod_right, hself]
      decide
  obtain ⟨tq2, hrun, hseq, hql, hqm, hus, hlen, hrel, hfr⟩ :=
    release_sweep_run k tq.qlen (tq.seqno + 1) (seqno_inc tq1) hwf1 rfl
      hk (by show k < tq.qlen; exact hk)
      (by
        intro i hi
        have := hcan (i + 1) (by omega) (by omega)
        have e : tq.seqno + (i + 1) = tq.seqno + 1 + i := by omega
        rw [e] at this
        rw [← this]
        show (waiter_at (seqno_inc tq1) ((tq.seqno + 1 + i) % tq.qlen)).state =
          (waiter_at tq _).state
        rw [hst1 _ (hne i (by omega))])
      hstop1
  have hq1 : (seqno_inc tq1).qlen = tq.qlen := rfl
  rw [hq1] at hrel hfr hql
  have hseq2 : tq2.seqno = (tq.seqno + k + 1) % SEQNO_RANGE := by
    rw [hseq]; congr 1; omega
  have hwf2 : to_wf tq2 := by
    refine ⟨?_, ?_, ?_, ?_⟩
    · rw [hql]; exact hwf.1
    · rw [hqm, hql]; exact hwf.2.1
    · rw [hlen, hql]
      show (tq.queue.set _ _).length = _
      rw [List.length_set]; exact hwf.2.2.1
    · rw [hseq2]; exact Nat.mod_lt _ (by decide)
  have hw2 : to_get_waiter tq2 tq2.seqno = (tq.seqno + k + 1) % tq.qlen := by
    rw [to_get_waiter_eq_mod tq2 hwf2, hseq2, hql, mod_range_mod tq hwf]
  have hres : ∃ sig, gcs_to_release tq tq.seqno = to_result.ret 0 tq2 sig ∧
      (sig = none ∨ sig = some ((tq.seqno + k + 1) % tq.qlen)) := by
    simp only [gcs_to_release, if_true, hw]
    rw [hrun]
    by_cases hW : w_state tq2 (to_get_waiter tq2 tq2.seqno) = waiter_state_t.WAIT
    · exact ⟨some (to_get_waiter tq2 tq2.seqno), by simp only [hW, if_true],
        Or.inr (by rw [hw2])⟩
    · exact ⟨none, by simp only [hW, if_false], Or.inl rfl⟩
  obtain ⟨sig, hres, hsig⟩ := hres
  refine ⟨tq2, sig, hres, hseq2, ?_, ?_, hql, ?_, ?_, ?_, hsig, ?_⟩
  · intro i hi
    rcases Nat.eq_zero_or_pos i with h | h
    · subst h
      by_cases hin : ∀ i', i' < k → tq.seqno % tq.qlen ≠ (tq.seqno + 1 + i') % tq.qlen
      · have := hfr (tq.seqno % tq.qlen) hin
        simp only [w_state, Nat.add_zero]
        rw [this]
        exact hself
      · exfalso
        apply hin
        intro i' hi' he
        exact hne i' (by omega) he.symm
    · have := hrel (i - 1) (by omega)
      have e : tq.seqno + 1 + (i - 1) = tq.seqno + i := by omega
      rw [e] at this
      exact this
  · intro j hj
    have hj0 : j ≠ tq.seqno % tq.qlen := by
      have := hj 0 (by omega)
      rwa [Nat.add_zero] at this
    rw [hfr j (by
      intro i hi
      have := hj (i + 1) (by omega)
      have e : tq.seqno + (i + 1) = tq.seqno + 1 + i := by omega
      rw [e] at this
      exact this)]
    exact hst1 j hj0
  · rw [hqm]; rfl
  · rw [hlen]
    show (tq.queue.set _ _).length = _
    exact List.length_set _ _ _
  · rw [hus]; rfl
  · have e : tq.seqno + k + 1 = tq.seqno + 1 + k := by omega
    rw [e]
    by_cases hin : ∀ i', i' < k → (tq.seqno + 1 + k) % tq.qlen ≠ (tq.seqno + 1 + i') % tq.qlen
    · have := hfr _ hin
      simp only [w_state]
      rw [this]
      exact hstop1
    · exfalso
      apply hin
      intro i' hi' he
      have := ring_index_inj tq.qlen (tq.seqno + 1) k i' hk (by omega) he
      omega

/-- A well-formed gate stays well-formed under a release at its head. -/
theorem to_wf_of_frame (tq tq' : gcs_to) (hwf : to_wf tq) (hq : tq'.qlen = tq.qlen)
    (hm : tq'.qmask = tq.qmask) (hl : tq'.queue.length = tq.queue.length)
    (hs : tq'.seqno < SEQNO_RANGE) : to_wf tq' := by
  refine ⟨?_, ?_, ?_, hs⟩
  · rw [hq]; exact hwf.1
  · rw [hm, hq]; exact hwf.2.1
  · rw [hl, hq]; exact hwf.2.2.1

/-- Release at the head of any well-formed gate returns 0: the sweep stops
after `k < qlen` cancelled slots (so the loop of gcs_to_release ends within
`qlen` tests of its condition). -/
theorem gcs_to_release_head (tq : gcs_to) (hwf : to_wf tq) :
    ∃ k tq' sig, k < tq.qlen ∧
      gcs_to_release tq tq.seqno = to_result.ret 0 tq' sig ∧
      tq'.seqno = (tq.seqno + k + 1) % SEQNO_RANGE ∧
      (∀ i, i ≤ k → w_state tq' ((tq.seqno + i) % tq.qlen) = waiter_state_t.RELEASED) ∧
      (∀ j, (∀ i, i ≤ k → j ≠ (tq.seqno + i) % tq.qlen) →
        waiter_at tq' j = waiter_at tq j) ∧
      tq'.qlen = tq.qlen ∧ tq'.qmask = tq.qmask ∧
      tq'.queue.length = tq.queue.length ∧ tq'.used = tq.used ∧
      (sig = none ∨ sig = some ((tq.seqno + k + 1) % tq.qlen)) ∧
      w_state tq' ((tq.seqno + k + 1) % tq.qlen) ≠ waiter_state_t.CANCELED ∧
      (∀ i, 1 ≤ i → i ≤ k →
        w_state tq ((tq.seqno + i) % tq.qlen) = waiter_state_t.CANCELED) := by
  have hpos := to_wf_qlen_pos tq hwf
  have hex : ∃ k, k + 1 < tq.qlen →
      w_state tq ((tq.seqno + k + 1) % tq.qlen) ≠ waiter_state_t.CANCELED :=
    ⟨tq.qlen - 1, fun h => by omega⟩
  have hk1 : Nat.find hex < tq.qlen := by
    have : Nat.find hex ≤ tq.qlen - 1 := Nat.find_min' hex (fun h => by omega)
    omega
  have hcan : ∀ i, 1 ≤ i → i ≤ Nat.find hex →
      w_state tq ((tq.seqno + i) % tq.qlen) = waiter_state_t.CANCELED := by
    intro i h1 h2
    have hmin := Nat.find_min hex (show i - 1 < Nat.find hex by omega)
    by_contra hc
    apply hmin
    intro _
    have e : tq.seqno + (i - 1) + 1 = tq.seqno + i := by omega
    rw [e]
    exact hc
  obtain ⟨tq', sig, h1, h2, h3, h4, h5, h6, h7, h8, h9, h10⟩ :=
    gcs_to_release_run tq (Nat.find hex) hwf hk1 hcan (Nat.find_spec hex)
  exact ⟨Nat.find hex, tq', sig, hk1, h1, h2, h3, h4, h5, h6, h7, h8, h9, h10, hcan⟩

/-- C1 (release sweep). In a gate whose slots `s+1 .. s+k` are CANCELED and
whose slot `s+k+1` is not, with `s` the current seqno and `k + 1 < qlen`,
`gcs_to_release(s)` returns 0, sets the current seqno to `s+k+1` (in 64-bit
arithmetic, so exactly `s+k+1` when that is a 64-bit value), leaves slots
`s .. s+k` RELEASED and leaves every other slot, and the ring geometry,
unchanged. -/
theorem gcs_to_release_sweep (tq : gcs_to) (k : Nat) (hwf : to_wf tq)
    (hk : k + 1 < tq.qlen)
    (hcan : ∀ i, 1 ≤ i → i ≤ k →
      slot_state tq (tq.seqno + i) = waiter_state_t.CANCELED)
    (hstop : slot_state tq (tq.seqno + k + 1) ≠ waiter_state_t.CANCELED) :
    ∃ tq' sig, gcs_to_release tq tq.seqno = to_result.ret 0 tq' sig ∧
      tq'.seqno = (tq.seqno + k + 1) % SEQNO_RANGE ∧
      (tq.seqno + k + 1 < SEQNO_RANGE → tq'.seqno = tq.seqno + k + 1) ∧
      (∀ i, i ≤ k → slot_state tq' (tq.seqno + i) = waiter_state_t.RELEASED) ∧
      (∀ j, (∀ i, i ≤ k → j ≠ to_get_waiter tq (tq.seqno + i)) →
        waiter_at tq' j = waiter_at tq j) ∧
      tq'.qlen = tq.qlen ∧ tq'.qmask = tq.qmask ∧
      tq'.queue.length = tq.queue.length := by
  obtain ⟨tq', sig, hres, hseq, hrel, hfr, hql, hqm, hlen, _, _, _⟩ :=
    gcs_to_release_run tq k hwf (by omega)
      (by
        intro i h1 h2
        have := hcan i h1 h2
        simpa only [slot_state, to_get_waiter_eq_mod tq hwf] using this)
      (by
        intro _
        simpa only [slot_state, to_get_waiter_eq_mod tq hwf] using hstop)
  have hwf' : to_wf tq' :=
    to_wf_of_frame tq tq' hwf hql hqm hlen (by rw [hseq]; exact Nat.mod_lt _ (by decide))
  refine ⟨tq', sig, hres, hseq, ?_, ?_, ?_, hql, hqm, hlen⟩
  · intro hb
    rw [hseq, Nat.mod_eq_of_lt hb]
  · intro i hi
    simp only [slot_state, to_get_waiter_eq_mod tq' hwf', hql]
    exact hrel i hi
  · intro j hj
    apply hfr
    intro i hi
    have := hj i hi
    rwa [to_get_waiter_eq_mod tq hwf] at this

/-- Witness of C1: the sweep of `gate_ex1` over the cancelled slot 2. -/
theorem gcs_to_release_sweep_witness :
    ∃ tq' sig, gcs_to_release gate_ex1 gate_ex1.seqno = to_result.ret 0 tq' sig ∧
      tq'.seqno = (gate_ex1.seqno + 1 + 1) % SEQNO_RANGE ∧
      (gate_ex1.seqno + 1 + 1 < SEQNO_RANGE → tq'.seqno = gate_ex1.seqno + 1 + 1) ∧
      (∀ i, i ≤ 1 → slot_state tq' (gate_ex1.seqno + i) = waiter_state_t.RELEASED) ∧
      (∀ j, (∀ i, i ≤ 1 → j ≠ to_get_waiter gate_ex1 (gate_ex1.seqno + i)) →
        waiter_at tq' j = waiter_at gate_ex1 j) ∧
      tq'.qlen = gate_ex1.qlen ∧ tq'.qmask = gate_ex1.qmask ∧
      tq'.queue.length = gate_ex1.queue.length :=
  gcs_to_release_sweep gate_ex1 1 ⟨⟨2, by decide, rfl⟩, rfl, rfl, by decide⟩
    (by decide)
    (by
      intro i h1 h2
      have : i = 1 := by omega
      subst this
      decide)
    (by decide)

/-! ## Cancel, self-cancel, release precondition, ring overflow -/

/-- Effect of `w->state = st` on the slot of seqno `s`, for a well-formed gate. -/
theorem set_state_slot (tq : gcs_to) (hwf : to_wf tq) (s : Nat) (st : waiter_state_t) :
    slot_state (set_state tq (to_get_waiter tq s) st) s = st ∧
    (set_state tq (to_get_waiter tq s) st).seqno = tq.seqno ∧
    (∀ j, j ≠ to_get_waiter tq s →
      waiter_at (set_state tq (to_get_waiter tq s) st) j = waiter_at tq j) := by
  refine ⟨?_, rfl, ?_⟩
  · show w_state _ (to_get_waiter tq s) = st
    exact w_state_set_state_self tq _ st (to_get_waiter_lt tq hwf s)
  · intro j hj
    exact waiter_at_set_state_ne tq _ j st hj

/-- C5 (cancel). For `s > current_seqno`, `gcs_to_cancel(s)` returns 0, marks
slot `s` CANCELED, signals its condition and leaves the current seqno and every
other slot unchanged; for `s = current_seqno` it is a fatal abort. -/
theorem gcs_to_cancel_spec (tq : gcs_to) (hwf : to_wf tq) :
    (∀ s, tq.seqno < s →
      ∃ tq', gcs_to_cancel tq s = to_result.ret 0 tq' (some (to_get_waiter tq s)) ∧
        slot_state tq' s = waiter_state_t.CANCELED ∧
        tq'.seqno = tq.seqno ∧
        (∀ j, j ≠ to_get_waiter tq s → waiter_at tq' j = waiter_at tq j)) ∧
    gcs_to_cancel tq tq.seqno = to_result.abort := by
  constructor
  · intro s hs
    refine ⟨set_state tq (to_get_waiter tq s) waiter_state_t.CANCELED, ?_,
      set_state_slot tq hwf s _⟩
    simp only [gcs_to_cancel, if_pos hs]
  · simp [gcs_to_cancel]

/-- Witness of C5 on a fresh gate of four slots. -/
theorem gcs_to_cancel_spec_witness :
    (∀ s, gate_ex2.seqno < s →
      ∃ tq', gcs_to_cancel gate_ex2 s =
          to_result.ret 0 tq' (some (to_get_waiter gate_ex2 s)) ∧
        slot_state tq' s = waiter_state_t.CANCELED ∧
        tq'.seqno = gate_ex2.seqno ∧
        (∀ j, j ≠ to_get_waiter gate_ex2 s → waiter_at tq' j = waiter_at gate_ex2 j)) ∧
    gcs_to_cancel gate_ex2 gate_ex2.seqno = to_result.abort :=
  gcs_to_cancel_spec gate_ex2 ⟨⟨2, by decide, rfl⟩, rfl, rfl, by decide⟩

/-- A release at the head whose sweep finds slots `cur+1 .. s` cancelled
passes `s`: it stops at a seqno beyond `s` and leaves slot `s` RELEASED. -/
theorem gcs_to_release_passes (tq : gcs_to) (hwf : to_wf tq) (s : Nat)
    (hs : tq.seqno ≤ s) (hring : s - tq.seqno < tq.qlen)
    (hcan : ∀ x, tq.seqno < x → x ≤ s → slot_state tq x = waiter_state_t.CANCELED) :
    ∃ k tq' sig, gcs_to_release tq tq.seqno = to_result.ret 0 tq' sig ∧
      s - tq.seqno ≤ k ∧ tq'.seqno = (tq.seqno + k + 1) % SEQNO_RANGE ∧
      (tq.seqno + k + 1 < SEQNO_RANGE → s < tq'.seqno) ∧
      slot_state tq' s = waiter_state_t.RELEASED := by
  obtain ⟨k, tq', sig, hk, hres, hseq, hrel, hfr, hql, hqm, hlen, _, _, hstop, _⟩ :=
    gcs_to_release_head tq hwf
  have hwf' : to_wf tq' :=
    to_wf_of_frame tq tq' hwf hql hqm hlen (by rw [hseq]; exact Nat.mod_lt _ (by decide))
  have hkd : s - tq.seqno ≤ k := by
    by_contra hlt
    have h1 : tq.seqno + k + 1 ≤ s := by omega
    have hc := hcan (tq.seqno + k + 1) (by omega) h1
    simp only [slot_state, to_get_waiter_eq_mod tq hwf] at hc
    apply hstop
    simp only [w_state] at hc ⊢
    rw [hfr _ (by
      intro i hi he
      have := ring_index_inj tq.qlen tq.seqno (k + 1) i (by omega) (by omega)
        (by rw [← Nat.add_assoc]; exact he)
      omega)]
    exact hc
  refine ⟨k, tq', sig, hres, hkd, hseq, ?_, ?_⟩
  · intro hb
    rw [hseq, Nat.mod_eq_of_lt hb]; omega
  · simp only [slot_state, to_get_waiter_eq_mod tq' hwf', hql]
    have := hrel (s - tq.seqno) hkd
    have e : tq.seqno + (s - tq.seqno) = s := by omega
    rwa [e] at this

/-- C6 (self-cancel). For `s >= current_seqno`, `gcs_to_self_cancel(s)` marks
slot `s` CANCELED and changes nothing else; afterwards a release at the head
whose sweep reaches `s` (slots `cur+1 .. s-1` cancelled, `s` within the ring)
passes `s` and leaves it RELEASED, with no grab of `s`; for
`s < current_seqno` the call is a fatal abort. -/
theorem gcs_to_self_cancel_spec (tq : gcs_to) (hwf : to_wf tq) :
    (∀ s, tq.seqno ≤ s →
      ∃ tq', gcs_to_self_cancel tq s = to_result.ret 0 tq' none ∧
        slot_state tq' s = waiter_state_t.CANCELED ∧
        tq'.seqno = tq.seqno ∧
        (∀ j, j ≠ to_get_waiter tq s → waiter_at tq' j = waiter_at tq j) ∧
        (s - tq.seqno < tq.qlen →
          (∀ x, tq.seqno < x → x < s → slot_state tq x = waiter_state_t.CANCELED) →
          ∃ k tq2 sig, gcs_to_release tq' tq'.seqno = to_result.ret 0 tq2 sig ∧
            s - tq.seqno ≤ k ∧ tq2.seqno = (tq.seqno + k + 1) % SEQNO_RANGE ∧
            (tq.seqno + k + 1 < SEQNO_RANGE → s < tq2.seqno) ∧
            slot_state tq2 s = waiter_state_t.RELEASED)) ∧
    (∀ s, s < tq.seqno → gcs_to_self_cancel tq s = to_result.abort) := by
  constructor
  · intro s hs
    obtain ⟨h1, h2, h3⟩ := set_state_slot tq hwf s waiter_state_t.CANCELED
    have hwf' := to_wf_set_state tq (to_get_waiter tq s) waiter_state_t.CANCELED hwf
    refine ⟨set_state tq (to_get_waiter tq s) waiter_state_t.CANCELED, ?_, h1, h2, h3, ?_⟩
    · simp only [gcs_to_self_cancel, if_neg (Nat.not_lt.mpr hs)]
    · intro hring hcan
      have := gcs_to_release_passes _ hwf' s (by rw [h2]; exact hs)
        (by rw [h2]; exact hring)
        (by
          intro x hx1 hx2
          rw [h2] at hx1
          rcases Nat.lt_or_eq_of_le hx2 with hlt | heq
          · have hc := hcan x hx1 hlt
            have hne : to_get_waiter tq x ≠ to_get_waiter tq s := by
              rw [to_get_waiter_eq_mod tq hwf, to_get_waiter_eq_mod tq hwf]
              intro he
              have e1 : x = tq.seqno + (x - tq.seqno) := by omega
              have e2 : s = tq.seqno + (s - tq.seqno) := by omega
              rw [e1, e2] at he
              have := ring_index_inj tq.qlen tq.seqno _ _ (by omega) (by omega) he
              omega
            show (waiter_at _ (to_get_waiter (set_state tq _ _) x)).state = _
            have hgw : to_get_waiter (set_state tq (to_get_waiter tq s)
                waiter_state_t.CANCELED) x = to_get_waiter tq x := rfl
            rw [hgw, h3 _ hne]
            exact hc
          · rw [heq]; exact h1)
      rw [h2] at this
      exact this
  · intro s hs
    simp only [gcs_to_self_cancel, if_pos hs]

/-- Witness of C6 on a fresh gate of four slots. -/
theorem gcs_to_self_cancel_spec_witness :
    (∀ s, gate_ex2.seqno ≤ s →
      ∃ tq', gcs_to_self_cancel gate_ex2 s = to_result.ret 0 tq' none ∧
        slot_state tq' s = waiter_state_t.CANCELED ∧
        tq'.seqno = gate_ex2.seqno ∧
        (∀ j, j ≠ to_get_waiter gate_ex2 s → waiter_at tq' j = waiter_at gate_ex2 j) ∧
        (s - gate_ex2.seqno < gate_ex2.qlen →
          (∀ x, gate_ex2.seqno < x → x < s →
            slot_state gate_ex2 x = waiter_state_t.CANCELED) →
          ∃ k tq2 sig, gcs_to_release tq' tq'.seqno = to_result.ret 0 tq2 sig ∧
            s - gate_ex2.seqno ≤ k ∧
            tq2.seqno = (gate_ex2.seqno + k + 1) % SEQNO_RANGE ∧
            (gate_ex2.seqno + k + 1 < SEQNO_RANGE → s < tq2.seqno) ∧
            slot_state tq2 s = waiter_state_t.RELEASED)) ∧
    (∀ s, s < gate_ex2.seqno → gcs_to_self_cancel gate_ex2 s = to_result.abort) :=
  gcs_to_self_cancel_spec gate_ex2 ⟨⟨2, by decide, rfl⟩, rfl, rfl, by decide⟩

/-- The gate in which a caller of `gcs_to_grab(s)` waits: slot WAIT, `used`
incremented. -/
theorem gcs_to_grab_ahead (tq : gcs_to) (s : Nat) (hs : tq.seqno < s)
    (hst : w_state tq (to_get_waiter tq s) = waiter_state_t.RELEASED) :
    gcs_to_grab tq s = to_result.wait
      (used_inc (set_state tq (to_get_waiter tq s) waiter_state_t.WAIT)) := by
  have h1 : ¬ s = tq.seqno := by omega
  have h2 : ¬ s < tq.seqno := by omega
  simp only [gcs_to_grab, hst, if_neg h1, if_neg h2]

/-- A grab at the head of the gate into a RELEASED slot. -/
theorem gcs_to_grab_head (tq : gcs_to)
    (hst : w_state tq (to_get_waiter tq tq.seqno) = waiter_state_t.RELEASED) :
    gcs_to_grab tq tq.seqno = to_result.ret 0
      (set_state tq (to_get_waiter tq tq.seqno) waiter_state_t.HOLDER) none := by
  simp only [gcs_to_grab, hst, if_true]

/-- C7, counterexample. On a fresh gate at seqno 1 the slot of seqno 1 is
RELEASED (never grabbed), and yet `gcs_to_release(1)` returns 0 and advances
the current seqno to 2. -/
theorem gcs_to_release_unheld_counterexample :
    slot_state gate_ex2 1 = waiter_state_t.RELEASED ∧ gate_ex2.seqno ≤ 1 ∧
    gcs_to_release gate_ex2 1 = to_result.ret 0 { gate_ex2 with seqno := 2 } none := by
  decide

/-- C7, amended. `gcs_to_release(s)` checks the slot only away from the head:
for `s > current_seqno` it is a fatal abort unless slot `s` is CANCELED, in
which case it returns 0 and changes nothing; for `s = current_seqno` it makes
no check of the slot state, returns 0 and advances the current seqno by
`k + 1` (modulo `2 ^ 64`), `k < qlen` being the number of cancelled slots
swept. -/
theorem gcs_to_release_precondition (tq : gcs_to) (hwf : to_wf tq) :
    (∀ s, tq.seqno < s → slot_state tq s ≠ waiter_state_t.CANCELED →
      gcs_to_release tq s = to_result.abort) ∧
    (∀ s, tq.seqno < s → slot_state tq s = waiter_state_t.CANCELED →
      gcs_to_release tq s = to_result.ret 0 tq none) ∧
    (∃ k tq' sig, k < tq.qlen ∧
      gcs_to_release tq tq.seqno = to_result.ret 0 tq' sig ∧
      tq'.seqno = (tq.seqno + k + 1) % SEQNO_RANGE ∧
      slot_state tq' tq.seqno = waiter_state_t.RELEASED) := by
  refine ⟨?_, ?_, ?_⟩
  · intro s hs hst
    have hne : ¬ s = tq.seqno := by omega
    simp only [slot_state] at hst
    simp only [gcs_to_release, if_neg hne, if_pos hs, if_pos hst]
  · intro s hs hst
    have hne : ¬ s = tq.seqno := by omega
    simp only [slot_state] at hst
    have hst' : ¬ w_state tq (to_get_waiter tq s) ≠ waiter_state_t.CANCELED := by
      simp [hst]
    simp only [gcs_to_release, if_neg hne, if_pos hs, if_neg hst']
  · obtain ⟨k, tq', sig, hk, hres, hseq, hrel, _, hql, hqm, hlen, _⟩ :=
      gcs_to_release_head tq hwf
    have hwf' : to_wf tq' :=
      to_wf_of_frame tq tq' hwf hql hqm hlen (by rw [hseq]; exact Nat.mod_lt _ (by decide))
    refine ⟨k, tq', sig, hk, hres, hseq, ?_⟩
    simp only [slot_state, to_get_waiter_eq_mod tq' hwf', hql]
    simpa using hrel 0 (by omega)

/-- Witness of the amended C7 on a fresh gate of four slots. -/
theorem gcs_to_release_precondition_witness :
    (∀ s, gate_ex2.seqno < s → slot_state gate_ex2 s ≠ waiter_state_t.CANCELED →
      gcs_to_release gate_ex2 s = to_result.abort) ∧
    (∀ s, gate_ex2.seqno < s → slot_state gate_ex2 s = waiter_state_t.CANCELED →
      gcs_to_release gate_ex2 s = to_result.ret 0 gate_ex2 none) ∧
    (∃ k tq' sig, k < gate_ex2.qlen ∧
      gcs_to_release gate_ex2 gate_ex2.seqno = to_result.ret 0 tq' sig ∧
      tq'.seqno = (gate_ex2.seqno + k + 1) % SEQNO_RANGE ∧
      slot_state tq' gate_ex2.seqno = waiter_state_t.RELEASED) :=
  gcs_to_release_precondition gate_ex2 ⟨⟨2, by decide, rfl⟩, rfl, rfl, by decide⟩

/-- C8, counterexample. With a ring of two slots at seqno 1 and slot 1 held,
seqno 3 overflows the ring (`3 - 1 >= 2`), and yet `gcs_to_cancel(3)` and
`gcs_to_self_cancel(3)` return normally and overwrite the held slot of seqno
`1 = 3 - 2`; on a fresh ring of four slots `gcs_to_grab(5)` is not fatal
either: it marks the slot shared with seqno 1 WAIT and waits. -/
theorem ring_overflow_counterexample :
    gate_ex3.qlen ≤ 3 - gate_ex3.seqno ∧
    slot_state gate_ex3 1 = waiter_state_t.HOLDER ∧
    gcs_to_cancel gate_ex3 3 = to_result.ret 0
      { gate_ex3 with queue := [⟨waiter_state_t.RELEASED, 0⟩,
                                ⟨waiter_state_t.CANCELED, 0⟩] } (some 1) ∧
    gcs_to_self_cancel gate_ex3 3 = to_result.ret 0
      { gate_ex3 with queue := [⟨waiter_state_t.RELEASED, 0⟩,
                                ⟨waiter_state_t.CANCELED, 0⟩] } none ∧
    gate_ex2.qlen ≤ 5 - gate_ex2.seqno ∧
    gcs_to_grab gate_ex2 5 = to_result.wait
      { gate_ex2 with used := 1
                      queue := [⟨waiter_state_t.RELEASED, 0⟩, ⟨waiter_state_t.WAIT, 0⟩,
                                ⟨waiter_state_t.RELEASED, 0⟩,
                                ⟨waiter_state_t.RELEASED, 0⟩] } := by
  decide

/-- C8, amended. Ring overflow is detected by `gcs_to_grab` alone, through the
state of the slot: for every seqno `s` whose slot is HOLDER, WAIT or WITHDRAW
the grab is a fatal abort. `gcs_to_cancel` and `gcs_to_self_cancel` make no
overflow check: for every `s > current_seqno` (`s >= current_seqno` for
self-cancel), whatever `s - current_seqno` is, they return 0 and mark the slot
`s & qmask` CANCELED; and a grab of `s > current_seqno` into a RELEASED slot
marks it WAIT and waits. -/
theorem ring_overflow_spec (tq : gcs_to) (hwf : to_wf tq) :
    (∀ s, slot_state tq s = waiter_state_t.HOLDER ∨ slot_state tq s = waiter_state_t.WAIT ∨
        slot_state tq s = waiter_state_t.WITHDRAW →
      gcs_to_grab tq s = to_result.abort) ∧
    (∀ s, tq.seqno < s → ∃ tq', gcs_to_cancel tq s =
        to_result.ret 0 tq' (some (to_get_waiter tq s)) ∧
      slot_state tq' s = waiter_state_t.CANCELED) ∧
    (∀ s, tq.seqno ≤ s → ∃ tq', gcs_to_self_cancel tq s = to_result.ret 0 tq' none ∧
      slot_state tq' s = waiter_state_t.CANCELED) ∧
    (∀ s, tq.seqno < s → slot_state tq s = waiter_state_t.RELEASED →
      ∃ tq', gcs_to_grab tq s = to_result.wait tq' ∧
        slot_state tq' s = waiter_state_t.WAIT) := by
  refine ⟨?_, ?_, ?_, ?_⟩
  · intro s hs
    simp only [slot_state] at hs
    rcases hs with h | h | h <;> simp [gcs_to_grab, h]
  · intro s hs
    refine ⟨set_state tq (to_get_waiter tq s) waiter_state_t.CANCELED, ?_,
      (set_state_slot tq hwf s _).1⟩
    simp only [gcs_to_cancel, if_pos hs]
  · intro s hs
    refine ⟨set_state tq (to_get_waiter tq s) waiter_state_t.CANCELED, ?_,
      (set_state_slot tq hwf s _).1⟩
    simp only [gcs_to_self_cancel, if_neg (Nat.not_lt.mpr hs)]
  · intro s hs hst
    simp only [slot_state] at hst
    refine ⟨_, gcs_to_grab_ahead tq s hs hst, ?_⟩
    exact (set_state_slot tq hwf s waiter_state_t.WAIT).1

/-- Witness of the amended C8 on the ring of two slots. -/
theorem ring_overflow_spec_witness :
    (∀ s, slot_state gate_ex3 s = waiter_state_t.HOLDER ∨
        slot_state gate_ex3 s = waiter_state_t.WAIT ∨
        slot_state gate_ex3 s = waiter_state_t.WITHDRAW →
      gcs_to_grab gate_ex3 s = to_result.abort) ∧
    (∀ s, gate_ex3.seqno < s → ∃ tq', gcs_to_cancel gate_ex3 s =
        to_result.ret 0 tq' (some (to_get_waiter gate_ex3 s)) ∧
      slot_state tq' s = waiter_state_t.CANCELED) ∧
    (∀ s, gate_ex3.seqno ≤ s → ∃ tq', gcs_to_self_cancel gate_ex3 s =
        to_result.ret 0 tq' none ∧
      slot_state tq' s = waiter_state_t.CANCELED) ∧
    (∀ s, gate_ex3.seqno < s → slot_state gate_ex3 s = waiter_state_t.RELEASED →
      ∃ tq', gcs_to_grab gate_ex3 s = to_result.wait tq' ∧
        slot_state tq' s = waiter_state_t.WAIT) :=
  ring_overflow_spec gate_ex3 ⟨⟨1, by decide, rfl⟩, rfl, rfl, by decide⟩

/-! ## Effect of each gate call on the slots -/

theorem to_frame_set_state (tq : gcs_to) (w : Nat) (st : waiter_state_t) :
    to_frame tq (set_state tq w st) :=
  ⟨rfl, rfl, rfl, by simp [set_state]⟩

theorem to_wf_frame (tq tq' : gcs_to) (hwf : to_wf tq) (hf : to_frame tq tq') :
    to_wf tq' :=
  to_wf_of_frame tq tq' hwf hf.2.1 hf.2.2.1 hf.2.2.2 (by rw [hf.1]; exact hwf.2.2.2)

theorem slot_state_frame (tq tq' : gcs_to) (s : Nat) (hq : tq'.qmask = tq.qmask) :
    slot_state tq' s = w_state tq' (to_get_waiter tq s) := by
  simp only [slot_state, to_get_waiter, hq]

theorem w_state_set_state (tq : gcs_to) (w j : Nat) (st : waiter_state_t) :
    w_state (set_state tq w st) j = w_state tq j ∨
      (j = w ∧ w_state (set_state tq w st) j = st) := by
  by_cases hj : j = w
  · subst hj
    by_cases hl : j < tq.queue.length
    · exact Or.inr ⟨rfl, w_state_set_state_self tq j st hl⟩
    · left
      simp only [w_state, waiter_at, set_state]
      rw [List.set_eq_of_length_le (by omega)]
  · exact Or.inl (w_state_set_state_ne tq w j st hj)

theorem w_state_used_dec (tq : gcs_to) (j : Nat) :
    w_state (used_dec tq) j = w_state tq j := by
  unfold w_state waiter_at used_dec
  rfl

theorem w_state_used_inc (tq : gcs_to) (j : Nat) :
    w_state (used_inc tq) j = w_state tq j := by
  unfold w_state waiter_at used_inc
  rfl

theorem to_frame_used_dec (tq : gcs_to) : to_frame tq (used_dec tq) := by
  unfold to_frame used_dec
  exact ⟨rfl, rfl, rfl, rfl⟩

theorem to_frame_used_inc (tq : gcs_to) : to_frame tq (used_inc tq) := by
  unfold to_frame used_inc
  exact ⟨rfl, rfl, rfl, rfl⟩

theorem to_frame_trans (a b c : gcs_to) (h1 : to_frame a b) (h2 : to_frame b c) :
    to_frame a c :=
  ⟨h2.1.trans h1.1, h2.2.1.trans h1.2.1, h2.2.2.1.trans h1.2.2.1,
    h2.2.2.2.trans h1.2.2.2⟩

theorem gcs_to_grab_ret_effect (tq : gcs_to) (x : Nat) (e : Int) (tq' : gcs_to)
    (sg : Option Nat) (h : gcs_to_grab tq x = to_result.ret e tq' sg) :
    to_frame tq tq' ∧ sg = none ∧
      (∀ j, w_state tq' j = w_state tq j ∨ w_state tq j = waiter_state_t.RELEASED) ∧
      (e = 0 ∨ e = -ECANCELED) := by
  unfold gcs_to_grab at h
  cases hst : w_state tq (to_get_waiter tq x) with
  | HOLDER => simp only [hst] at h; cases h
  | WAIT => simp only [hst] at h; cases h
  | WITHDRAW => simp only [hst] at h; cases h
  | CANCELED =>
    simp only [hst] at h
    injection h with h1 h2 h3
    subst h2
    exact ⟨⟨rfl, rfl, rfl, rfl⟩, h3.symm, fun j => Or.inl rfl, Or.inr h1.symm⟩
  | RELEASED =>
    simp only [hst] at h
    by_cases h1 : x = tq.seqno
    · simp only [if_pos h1] at h
      injection h with h1 h2 h3
      subst h2
      refine ⟨to_frame_set_state _ _ _, h3.symm, fun j => ?_, Or.inl h1.symm⟩
      rcases w_state_set_state tq (to_get_waiter tq x) j waiter_state_t.HOLDER with h | ⟨hj, _⟩
      · exact Or.inl h
      · right; rw [hj]; exact hst
    · simp only [if_neg h1] at h
      by_cases h2 : x < tq.seqno
      · simp only [if_pos h2] at h; cases h
      · simp only [if_neg h2] at h; cases h

theorem gcs_to_grab_wait_effect (tq : gcs_to) (x : Nat) (tq' : gcs_to)
    (h : gcs_to_grab tq x = to_result.wait tq') :
    to_frame tq tq' ∧
      ∀ j, w_state tq' j = w_state tq j ∨ w_state tq j = waiter_state_t.RELEASED := by
  unfold gcs_to_grab at h
  cases hst : w_state tq (to_get_waiter tq x) with
  | HOLDER => simp only [hst] at h; cases h
  | WAIT => simp only [hst] at h; cases h
  | WITHDRAW => simp only [hst] at h; cases h
  | CANCELED => simp only [hst] at h; cases h
  | RELEASED =>
    simp only [hst] at h
    by_cases h1 : x = tq.seqno
    · simp only [if_pos h1] at h; cases h
    · simp only [if_neg h1] at h
      by_cases h2 : x < tq.seqno
      · simp only [if_pos h2] at h; cases h
      · simp only [if_neg h2] at h
        injection h with h1
        subst h1
        refine ⟨to_frame_trans _ _ _ (to_frame_set_state tq _ _) (to_frame_used_inc _),
          fun j => ?_⟩
        rw [w_state_used_inc]
        rcases w_state_set_state tq (to_get_waiter tq x) j waiter_state_t.WAIT with h | ⟨hj, _⟩
        · exact Or.inl h
        · right; rw [hj]; exact hst

theorem gcs_to_grab_wakeup_effect (tq : gcs_to) (x : Nat) (e : Int) (tq' : gcs_to)
    (sg : Option Nat) (h : gcs_to_grab_wakeup tq x = to_result.ret e tq' sg) :
    to_frame tq tq' ∧
      (∀ j, w_state tq' j = w_state tq j ∨
        (w_state tq j = waiter_state_t.WAIT ∧ w_state tq' j = waiter_state_t.HOLDER)) ∧
      (e = 0 → w_state tq (to_get_waiter tq x) = waiter_state_t.WAIT) ∧
      (e = 0 ∨ e = -ECANCELED) := by
  unfold gcs_to_grab_wakeup at h
  simp only [w_state_used_dec] at h
  by_cases hc : w_state tq (to_get_waiter tq x) = waiter_state_t.CANCELED
  · simp only [if_pos hc] at h
    injection h with h1 h2 h3
    subst h2
    refine ⟨to_frame_used_dec _, fun j => Or.inl (w_state_used_dec _ _), ?_,
      Or.inr h1.symm⟩
    intro he
    rw [he] at h1
    exact absurd h1 (by decide)
  · simp only [if_neg hc] at h
    by_cases hst : w_state tq (to_get_waiter tq x) = waiter_state_t.WAIT
    · simp only [if_pos hst] at h
      injection h with h1 h2 h3
      subst h2
      refine ⟨to_frame_trans _ _ _ (to_frame_used_dec tq) (to_frame_set_state _ _ _),
        fun j => ?_, fun _ => hst, Or.inl h1.symm⟩
      rcases w_state_set_state (used_dec tq)
        (to_get_waiter tq x) j waiter_state_t.HOLDER with h | ⟨hj, h⟩
      · left; rw [h]; exact w_state_used_dec _ _
      · right
        refine ⟨?_, h⟩
        rw [hj]; exact hst
    · simp only [if_neg hst] at h; cases h

theorem gcs_to_cancel_effect (tq : gcs_to) (hwf : to_wf tq) (x : Nat) (e : Int)
    (tq' : gcs_to) (sg : Option Nat) (h : gcs_to_cancel tq x = to_result.ret e tq' sg) :
    to_frame tq tq' ∧ sg = some (to_get_waiter tq x) ∧
      w_state tq' (to_get_waiter tq x) = waiter_state_t.CANCELED ∧
      ∀ j, j ≠ to_get_waiter tq x → w_state tq' j = w_state tq j := by
  unfold gcs_to_cancel at h
  simp only at h
  split at h
  · injection h with h1 h2 h3
    subst h2
    exact ⟨to_frame_set_state _ _ _, h3.symm,
      w_state_set_state_self tq _ _ (to_get_waiter_lt tq hwf x),
      fun j hj => w_state_set_state_ne tq _ j _ hj⟩
  · split at h <;> cases h

theorem gcs_to_self_cancel_effect (tq : gcs_to) (hwf : to_wf tq) (x : Nat) (e : Int)
    (tq' : gcs_to) (sg : Option Nat)
    (h : gcs_to_self_cancel tq x = to_result.ret e tq' sg) :
    to_frame tq tq' ∧ sg = none ∧
      w_state tq' (to_get_waiter tq x) = waiter_state_t.CANCELED ∧
      ∀ j, j ≠ to_get_waiter tq x → w_state tq' j = w_state tq j := by
  unfold gcs_to_self_cancel at h
  split at h
  · cases h
  · injection h with h1 h2 h3
    subst h2
    exact ⟨to_frame_set_state _ _ _, h3.symm,
      w_state_set_state_self tq _ _ (to_get_waiter_lt tq hwf x),
      fun j hj => w_state_set_state_ne tq _ j _ hj⟩

theorem gcs_to_release_effect (tq : gcs_to) (hwf : to_wf tq) (x : Nat) (e : Int)
    (tq' : gcs_to) (sg : Option Nat) (h : gcs_to_release tq x = to_result.ret e tq' sg) :
    (tq' = tq ∧ sg = none) ∨
    (x = tq.seqno ∧ ∃ k, k < tq.qlen ∧
      tq'.seqno = (tq.seqno + k + 1) % SEQNO_RANGE ∧
      tq'.qlen = tq.qlen ∧ tq'.qmask = tq.qmask ∧
      tq'.queue.length = tq.queue.length ∧
      (∀ j, (∀ i, i ≤ k → j ≠ (tq.seqno + i) % tq.qlen) →
        waiter_at tq' j = waiter_at tq j) ∧
      (sg = none ∨ sg = some ((tq.seqno + k + 1) % tq.qlen))) := by
  by_cases hx : x = tq.seqno
  · right
    subst hx
    obtain ⟨k, tq2, sig, hk, hres, hseq, _, hfr, hql, hqm, hlen, _, hsig, _⟩ :=
      gcs_to_release_head tq hwf
    rw [hres] at h
    injection h with h1 h2 h3
    subst h2; subst h3
    exact ⟨rfl, k, hk, hseq, hql, hqm, hlen, hfr, hsig⟩
  · left
    unfold gcs_to_release at h
    simp only [if_neg hx] at h
    split at h
    · split at h
      · cases h
      · injection h with h1 h2 h3
        exact ⟨h2.symm, h3.symm⟩
    · split at h
      · cases h
      · injection h with h1 h2 h3
        exact ⟨h2.symm, h3.symm⟩

/-! ## galera.c : the local commit path -/

/-- The calls of galera_commit up to the gate grab. -/
theorem galera_commit_grab (st : galera_state) (trx_id conn_id : Nat)
    (repl : Int × Nat × Nat) (during_repl wake : galera_state → galera_state)
    (ws : wsdb_write_set)
    (hen : st.repl_state = galera_repl_state.GALERA_ENABLED)
    (hna : wsdb_get_local_trx_seqno st.local_trx trx_id ≠ GALERA_ABORT_SEQNO)
    (hws : wsdb_get_write_set st.local_ws trx_id conn_id = some ws)
    (hrepl : 0 ≤ repl.1)
    (hna2 : wsdb_get_local_trx_seqno (during_repl st).local_trx trx_id ≠ GALERA_ABORT_SEQNO) :
    galera_commit st trx_id conn_id true repl during_repl wake =
      match to_queue_grab wake
          { (during_repl st) with
            local_trx := wsdb_assign_trx (during_repl st).local_trx trx_id repl.2.2 repl.2.1 }
          repl.2.2 with
      | none => galera_outcome.abort
          [galera_call.gcs_repl, galera_call.assign_trx trx_id repl.2.2 repl.2.1,
           galera_call.to_grab repl.2.2]
      | some (rcode, st3) =>
        if rcode ≠ 0 then galera_outcome.ret galera_status.GALERA_TRX_FAIL st3
          [galera_call.gcs_repl, galera_call.assign_trx trx_id repl.2.2 repl.2.1,
           galera_call.to_grab repl.2.2]
        else
          if (wsdb_append_write_set st3.cert_index repl.2.1 ws).1 = WSDB_OK then
            galera_outcome.ret galera_status.GALERA_OK
              { st3 with cert_index := (wsdb_append_write_set st3.cert_index repl.2.1 ws).2 }
              [galera_call.gcs_repl, galera_call.assign_trx trx_id repl.2.2 repl.2.1,
               galera_call.to_grab repl.2.2, galera_call.append_write_set repl.2.1 ws]
          else if (wsdb_append_write_set st3.cert_index repl.2.1 ws).1 =
              WSDB_CERTIFICATION_FAIL then
            galera_outcome.ret galera_status.GALERA_TRX_FAIL
              { st3 with cert_index := (wsdb_append_write_set st3.cert_index repl.2.1 ws).2 }
              [galera_call.gcs_repl, galera_call.assign_trx trx_id repl.2.2 repl.2.1,
               galera_call.to_grab repl.2.2, galera_call.append_write_set repl.2.1 ws]
          else
            galera_outcome.ret galera_status.GALERA_CONN_FAIL
              { st3 with cert_index := (wsdb_append_write_set st3.cert_index repl.2.1 ws).2 }
              [galera_call.gcs_repl, galera_call.assign_trx trx_id repl.2.2 repl.2.1,
               galera_call.to_grab repl.2.2, galera_call.append_write_set repl.2.1 ws] := by
  have hr : ¬ repl.1 < 0 := by omega
  unfold galera_commit
  simp only [hen, ne_eq, not_true_eq_false, if_false, hna, hws, Bool.not_true,
    Bool.false_eq_true, hr, hna2, List.cons_append, List.nil_append]


/-- A successful grab through the gate returns with the slot marked HOLDER. -/
theorem slot_state_set_state_wf (tq : gcs_to) (s : Nat) (st : waiter_state_t)
    (hwf : to_wf (set_state tq (to_get_waiter tq s) st)) :
    slot_state (set_state tq (to_get_waiter tq s) st) s = st := by
  have h := to_get_waiter_lt _ hwf s
  have hl : (set_state tq (to_get_waiter tq s) st).queue.length = tq.queue.length := by
    simp [set_state]
  rw [hl] at h
  exact w_state_set_state_self tq _ st h

theorem gcs_to_grab_ok (tq : gcs_to) (s : Nat) (tq' : gcs_to) (sg : Option Nat)
    (h : gcs_to_grab tq s = to_result.ret 0 tq' sg) :
    tq' = set_state tq (to_get_waiter tq s) waiter_state_t.HOLDER ∧ s = tq.seqno ∧
      w_state tq (to_get_waiter tq s) = waiter_state_t.RELEASED := by
  unfold gcs_to_grab at h
  cases hst : w_state tq (to_get_waiter tq s) with
  | HOLDER => simp only [hst] at h; cases h
  | WAIT => simp only [hst] at h; cases h
  | WITHDRAW => simp only [hst] at h; cases h
  | CANCELED =>
    simp only [hst] at h
    injection h with h1 h2 h3
    exact absurd h1 (by decide)
  | RELEASED =>
    simp only [hst] at h
    by_cases h1 : s = tq.seqno
    · simp only [if_pos h1] at h
      injection h with _ h2 _
      exact ⟨h2.symm, h1, rfl⟩
    · simp only [if_neg h1] at h
      by_cases h2 : s < tq.seqno
      · simp only [if_pos h2] at h; cases h
      · simp only [if_neg h2] at h; cases h

theorem to_get_waiter_used_dec (tq : gcs_to) (s : Nat) :
    to_get_waiter (used_dec tq) s = to_get_waiter tq s := by
  unfold to_get_waiter used_dec
  rfl

theorem gcs_to_grab_wakeup_ok (tq : gcs_to) (s : Nat) (tq' : gcs_to) (sg : Option Nat)
    (h : gcs_to_grab_wakeup tq s = to_result.ret 0 tq' sg) :
    tq' = set_state (used_dec tq) (to_get_waiter tq s) waiter_state_t.HOLDER := by
  unfold gcs_to_grab_wakeup at h
  simp only [w_state_used_dec] at h
  by_cases hc : w_state tq (to_get_waiter tq s) = waiter_state_t.CANCELED
  · simp only [if_pos hc] at h
    injection h with h1 _ _
    exact absurd h1 (by decide)
  · simp only [if_neg hc] at h
    by_cases hst : w_state tq (to_get_waiter tq s) = waiter_state_t.WAIT
    · simp only [if_pos hst] at h
      injection h with _ h2 _
      exact h2.symm
    · simp only [if_neg hst] at h; cases h

/-- What a grab through the gate that returned 0 has done: the slot of the
seqno is HOLDER, the other fields of the engine are those the caller left or,
if it had to wait, those the other threads left. -/
theorem to_queue_grab_ok (wake : galera_state → galera_state) (st st3 : galera_state)
    (s : Nat) (h : to_queue_grab wake st s = some (0, st3)) (hwf : to_wf st3.to_queue) :
    slot_state st3.to_queue s = waiter_state_t.HOLDER ∧
    ((gcs_to_grab st.to_queue s =
        to_result.ret 0 (set_state st.to_queue (to_get_waiter st.to_queue s)
          waiter_state_t.HOLDER) none ∧
      st3 = { st with
        to_queue := set_state st.to_queue (to_get_waiter st.to_queue s) waiter_state_t.HOLDER } ∧
      st.to_queue.seqno = s) ∨
     (∃ tq', gcs_to_grab st.to_queue s = to_result.wait tq' ∧
        st3.to_queue.seqno = (wake { st with to_queue := tq' }).to_queue.seqno ∧
        st3.local_trx = (wake { st with to_queue := tq' }).local_trx ∧
        st3.cert_index = (wake { st with to_queue := tq' }).cert_index)) := by
  unfold to_queue_grab at h
  cases hg : gcs_to_grab st.to_queue s with
  | ret err tq' sg =>
    simp only [hg] at h
    injection h with h
    injection h with h1 h2
    subst h1
    obtain ⟨e1, e2, _⟩ := gcs_to_grab_ok _ _ _ _ hg
    have hsg := (gcs_to_grab_ret_effect _ _ _ _ _ hg).2.1
    subst hsg
    subst e1
    subst h2
    refine ⟨slot_state_set_state_wf _ _ _ hwf, Or.inl ⟨rfl, rfl, e2.symm⟩⟩
  | wait tq' =>
    simp only [hg] at h
    cases hw : gcs_to_grab_wakeup (wake { st with to_queue := tq' }).to_queue s with
    | ret err tq2 sg =>
      simp only [hw] at h
      injection h with h
      injection h with h1 h2
      subst h1
      have e := gcs_to_grab_wakeup_ok _ _ _ _ hw
      subst h2
      refine ⟨?_, Or.inr ⟨tq', rfl, ?_, rfl, rfl⟩⟩
      · show slot_state tq2 s = _
        have hwf2 : to_wf tq2 := hwf
        rw [e, ← to_get_waiter_used_dec] at hwf2
        rw [e, ← to_get_waiter_used_dec]
        exact slot_state_set_state_wf _ s _ hwf2
      · show tq2.seqno = _
        rw [e, (to_frame_set_state _ _ _).1, (to_frame_used_dec _).1]
    | wait _ => simp only [hw] at h; cases h
    | abort => simp only [hw] at h; cases h
    | diverge => simp only [hw] at h; cases h
  | abort => simp only [hg] at h; cases h
  | diverge => simp only [hg] at h; cases h

/-- Release at the head, in terms of the slots of seqnos: the slot of the head
is RELEASED afterwards, and the current seqno moves by exactly one when the
next slot is not cancelled. -/
theorem gcs_to_release_head_slot (tq : gcs_to) (hwf : to_wf tq) :
    ∃ k tq' sig, k < tq.qlen ∧
      gcs_to_release tq tq.seqno = to_result.ret 0 tq' sig ∧
      tq'.seqno = (tq.seqno + k + 1) % SEQNO_RANGE ∧
      slot_state tq' tq.seqno = waiter_state_t.RELEASED ∧ to_wf tq' ∧
      (slot_state tq (tq.seqno + 1) ≠ waiter_state_t.CANCELED → k = 0) := by
  obtain ⟨k, tq', sig, hk, hres, hseq, hrel, _, hql, hqm, hlen, _, _, _, hcan⟩ :=
    gcs_to_release_head tq hwf
  have hwf' : to_wf tq' :=
    to_wf_of_frame tq tq' hwf hql hqm hlen (by rw [hseq]; exact Nat.mod_lt _ (by decide))
  refine ⟨k, tq', sig, hk, hres, hseq, ?_, hwf', ?_⟩
  · simp only [slot_state, to_get_waiter_eq_mod tq' hwf', hql]
    simpa using hrel 0 (by omega)
  · intro hn
    by_contra hk0
    apply hn
    have := hcan 1 (by omega) (by omega)
    simpa only [slot_state, to_get_waiter_eq_mod tq hwf] using this

/-- A certification that fails leaves the index as it was. -/
theorem wsdb_append_write_set_fail (index : List (footprint × Nat)) (s : Nat)
    (ws : wsdb_write_set) (h : (wsdb_append_write_set index s ws).1 ≠ WSDB_OK) :
    (wsdb_append_write_set index s ws).1 = WSDB_CERTIFICATION_FAIL ∧
      (wsdb_append_write_set index s ws).2 = index := by
  unfold wsdb_append_write_set at h ⊢
  by_cases hc : wsdb_certification_test index ws s = WSDB_OK
  · simp only [if_pos hc] at h
    exact absurd rfl h
  · simp only [if_neg hc, and_self]

/-- C9, counterexample. Row `k` was committed at seqno 11; local transaction 1
saw seqno 10, updates `k` and is replicated at global seqno 12, local seqno 1.
Its grab succeeds at once and its certification fails: galera_commit returns
`GALERA_TRX_FAIL` without any call of gcs_to_release, the current seqno is
still 1 and slot 1 is still HOLDER. -/
theorem galera_commit_cert_fail_counterexample :
    (wsdb_append_write_set galera_ex2.cert_index 12 ws_ex).1 = WSDB_CERTIFICATION_FAIL ∧
    galera_commit galera_ex2 1 0 true (0, 12, 1) id id =
      galera_outcome.ret galera_status.GALERA_TRX_FAIL
        { galera_ex2 with
          to_queue := set_state gate_ex2 1 waiter_state_t.HOLDER
          local_trx := [{ trx_id := 1, seqno_l := 1, seqno_g := 12 }] }
        [galera_call.gcs_repl, galera_call.assign_trx 1 1 12, galera_call.to_grab 1,
         galera_call.append_write_set 12 ws_ex] ∧
    (set_state gate_ex2 1 waiter_state_t.HOLDER).seqno = 1 ∧
    slot_state (set_state gate_ex2 1 waiter_state_t.HOLDER) 1 = waiter_state_t.HOLDER := by
  decide

/-- C9, amended. When the grab of a local commit succeeds and its
certification fails, galera_commit returns `GALERA_TRX_FAIL` and makes no call
of gcs_to_release: slot `seqno_l` is still HOLDER on return. The release is
made by the following galera_rolledback, which calls gcs_to_release on the
seqno recorded for the transaction: slot `seqno_l` is then RELEASED and the
current seqno has moved beyond it. -/
theorem galera_commit_cert_fail (st st3 : galera_state) (trx_id conn_id : Nat)
    (repl : Int × Nat × Nat) (during_repl wake : galera_state → galera_state)
    (ws : wsdb_write_set)
    (hen : st.repl_state = galera_repl_state.GALERA_ENABLED)
    (hna : wsdb_get_local_trx_seqno st.local_trx trx_id ≠ GALERA_ABORT_SEQNO)
    (hws : wsdb_get_write_set st.local_ws trx_id conn_id = some ws)
    (hrepl : 0 ≤ repl.1)
    (hna2 : wsdb_get_local_trx_seqno (during_repl st).local_trx trx_id ≠ GALERA_ABORT_SEQNO)
    (hgrab : to_queue_grab wake
      { (during_repl st) with
        local_trx := wsdb_assign_trx (during_repl st).local_trx trx_id repl.2.2 repl.2.1 }
      repl.2.2 = some (0, st3))
    (hwf : to_wf st3.to_queue)
    (hcert : (wsdb_append_write_set st3.cert_index repl.2.1 ws).1 ≠ WSDB_OK) :
    galera_commit st trx_id conn_id true repl during_repl wake =
      galera_outcome.ret galera_status.GALERA_TRX_FAIL st3
        [galera_call.gcs_repl, galera_call.assign_trx trx_id repl.2.2 repl.2.1,
         galera_call.to_grab repl.2.2, galera_call.append_write_set repl.2.1 ws] ∧
    slot_state st3.to_queue repl.2.2 = waiter_state_t.HOLDER ∧
    (st3.repl_state = galera_repl_state.GALERA_ENABLED →
      wsdb_get_local_trx_seqno st3.local_trx trx_id = repl.2.2 →
      0 < repl.2.2 → repl.2.2 < GALERA_ABORT_SEQNO → st3.to_queue.seqno = repl.2.2 →
      ∃ k st5, galera_rolledback st3 trx_id =
          galera_outcome.ret galera_status.GALERA_OK st5
            [galera_call.delete_local_trx_info trx_id, galera_call.to_release repl.2.2] ∧
        slot_state st5.to_queue repl.2.2 = waiter_state_t.RELEASED ∧
        st5.to_queue.seqno = (repl.2.2 + k + 1) % SEQNO_RANGE) := by
  obtain ⟨hf1, hf2⟩ := wsdb_append_write_set_fail _ _ _ hcert
  refine ⟨?_, (to_queue_grab_ok _ _ _ _ hgrab hwf).1, ?_⟩
  · rw [galera_commit_grab st trx_id conn_id repl during_repl wake ws hen hna hws hrepl hna2,
      hgrab]
    simp only [ne_eq, not_true_eq_false, if_false, if_neg hcert, hf1, if_true, hf2]
    rw [if_neg (by decide : ¬ WSDB_CERTIFICATION_FAIL = WSDB_OK)]
  · intro hen3 hrec h0 hab hhead
    obtain ⟨k, tq', sig, _, hres, hseq, hrel, _, _⟩ := gcs_to_release_head_slot _ hwf
    rw [hhead] at hres hseq hrel
    refine ⟨k, { st3 with
      local_trx := wsdb_delete_local_trx_info st3.local_trx trx_id, to_queue := tq' },
      ?_, hrel, hseq⟩
    unfold galera_rolledback
    simp only [hen3, ne_eq, not_true_eq_false, if_false, hrec, h0, hab, and_self, if_true,
      hres, List.cons_append, List.nil_append]

/-- Witness of the amended C9: the commit of the counterexample and the
rollback that follows it. -/
theorem galera_commit_cert_fail_witness :
    galera_commit galera_ex2 1 0 true (0, 12, 1) id id =
      galera_outcome.ret galera_status.GALERA_TRX_FAIL galera_ex2_held
        [galera_call.gcs_repl, galera_call.assign_trx 1 1 12,
         galera_call.to_grab 1, galera_call.append_write_set 12 ws_ex] ∧
    slot_state galera_ex2_held.to_queue 1 = waiter_state_t.HOLDER ∧
    (galera_ex2_held.repl_state = galera_repl_state.GALERA_ENABLED →
      wsdb_get_local_trx_seqno galera_ex2_held.local_trx 1 = 1 →
      0 < 1 → 1 < GALERA_ABORT_SEQNO → galera_ex2_held.to_queue.seqno = 1 →
      ∃ k st5, galera_rolledback galera_ex2_held 1 =
          galera_outcome.ret galera_status.GALERA_OK st5
            [galera_call.delete_local_trx_info 1, galera_call.to_release 1] ∧
        slot_state st5.to_queue 1 = waiter_state_t.RELEASED ∧
        st5.to_queue.seqno = (1 + k + 1) % SEQNO_RANGE) :=
  galera_commit_cert_fail galera_ex2 galera_ex2_held 1 0 (0, 12, 1) id id ws_ex
    (by decide) (by decide) (by decide) (by decide) (by decide) (by decide)
    ⟨⟨2, by decide, rfl⟩, rfl, rfl, by decide⟩ (by decide)

/-- The record of a transaction is gone once its info has been deleted. -/
theorem wsdb_get_local_trx_seqno_deleted (tbl : List local_trx_rec) (trx_id : Nat) :
    wsdb_get_local_trx_seqno (wsdb_delete_local_trx_info tbl trx_id) trx_id = 0 := by
  unfold wsdb_get_local_trx_seqno wsdb_delete_local_trx_info
  have h : (List.filter (fun r => !decide (r.trx_id = trx_id)) tbl).find?
      (fun r => decide (r.trx_id = trx_id)) = none := by
    rw [List.find?_eq_none]
    intro x hx
    have := (List.mem_filter.mp hx).2
    simpa using this
  rw [h]

/-- C10 (certification pass and hand-off). When the grab of a local commit
succeeds (at once, or after a wait that ends with `seqno_l` at the head of the
gate) and its certification passes, galera_commit returns `GALERA_OK` with
slot `seqno_l` HOLDER and the current seqno equal to `seqno_l`; the following
galera_committed calls gcs_to_release on `seqno_l`: the slot is RELEASED, the
current seqno becomes `seqno_l + 1` when the next slot is not cancelled, and
the record of the transaction is erased. -/
theorem galera_commit_cert_pass (st st3 : galera_state) (trx_id conn_id : Nat)
    (repl : Int × Nat × Nat) (during_repl wake : galera_state → galera_state)
    (ws : wsdb_write_set)
    (hen : st.repl_state = galera_repl_state.GALERA_ENABLED)
    (hna : wsdb_get_local_trx_seqno st.local_trx trx_id ≠ GALERA_ABORT_SEQNO)
    (hws : wsdb_get_write_set st.local_ws trx_id conn_id = some ws)
    (hrepl : 0 ≤ repl.1)
    (hna2 : wsdb_get_local_trx_seqno (during_repl st).local_trx trx_id ≠ GALERA_ABORT_SEQNO)
    (hgrab : to_queue_grab wake
      { (during_repl st) with
        local_trx := wsdb_assign_trx (during_repl st).local_trx trx_id repl.2.2 repl.2.1 }
      repl.2.2 = some (0, st3))
    (hhead : ∀ tq', gcs_to_grab (during_repl st).to_queue repl.2.2 = to_result.wait tq' →
      st3.to_queue.seqno = repl.2.2)
    (hwf : to_wf st3.to_queue)
    (hcert : (wsdb_append_write_set st3.cert_index repl.2.1 ws).1 = WSDB_OK) :
    galera_commit st trx_id conn_id true repl during_repl wake =
      galera_outcome.ret galera_status.GALERA_OK
        { st3 with cert_index := (wsdb_append_write_set st3.cert_index repl.2.1 ws).2 }
        [galera_call.gcs_repl, galera_call.assign_trx trx_id repl.2.2 repl.2.1,
         galera_call.to_grab repl.2.2, galera_call.append_write_set repl.2.1 ws] ∧
    slot_state st3.to_queue repl.2.2 = waiter_state_t.HOLDER ∧
    st3.to_queue.seqno = repl.2.2 ∧
    (st3.repl_state = galera_repl_state.GALERA_ENABLED →
      wsdb_get_local_trx_seqno st3.local_trx trx_id = repl.2.2 → 0 < repl.2.2 →
      ∃ k st5, galera_committed
          { st3 with cert_index := (wsdb_append_write_set st3.cert_index repl.2.1 ws).2 }
          trx_id =
          galera_outcome.ret galera_status.GALERA_OK st5
            [galera_call.set_local_trx_committed trx_id,
             galera_call.delete_local_trx_info trx_id, galera_call.to_release repl.2.2] ∧
        slot_state st5.to_queue repl.2.2 = waiter_state_t.RELEASED ∧
        st5.to_queue.seqno = (repl.2.2 + k + 1) % SEQNO_RANGE ∧
        (slot_state st3.to_queue (repl.2.2 + 1) ≠ waiter_state_t.CANCELED →
          st5.to_queue.seqno = (repl.2.2 + 1) % SEQNO_RANGE) ∧
        wsdb_get_local_trx_seqno st5.local_trx trx_id = 0) := by
  obtain ⟨hholder, hcase⟩ := to_queue_grab_ok _ _ _ _ hgrab hwf
  have hseq3 : st3.to_queue.seqno = repl.2.2 := by
    rcases hcase with ⟨_, h2, h3⟩ | ⟨tq', h1, _⟩
    · rw [h2]; exact h3
    · exact hhead tq' h1
  refine ⟨?_, hholder, hseq3, ?_⟩
  · rw [galera_commit_grab st trx_id conn_id repl during_repl wake ws hen hna hws hrepl hna2,
      hgrab]
    simp only [ne_eq, not_true_eq_false, if_false, hcert, if_true]
  · intro hen3 hrec h0
    obtain ⟨k, tq', sig, _, hres, hseq, hrel, _, hk0⟩ := gcs_to_release_head_slot _ hwf
    rw [hseq3] at hres hseq hrel hk0
    refine ⟨k, { st3 with
      cert_index := (wsdb_append_write_set st3.cert_index repl.2.1 ws).2,
      local_trx := wsdb_delete_local_trx_info st3.local_trx trx_id, to_queue := tq' },
      ?_, hrel, hseq, ?_, wsdb_get_local_trx_seqno_deleted _ _⟩
    · unfold galera_committed
      simp only [hen3, ne_eq, not_true_eq_false, if_false, hrec, h0, if_true,
        hres, List.cons_append, List.nil_append]
    · intro hn
      show tq'.seqno = _
      rw [hseq, hk0 hn]

/-! ## The gate of galera_init -/

theorem galera_init_to_queue_eq : galera_init_to_queue = some to_queue_init := by
  unfold galera_init_to_queue gcs_to_create
  rw [if_neg (by decide)]
  have h : create_qlen 64 1 16384 = 16384 := by decide
  simp only [h]
  rfl

theorem w_state_to_queue_init (j : Nat) :
    w_state to_queue_init j = waiter_state_t.RELEASED := by
  unfold w_state waiter_at to_queue_init
  rw [List.getD_eq_getElem?_getD, List.getElem?_replicate]
  split <;> rfl

theorem to_wf_to_queue_init : to_wf to_queue_init :=
  ⟨⟨14, by decide, rfl⟩, rfl, List.length_replicate _ _, by decide⟩

theorem to_queue_grab_head (wake : galera_state → galera_state) (st : galera_state)
    (s : Nat) (hs : st.to_queue.seqno = s)
    (hst : w_state st.to_queue (to_get_waiter st.to_queue s) = waiter_state_t.RELEASED) :
    to_queue_grab wake st s = some (0, { st with
      to_queue := set_state st.to_queue (to_get_waiter st.to_queue s) waiter_state_t.HOLDER }) := by
  subst hs
  unfold to_queue_grab
  rw [gcs_to_grab_head _ hst]

/-- Witness of C10, scenario 1: on the gate created by galera_init the commit
of local transaction 1 at local seqno 1 grabs at once and returns
`GALERA_OK`, and galera_committed moves the gate to seqno 2. -/
theorem galera_commit_cert_pass_witness :
    galera_init_to_queue = some to_queue_init ∧
    (galera_commit galera_scn1 1 0 true (0, 1, 1) id id =
      galera_outcome.ret galera_status.GALERA_OK
        { galera_scn1_held with
          cert_index := (wsdb_append_write_set galera_scn1_held.cert_index 1 ws_ex1).2 }
        [galera_call.gcs_repl, galera_call.assign_trx 1 1 1,
         galera_call.to_grab 1, galera_call.append_write_set 1 ws_ex1] ∧
    slot_state galera_scn1_held.to_queue 1 = waiter_state_t.HOLDER ∧
    galera_scn1_held.to_queue.seqno = 1 ∧
    (galera_scn1_held.repl_state = galera_repl_state.GALERA_ENABLED →
      wsdb_get_local_trx_seqno galera_scn1_held.local_trx 1 = 1 → 0 < 1 →
      ∃ k st5, galera_committed
          { galera_scn1_held with
            cert_index := (wsdb_append_write_set galera_scn1_held.cert_index 1 ws_ex1).2 }
          1 =
          galera_outcome.ret galera_status.GALERA_OK st5
            [galera_call.set_local_trx_committed 1,
             galera_call.delete_local_trx_info 1, galera_call.to_release 1] ∧
        slot_state st5.to_queue 1 = waiter_state_t.RELEASED ∧
        st5.to_queue.seqno = (1 + k + 1) % SEQNO_RANGE ∧
        (slot_state galera_scn1_held.to_queue (1 + 1) ≠ waiter_state_t.CANCELED →
          st5.to_queue.seqno = (1 + 1) % SEQNO_RANGE) ∧
        wsdb_get_local_trx_seqno st5.local_trx 1 = 0)) ∧
    outcome_seqno (galera_committed
      { galera_scn1_held with
        cert_index := (wsdb_append_write_set galera_scn1_held.cert_index 1 ws_ex1).2 }
      1) = some 2 := by
  have hidx : to_get_waiter to_queue_init 1 = 1 := by decide
  have hgrab := to_queue_grab_head id
    { galera_scn1 with local_trx := wsdb_assign_trx galera_scn1.local_trx 1 1 1 } 1 rfl
    (w_state_to_queue_init _)
  have hwf : to_wf galera_scn1_held.to_queue :=
    to_wf_set_state to_queue_init 1 waiter_state_t.HOLDER to_wf_to_queue_init
  have hmain := galera_commit_cert_pass galera_scn1 galera_scn1_held 1 0 (0, 1, 1) id id
    ws_ex1 (by decide) (by decide) (by decide) (by decide) (by decide)
    (by rw [← hidx]; exact hgrab) (fun _ _ => rfl) hwf (by decide)
  refine ⟨galera_init_to_queue_eq, hmain, ?_⟩
  have hnext : slot_state galera_scn1_held.to_queue (1 + 1) ≠ waiter_state_t.CANCELED := by
    have h2 : to_get_waiter galera_scn1_held.to_queue (1 + 1) = 2 := by decide
    have : slot_state galera_scn1_held.to_queue (1 + 1) = waiter_state_t.RELEASED := by
      unfold slot_state
      rw [h2]
      show w_state (set_state to_queue_init 1 waiter_state_t.HOLDER) 2 = _
      rw [w_state_set_state_ne _ _ _ _ (by decide), w_state_to_queue_init]
    rw [this]
    decide
  obtain ⟨k, st5, h1, _, _, h4, _⟩ := hmain.2.2.2 rfl (by decide) (by decide)
  rw [h1]
  show some st5.to_queue.seqno = some 2
  rw [h4 hnext]
  decide

/-! ## galera.c : aborted and cancelled commits -/

theorem wsdb_get_local_trx_seqno_assign (tbl : List local_trx_rec)
    (trx_id seqno_l seqno_g : Nat) :
    wsdb_get_local_trx_seqno (wsdb_assign_trx tbl trx_id seqno_l seqno_g) trx_id = seqno_l := by
  simp [wsdb_get_local_trx_seqno, wsdb_assign_trx]

/-- The calls of galera_commit when the transaction is found aborted after
`gcs_repl` has returned. -/
theorem galera_commit_aborted (st : galera_state) (trx_id conn_id : Nat)
    (repl : Int × Nat × Nat) (during_repl wake : galera_state → galera_state)
    (ws : wsdb_write_set)
    (hen : st.repl_state = galera_repl_state.GALERA_ENABLED)
    (hna : wsdb_get_local_trx_seqno st.local_trx trx_id ≠ GALERA_ABORT_SEQNO)
    (hws : wsdb_get_write_set st.local_ws trx_id conn_id = some ws)
    (hrepl : 0 ≤ repl.1)
    (hab : wsdb_get_local_trx_seqno (during_repl st).local_trx trx_id = GALERA_ABORT_SEQNO) :
    galera_commit st trx_id conn_id true repl during_repl wake =
      match gcs_to_self_cancel (during_repl st).to_queue repl.2.2 with
      | to_result.ret _ tq' _ =>
        galera_outcome.ret galera_status.GALERA_TRX_FAIL
          { (during_repl st) with
            local_trx := wsdb_assign_trx (during_repl st).local_trx trx_id repl.2.2 repl.2.1
            to_queue := tq' }
          [galera_call.gcs_repl, galera_call.assign_trx trx_id repl.2.2 repl.2.1,
           galera_call.to_self_cancel repl.2.2]
      | _ => galera_outcome.abort
          [galera_call.gcs_repl, galera_call.assign_trx trx_id repl.2.2 repl.2.1,
           galera_call.to_self_cancel repl.2.2] := by
  have hr : ¬ repl.1 < 0 := by omega
  unfold galera_commit
  simp only [hen, ne_eq, not_true_eq_false, if_false, hna, hws, Bool.not_true,
    Bool.false_eq_true, hr, hab, if_true]

/-- After a self-cancel of `s` ahead of the head, a release at the head whose
sweep reaches `s` passes it. -/
theorem gcs_to_self_cancel_passes (tq : gcs_to) (hwf : to_wf tq) (s : Nat)
    (hs : tq.seqno ≤ s) (hring : s - tq.seqno < tq.qlen)
    (hcan : ∀ x, tq.seqno < x → x < s → slot_state tq x = waiter_state_t.CANCELED) :
    ∃ k tq2 sig,
      gcs_to_release (set_state tq (to_get_waiter tq s) waiter_state_t.CANCELED) tq.seqno =
        to_result.ret 0 tq2 sig ∧
      s - tq.seqno ≤ k ∧ tq2.seqno = (tq.seqno + k + 1) % SEQNO_RANGE ∧
      (tq.seqno + k + 1 < SEQNO_RANGE → s < tq2.seqno) ∧
      slot_state tq2 s = waiter_state_t.RELEASED := by
  obtain ⟨h1, h2, h3⟩ := set_state_slot tq hwf s waiter_state_t.CANCELED
  have hwf' := to_wf_set_state tq (to_get_waiter tq s) waiter_state_t.CANCELED hwf
  have := gcs_to_release_passes _ hwf' s (by rw [h2]; exact hs)
    (by rw [h2]; exact hring)
    (by
      intro x hx1 hx2
      rw [h2] at hx1
      rcases Nat.lt_or_eq_of_le hx2 with hlt | heq
      · have hc := hcan x hx1 hlt
        have hne : to_get_waiter tq x ≠ to_get_waiter tq s := by
          rw [to_get_waiter_eq_mod tq hwf, to_get_waiter_eq_mod tq hwf]
          intro he
          have e1 : x = tq.seqno + (x - tq.seqno) := by omega
          have e2 : s = tq.seqno + (s - tq.seqno) := by omega
          rw [e1, e2] at he
          have := ring_index_inj tq.qlen tq.seqno _ _ (by omega) (by omega) he
          omega
        show (waiter_at _ (to_get_waiter (set_state tq _ _) x)).state = _
        have hgw : to_get_waiter (set_state tq (to_get_waiter tq s)
            waiter_state_t.CANCELED) x = to_get_waiter tq x := rfl
        rw [hgw, h3 _ hne]
        exact hc
      · rw [heq]; exact h1)
  rw [h2] at this
  exact this

/-- C11 (abort before replicate). When the record of the transaction carries
the ABORTED marker once `gcs_repl` has returned `(seqno_g, seqno_l)`, with
`seqno_l` not behind the gate, galera_commit records `(seqno_l, seqno_g)`,
calls gcs_to_self_cancel on `seqno_l`, calls neither gcs_to_grab nor the
certification, and returns `GALERA_TRX_FAIL` with slot `seqno_l` CANCELED; a
later release at the head whose sweep reaches `seqno_l` passes it and leaves
it RELEASED, with no holder. -/
theorem galera_commit_abort_race (st : galera_state) (trx_id conn_id : Nat)
    (repl : Int × Nat × Nat) (during_repl wake : galera_state → galera_state)
    (ws : wsdb_write_set)
    (hen : st.repl_state = galera_repl_state.GALERA_ENABLED)
    (hna : wsdb_get_local_trx_seqno st.local_trx trx_id ≠ GALERA_ABORT_SEQNO)
    (hws : wsdb_get_write_set st.local_ws trx_id conn_id = some ws)
    (hrepl : 0 ≤ repl.1)
    (hab : wsdb_get_local_trx_seqno (during_repl st).local_trx trx_id = GALERA_ABORT_SEQNO)
    (hwf : to_wf (during_repl st).to_queue)
    (hsl : (during_repl st).to_queue.seqno ≤ repl.2.2) :
    ∃ st', galera_commit st trx_id conn_id true repl during_repl wake =
        galera_outcome.ret galera_status.GALERA_TRX_FAIL st'
          [galera_call.gcs_repl, galera_call.assign_trx trx_id repl.2.2 repl.2.1,
           galera_call.to_self_cancel repl.2.2] ∧
      wsdb_get_local_trx_seqno st'.local_trx trx_id = repl.2.2 ∧
      st'.local_trx =
        wsdb_assign_trx (during_repl st).local_trx trx_id repl.2.2 repl.2.1 ∧
      slot_state st'.to_queue repl.2.2 = waiter_state_t.CANCELED ∧
      st'.to_queue.seqno = (during_repl st).to_queue.seqno ∧
      st'.cert_index = (during_repl st).cert_index ∧
      (repl.2.2 - (during_repl st).to_queue.seqno < (during_repl st).to_queue.qlen →
        (∀ x, (during_repl st).to_queue.seqno < x → x < repl.2.2 →
          slot_state (during_repl st).to_queue x = waiter_state_t.CANCELED) →
        ∃ k tq2 sig, gcs_to_release st'.to_queue st'.to_queue.seqno =
            to_result.ret 0 tq2 sig ∧
          repl.2.2 - (during_repl st).to_queue.seqno ≤ k ∧
          tq2.seqno = ((during_repl st).to_queue.seqno + k + 1) % SEQNO_RANGE ∧
          ((during_repl st).to_queue.seqno + k + 1 < SEQNO_RANGE → repl.2.2 < tq2.seqno) ∧
          slot_state tq2 repl.2.2 = waiter_state_t.RELEASED) := by
  have hsc : gcs_to_self_cancel (during_repl st).to_queue repl.2.2 =
      to_result.ret 0 (set_state (during_repl st).to_queue
        (to_get_waiter (during_repl st).to_queue repl.2.2) waiter_state_t.CANCELED) none := by
    simp only [gcs_to_self_cancel, if_neg (Nat.not_lt.mpr hsl)]
  obtain ⟨h1, h2, _⟩ := set_state_slot _ hwf repl.2.2 waiter_state_t.CANCELED
  refine ⟨{ (during_repl st) with
      local_trx := wsdb_assign_trx (during_repl st).local_trx trx_id repl.2.2 repl.2.1
      to_queue := set_state (during_repl st).to_queue
        (to_get_waiter (during_repl st).to_queue repl.2.2) waiter_state_t.CANCELED },
    ?_, ?_, rfl, h1, h2, rfl, ?_⟩
  · rw [galera_commit_aborted st trx_id conn_id repl during_repl wake ws hen hna hws hrepl hab,
      hsc]
  · exact wsdb_get_local_trx_seqno_assign _ _ _ _
  · intro hring hcan
    exact gcs_to_self_cancel_passes _ hwf _ hsl hring hcan

/-- Witness of C11, scenario 5: transaction 7 is marked aborted by
galera_cancel_commit while `gcs_repl` runs; `gcs_repl` returns local seqno 4
and global seqno 19 while the gate is held at seqno 3. -/
theorem galera_commit_abort_race_witness :
    ∃ st', galera_commit galera_scn5 7 0 true (0, 19, 4) (cancel_commit_by_other 7) id =
        galera_outcome.ret galera_status.GALERA_TRX_FAIL st'
          [galera_call.gcs_repl, galera_call.assign_trx 7 4 19,
           galera_call.to_self_cancel 4] ∧
      wsdb_get_local_trx_seqno st'.local_trx 7 = 4 ∧
      st'.local_trx =
        wsdb_assign_trx (cancel_commit_by_other 7 galera_scn5).local_trx 7 4 19 ∧
      slot_state st'.to_queue 4 = waiter_state_t.CANCELED ∧
      st'.to_queue.seqno = (cancel_commit_by_other 7 galera_scn5).to_queue.seqno ∧
      st'.cert_index = (cancel_commit_by_other 7 galera_scn5).cert_index ∧
      (4 - (cancel_commit_by_other 7 galera_scn5).to_queue.seqno <
          (cancel_commit_by_other 7 galera_scn5).to_queue.qlen →
        (∀ x, (cancel_commit_by_other 7 galera_scn5).to_queue.seqno < x → x < 4 →
          slot_state (cancel_commit_by_other 7 galera_scn5).to_queue x =
            waiter_state_t.CANCELED) →
        ∃ k tq2 sig, gcs_to_release st'.to_queue st'.to_queue.seqno =
            to_result.ret 0 tq2 sig ∧
          4 - (cancel_commit_by_other 7 galera_scn5).to_queue.seqno ≤ k ∧
          tq2.seqno =
            ((cancel_commit_by_other 7 galera_scn5).to_queue.seqno + k + 1) % SEQNO_RANGE ∧
          ((cancel_commit_by_other 7 galera_scn5).to_queue.seqno + k + 1 < SEQNO_RANGE →
            4 < tq2.seqno) ∧
          slot_state tq2 4 = waiter_state_t.RELEASED) :=
  galera_commit_abort_race galera_scn5 7 0 (0, 19, 4) (cancel_commit_by_other 7) id ws_ex
    (by decide) (by decide) (by decide) (by decide) (by decide)
    ⟨⟨3, by decide, rfl⟩, rfl, rfl, by decide⟩ (by decide)

/-- What a grab through the gate that returned leaves of the engine: with a
return at once the fields other than the gate are those of the caller and the
current seqno is unchanged; after a wait they are those the other threads
left, and the resumed call has not changed the current seqno. -/
theorem to_queue_grab_frame (wake : galera_state → galera_state) (st st3 : galera_state)
    (s : Nat) (rc : Int) (h : to_queue_grab wake st s = some (rc, st3)) :
    (∃ tq' sg, gcs_to_grab st.to_queue s = to_result.ret rc tq' sg ∧
      st3 = { st with to_queue := tq' } ∧ tq'.seqno = st.to_queue.seqno) ∨
    (∃ tq' tq2 sg, gcs_to_grab st.to_queue s = to_result.wait tq' ∧
      gcs_to_grab_wakeup (wake { st with to_queue := tq' }).to_queue s =
        to_result.ret rc tq2 sg ∧
      st3 = { (wake { st with to_queue := tq' }) with to_queue := tq2 } ∧
      tq2.seqno = (wake { st with to_queue := tq' }).to_queue.seqno) := by
  unfold to_queue_grab at h
  cases hg : gcs_to_grab st.to_queue s with
  | ret err tq' sg =>
    simp only [hg] at h
    injection h with h
    injection h with h1 h2
    subst h1
    exact Or.inl ⟨tq', sg, rfl, h2.symm, (gcs_to_grab_ret_effect _ _ _ _ _ hg).1.1⟩
  | wait tq' =>
    simp only [hg] at h
    cases hw : gcs_to_grab_wakeup (wake { st with to_queue := tq' }).to_queue s with
    | ret err tq2 sg =>
      simp only [hw] at h
      injection h with h
      injection h with h1 h2
      subst h1
      exact Or.inr ⟨tq', tq2, sg, rfl, hw, h2.symm,
        (gcs_to_grab_wakeup_effect _ _ _ _ _ hw).1.1⟩
    | wait _ => simp only [hw] at h; cases h
    | abort => simp only [hw] at h; cases h
    | diverge => simp only [hw] at h; cases h
  | abort => simp only [hg] at h; cases h
  | diverge => simp only [hg] at h; cases h

/-- C12 (cancel safety). When the gate grab of a local commit returns
`-ECANCELED`, galera_commit returns `GALERA_TRX_FAIL` having called only
`gcs_repl`, the recording of the seqnos and the grab: the certification is not
called and no handler of the application is invoked. The call leaves the
certification index and the current seqno as they were at the grab, or, when
the grab had to wait, as the other threads left them when it resumed. -/
theorem galera_commit_grab_canceled (st st3 : galera_state) (trx_id conn_id : Nat)
    (repl : Int × Nat × Nat) (during_repl wake : galera_state → galera_state)
    (ws : wsdb_write_set)
    (hen : st.repl_state = galera_repl_state.GALERA_ENABLED)
    (hna : wsdb_get_local_trx_seqno st.local_trx trx_id ≠ GALERA_ABORT_SEQNO)
    (hws : wsdb_get_write_set st.local_ws trx_id conn_id = some ws)
    (hrepl : 0 ≤ repl.1)
    (hna2 : wsdb_get_local_trx_seqno (during_repl st).local_trx trx_id ≠ GALERA_ABORT_SEQNO)
    (hgrab : to_queue_grab wake
      { (during_repl st) with
        local_trx := wsdb_assign_trx (during_repl st).local_trx trx_id repl.2.2 repl.2.1 }
      repl.2.2 = some (-ECANCELED, st3)) :
    galera_commit st trx_id conn_id true repl during_repl wake =
      galera_outcome.ret galera_status.GALERA_TRX_FAIL st3
        [galera_call.gcs_repl, galera_call.assign_trx trx_id repl.2.2 repl.2.1,
         galera_call.to_grab repl.2.2] ∧
    ((st3.cert_index = (during_repl st).cert_index ∧
      st3.to_queue.seqno = (during_repl st).to_queue.seqno) ∨
     (∃ tq', gcs_to_grab (during_repl st).to_queue repl.2.2 = to_result.wait tq' ∧
      st3.cert_index = (wake { (during_repl st) with
        local_trx := wsdb_assign_trx (during_repl st).local_trx trx_id repl.2.2 repl.2.1
        to_queue := tq' }).cert_index ∧
      st3.to_queue.seqno = (wake { (during_repl st) with
        local_trx := wsdb_assign_trx (during_repl st).local_trx trx_id repl.2.2 repl.2.1
        to_queue := tq' }).to_queue.seqno)) := by
  constructor
  · rw [galera_commit_grab st trx_id conn_id repl during_repl wake ws hen hna hws hrepl hna2,
      hgrab]
    have hne : (-ECANCELED : Int) ≠ 0 := by decide
    simp only [ne_eq, hne, not_false_eq_true, if_true]
  · rcases to_queue_grab_frame _ _ _ _ _ hgrab with ⟨tq', sg, _, h2, h3⟩ | ⟨tq', tq2, sg, h1, _, h3, h4⟩
    · left
      rw [h2]
      exact ⟨rfl, h3⟩
    · right
      refine ⟨tq', h1, ?_, ?_⟩
      · rw [h3]
      · rw [h3]; exact h4

/-- Witness of C12, scenario 3: transaction 9 waits in the gate for local
seqno 5 behind the holder of seqno 4, and galera_cancel_commit cancels it. -/
theorem galera_commit_grab_canceled_witness :
    galera_commit galera_scn3 9 0 true (0, 20, 5) id (cancel_commit_by_other 9) =
      galera_outcome.ret galera_status.GALERA_TRX_FAIL galera_scn3_out
        [galera_call.gcs_repl, galera_call.assign_trx 9 5 20, galera_call.to_grab 5] ∧
    ((galera_scn3_out.cert_index = (id galera_scn3).cert_index ∧
      galera_scn3_out.to_queue.seqno = (id galera_scn3).to_queue.seqno) ∨
     (∃ tq', gcs_to_grab (id galera_scn3).to_queue 5 = to_result.wait tq' ∧
      galera_scn3_out.cert_index = (cancel_commit_by_other 9 { (id galera_scn3) with
        local_trx := wsdb_assign_trx (id galera_scn3).local_trx 9 5 20
        to_queue := tq' }).cert_index ∧
      galera_scn3_out.to_queue.seqno = (cancel_commit_by_other 9 { (id galera_scn3) with
        local_trx := wsdb_assign_trx (id galera_scn3).local_trx 9 5 20
        to_queue := tq' }).to_queue.seqno)) :=
  galera_commit_grab_canceled galera_scn3 galera_scn3_out 9 0 (0, 20, 5) id
    (cancel_commit_by_other 9) ws_ex
    (by decide) (by decide) (by decide) (by decide) (by decide) (by decide)

/-- C13 (pre-check). When the seqno recorded for the transaction at the entry
of galera_commit is the sentinel `GALERA_ABORT_SEQNO`, galera_commit drops the
write set of the transaction and returns `GALERA_TRX_FAIL`; its only call is
the deletion: neither `gcs_repl` nor any gate function is called, and the gate
is unchanged. -/
theorem galera_commit_precheck (st : galera_state) (trx_id conn_id : Nat) (xdr_ok : Bool)
    (repl : Int × Nat × Nat) (during_repl wake : galera_state → galera_state)
    (hen : st.repl_state = galera_repl_state.GALERA_ENABLED)
    (hab : wsdb_get_local_trx_seqno st.local_trx trx_id = GALERA_ABORT_SEQNO) :
    galera_commit st trx_id conn_id xdr_ok repl during_repl wake =
      galera_outcome.ret galera_status.GALERA_TRX_FAIL
        { st with local_ws := wsdb_delete_local_trx st.local_ws trx_id }
        [galera_call.delete_local_trx trx_id] ∧
    wsdb_get_write_set (wsdb_delete_local_trx st.local_ws trx_id) trx_id conn_id = none ∧
    GALERA_ABORT_SEQNO = 2 ^ 64 - 1 := by
  refine ⟨?_, ?_, by decide⟩
  · unfold galera_commit
    simp only [hen, ne_eq, not_true_eq_false, if_false, hab, if_true]
  · unfold wsdb_get_write_set wsdb_delete_local_trx
    have h : (List.filter (fun p => !decide (p.1 = trx_id)) st.local_ws).find?
        (fun p => decide (p.1 = trx_id)) = none := by
      rw [List.find?_eq_none]
      intro x hx
      have := (List.mem_filter.mp hx).2
      simpa using this
    rw [h]

/-- Witness of C13: transaction 7 was marked aborted before its commit. -/
theorem galera_commit_precheck_witness :
    galera_commit galera_ex3 7 0 true (0, 19, 4) id id =
      galera_outcome.ret galera_status.GALERA_TRX_FAIL
        { galera_ex3 with local_ws := wsdb_delete_local_trx galera_ex3.local_ws 7 }
        [galera_call.delete_local_trx 7] ∧
    wsdb_get_write_set (wsdb_delete_local_trx galera_ex3.local_ws 7) 7 0 = none ∧
    GALERA_ABORT_SEQNO = 2 ^ 64 - 1 :=
  galera_commit_precheck galera_ex3 7 0 true (0, 19, 4) id id (by decide) (by decide)

/-- C14, counterexample. Before galera_enable the commit of a transaction
that has a write set returns `GALERA_OK`, not `GALERA_NODE_FAIL`, and nothing
is replicated. -/
theorem galera_commit_not_enabled_counterexample :
    galera_ex4.repl_state ≠ galera_repl_state.GALERA_ENABLED ∧
    galera_commit galera_ex4 1 0 true (0, 1, 1) id id =
      galera_outcome.ret galera_status.GALERA_OK galera_ex4 [] := by
  decide

/-- C14, amended. While the replication state is not ENABLED, galera_commit
returns `GALERA_OK` at once: it makes no call (nothing is replicated, no gate
function is called) and leaves the engine as it was. -/
theorem galera_commit_not_enabled (st : galera_state) (trx_id conn_id : Nat) (xdr_ok : Bool)
    (repl : Int × Nat × Nat) (during_repl wake : galera_state → galera_state)
    (hen : st.repl_state ≠ galera_repl_state.GALERA_ENABLED) :
    galera_commit st trx_id conn_id xdr_ok repl during_repl wake =
      galera_outcome.ret galera_status.GALERA_OK st [] := by
  unfold galera_commit
  simp only [ne_eq, hen, not_false_eq_true, if_true]

/-- Witness of the amended C14. -/
theorem galera_commit_not_enabled_witness :
    galera_commit galera_ex4 1 0 true (0, 1, 1) id id =
      galera_outcome.ret galera_status.GALERA_OK galera_ex4 [] :=
  galera_commit_not_enabled galera_ex4 1 0 true (0, 1, 1) id id (by decide)

/-- C15 (cancel_commit). With the engine enabled, galera_cancel_commit looks
up the local seqno of the victim. When it is not 0 the only call is
gcs_to_cancel on that seqno, and the status is `GALERA_OK` when the cancel
returns 0 and `GALERA_WARNING` when it returns an error; a seqno ahead of the
gate is cancelled and the status is `GALERA_OK`. When the seqno is 0 no gate
function is called, the sentinel `GALERA_ABORT_SEQNO` is recorded as both
seqnos of the victim and the status is `GALERA_WARNING`. -/
theorem galera_cancel_commit_spec (st : galera_state) (victim_trx : Nat)
    (hen : st.repl_state = galera_repl_state.GALERA_ENABLED) :
    (wsdb_get_local_trx_seqno st.local_trx victim_trx ≠ 0 →
      outcome_calls (galera_cancel_commit st victim_trx) =
        [galera_call.to_cancel (wsdb_get_local_trx_seqno st.local_trx victim_trx)] ∧
      (∀ rcode tq' sg,
        gcs_to_cancel st.to_queue (wsdb_get_local_trx_seqno st.local_trx victim_trx) =
          to_result.ret rcode tq' sg →
        galera_cancel_commit st victim_trx =
          galera_outcome.ret
            (if rcode = 0 then galera_status.GALERA_OK else galera_status.GALERA_WARNING)
            { st with to_queue := tq' }
            [galera_call.to_cancel (wsdb_get_local_trx_seqno st.local_trx victim_trx)]) ∧
      (st.to_queue.seqno < wsdb_get_local_trx_seqno st.local_trx victim_trx →
        galera_cancel_commit st victim_trx =
          galera_outcome.ret galera_status.GALERA_OK
            { st with
              to_queue := set_state st.to_queue
                (to_get_waiter st.to_queue
                  (wsdb_get_local_trx_seqno st.local_trx victim_trx))
                waiter_state_t.CANCELED }
            [galera_call.to_cancel (wsdb_get_local_trx_seqno st.local_trx victim_trx)])) ∧
    (wsdb_get_local_trx_seqno st.local_trx victim_trx = 0 →
      galera_cancel_commit st victim_trx =
        galera_outcome.ret galera_status.GALERA_WARNING
          { st with
            local_trx :=
              wsdb_assign_trx st.local_trx victim_trx GALERA_ABORT_SEQNO GALERA_ABORT_SEQNO }
          [galera_call.assign_trx victim_trx GALERA_ABORT_SEQNO GALERA_ABORT_SEQNO]) := by
  constructor
  · intro hv
    refine ⟨?_, ?_, ?_⟩
    · unfold galera_cancel_commit
      simp only [hen, ne_eq, not_true_eq_false, if_false, hv, not_false_eq_true, if_true]
      cases hc : gcs_to_cancel st.to_queue (wsdb_get_local_trx_seqno st.local_trx victim_trx) with
      | ret rcode tq' sg =>
        simp only
        by_cases h0 : rcode = 0
        · simp only [h0, not_true_eq_false, if_false, outcome_calls]
        · simp only [h0, not_false_eq_true, if_true, outcome_calls]
      | wait _ => rfl
      | abort => rfl
      | diverge => rfl
    · intro rcode tq' sg hc
      unfold galera_cancel_commit
      simp only [hen, ne_eq, not_true_eq_false, if_false, hv, not_false_eq_true, if_true, hc]
      by_cases h0 : rcode = 0
      · simp only [h0, not_true_eq_false, if_false, if_true]
      · simp only [h0, not_false_eq_true, if_true, if_false]
    · intro hlt
      unfold galera_cancel_commit
      simp only [hen, ne_eq, not_true_eq_false, if_false, hv, not_false_eq_true, if_true,
        gcs_to_cancel, hlt]
  · intro hv
    unfold galera_cancel_commit
    simp only [hen, ne_eq, not_true_eq_false, if_false, hv]

/-! ## galera.c : the gate calls over the life of a local transaction -/

/-- Witness of C15: the victim waits for local seqno 5 behind seqno 4. -/
theorem galera_cancel_commit_spec_witness :
    galera_cancel_commit galera_scn3_assigned 9 =
      galera_outcome.ret galera_status.GALERA_OK
        { galera_scn3_assigned with
          to_queue := set_state galera_scn3_assigned.to_queue
            (to_get_waiter galera_scn3_assigned.to_queue
              (wsdb_get_local_trx_seqno galera_scn3_assigned.local_trx 9))
            waiter_state_t.CANCELED }
        [galera_call.to_cancel (wsdb_get_local_trx_seqno galera_scn3_assigned.local_trx 9)] :=
  ((galera_cancel_commit_spec galera_scn3_assigned 9 (by decide)).1 (by decide)).2.2
    (by decide)

/-- Function galera_rolledback on a transaction recorded at local seqno `s`:
its calls are the deletion of the record and one gcs_to_release on `s`. -/
theorem galera_rolledback_calls (st : galera_state) (trx_id s : Nat)
    (hen : st.repl_state = galera_repl_state.GALERA_ENABLED)
    (hrec : wsdb_get_local_trx_seqno st.local_trx trx_id = s)
    (h0 : 0 < s) (hab : s < GALERA_ABORT_SEQNO)
    (rc : galera_status) (st' : galera_state) (calls : List galera_call)
    (h : galera_rolledback st trx_id = galera_outcome.ret rc st' calls) :
    calls = [galera_call.delete_local_trx_info trx_id, galera_call.to_release s] := by
  unfold galera_rolledback at h
  simp only [hen, ne_eq, not_true_eq_false, if_false, hrec, h0, hab, and_self, if_true] at h
  cases hr : gcs_to_release st.to_queue s with
  | ret e tq' sg =>
    simp only [hr] at h
    injection h with _ _ h3
    exact h3.symm
  | wait _ => simp only [hr] at h; cases h
  | abort => simp only [hr] at h; cases h
  | diverge => simp only [hr] at h; cases h

/-- Function galera_committed on a transaction recorded at local seqno `s`:
its calls are the registration of the commit, the deletion of the record and
one gcs_to_release on `s`. -/
theorem galera_committed_calls (st : galera_state) (trx_id s : Nat)
    (hen : st.repl_state = galera_repl_state.GALERA_ENABLED)
    (hrec : wsdb_get_local_trx_seqno st.local_trx trx_id = s)
    (h0 : 0 < s)
    (rc : galera_status) (st' : galera_state) (calls : List galera_call)
    (h : galera_committed st trx_id = galera_outcome.ret rc st' calls) :
    calls = [galera_call.set_local_trx_committed trx_id,
      galera_call.delete_local_trx_info trx_id, galera_call.to_release s] := by
  unfold galera_committed at h
  simp only [hen, ne_eq, not_true_eq_false, if_false, hrec, h0, if_true] at h
  cases hr : gcs_to_release st.to_queue s with
  | ret e tq' sg =>
    simp only [hr] at h
    by_cases he : e = 0
    · simp only [he, not_true_eq_false, if_false] at h
      injection h with _ _ h3
      exact h3.symm
    · simp only [he, not_false_eq_true, if_true] at h
      cases h
  | wait _ => simp only [hr] at h; cases h
  | abort => simp only [hr] at h; cases h
  | diverge => simp only [hr] at h; cases h

/-- The calls and the final state of a galera_commit that went through
`gcs_repl`: either the transaction was found aborted and the gate call is one
gcs_to_self_cancel, or the gate call is the grab; in both cases the seqnos of
the transaction are recorded on return. -/
theorem galera_commit_replicated (st : galera_state) (trx_id conn_id : Nat)
    (repl : Int × Nat × Nat) (during_repl wake : galera_state → galera_state)
    (ws : wsdb_write_set)
    (hen : st.repl_state = galera_repl_state.GALERA_ENABLED)
    (hna : wsdb_get_local_trx_seqno st.local_trx trx_id ≠ GALERA_ABORT_SEQNO)
    (hws : wsdb_get_write_set st.local_ws trx_id conn_id = some ws)
    (hrepl : 0 ≤ repl.1)
    (hdr : (during_repl st).repl_state = galera_repl_state.GALERA_ENABLED)
    (hwk1 : ∀ s, (wake s).repl_state = s.repl_state)
    (hwk2 : ∀ s, (wake s).local_trx = s.local_trx)
    (rc : galera_status) (st1 : galera_state) (calls : List galera_call)
    (h : galera_commit st trx_id conn_id true repl during_repl wake =
      galera_outcome.ret rc st1 calls) :
    st1.repl_state = galera_repl_state.GALERA_ENABLED ∧
    wsdb_get_local_trx_seqno st1.local_trx trx_id = repl.2.2 ∧
    ((wsdb_get_local_trx_seqno (during_repl st).local_trx trx_id = GALERA_ABORT_SEQNO ∧
      rc = galera_status.GALERA_TRX_FAIL ∧
      calls = [galera_call.gcs_repl, galera_call.assign_trx trx_id repl.2.2 repl.2.1,
        galera_call.to_self_cancel repl.2.2]) ∨
     (wsdb_get_local_trx_seqno (during_repl st).local_trx trx_id ≠ GALERA_ABORT_SEQNO ∧
      (calls = [galera_call.gcs_repl, galera_call.assign_trx trx_id repl.2.2 repl.2.1,
          galera_call.to_grab repl.2.2] ∨
       calls = [galera_call.gcs_repl, galera_call.assign_trx trx_id repl.2.2 repl.2.1,
          galera_call.to_grab repl.2.2, galera_call.append_write_set repl.2.1 ws]))) := by
  by_cases hab : wsdb_get_local_trx_seqno (during_repl st).local_trx trx_id = GALERA_ABORT_SEQNO
  · rw [galera_commit_aborted st trx_id conn_id repl during_repl wake ws hen hna hws hrepl hab] at h
    cases hsc : gcs_to_self_cancel (during_repl st).to_queue repl.2.2 with
    | ret e tq' sg =>
      simp only [hsc] at h
      injection h with h1 h2 h3
      subst h2
      exact ⟨hdr, wsdb_get_local_trx_seqno_assign _ _ _ _, Or.inl ⟨hab, h1.symm, h3.symm⟩⟩
    | wait _ => simp only [hsc] at h; cases h
    | abort => simp only [hsc] at h; cases h
    | diverge => simp only [hsc] at h; cases h
  · rw [galera_commit_grab st trx_id conn_id repl during_repl wake ws hen hna hws hrepl hab] at h
    cases hg : to_queue_grab wake
        { (during_repl st) with
          local_trx := wsdb_assign_trx (during_repl st).local_trx trx_id repl.2.2 repl.2.1 }
        repl.2.2 with
    | none => simp only [hg] at h; cases h
    | some p =>
      obtain ⟨rcode, st3⟩ := p
      simp only [hg] at h
      have hst3 : st3.repl_state = galera_repl_state.GALERA_ENABLED ∧
          wsdb_get_local_trx_seqno st3.local_trx trx_id = repl.2.2 := by
        rcases to_queue_grab_frame _ _ _ _ _ hg with ⟨tq', sg, _, h2, _⟩ | ⟨tq', tq2, sg, _, _, h3, _⟩
        · rw [h2]
          exact ⟨hdr, wsdb_get_local_trx_seqno_assign _ _ _ _⟩
        · rw [h3]
          refine ⟨?_, ?_⟩
          · show (wake _).repl_state = _
            rw [hwk1]; exact hdr
          · show wsdb_get_local_trx_seqno (wake _).local_trx trx_id = _
            rw [hwk2]; exact wsdb_get_local_trx_seqno_assign _ _ _ _
      by_cases hrc : rcode ≠ 0
      · rw [if_pos hrc] at h
        injection h with _ h2 h3
        subst h2
        exact ⟨hst3.1, hst3.2, Or.inr ⟨hab, Or.inl h3.symm⟩⟩
      · rw [if_neg hrc] at h
        split at h
        · injection h with _ h2 h3
          subst h2
          exact ⟨hst3.1, hst3.2, Or.inr ⟨hab, Or.inr h3.symm⟩⟩
        · split at h
          · injection h with _ h2 h3
            subst h2
            exact ⟨hst3.1, hst3.2, Or.inr ⟨hab, Or.inr h3.symm⟩⟩
          · injection h with _ h2 h3
            subst h2
            exact ⟨hst3.1, hst3.2, Or.inr ⟨hab, Or.inr h3.symm⟩⟩

/-- C16, counterexample. Scenario 5: transaction 7 is marked aborted while
`gcs_repl` runs and is replicated at local seqno 4. Over its life
galera_commit calls gcs_to_self_cancel on seqno 4 and galera_rolledback calls
gcs_to_release on seqno 4: two of release, cancel and self-cancel, not one. -/
theorem trx_life_counterexample :
    trx_life galera_scn5 7 0 (0, 19, 4) (cancel_commit_by_other 7) id =
      some [galera_call.gcs_repl, galera_call.assign_trx 7 4 19,
        galera_call.to_self_cancel 4, galera_call.delete_local_trx_info 7,
        galera_call.to_release 4] ∧
    release_count 4 [galera_call.gcs_repl, galera_call.assign_trx 7 4 19,
        galera_call.to_self_cancel 4, galera_call.delete_local_trx_info 7,
        galera_call.to_release 4] +
      cancel_count 4 [galera_call.gcs_repl, galera_call.assign_trx 7 4 19,
        galera_call.to_self_cancel 4, galera_call.delete_local_trx_info 7,
        galera_call.to_release 4] = 2 := by
  decide

/-- C16, amended. Over the life of a local transaction replicated at local
seqno `seqno_l` (galera_commit, then galera_committed after `GALERA_OK` and
galera_rolledback otherwise, the other threads leaving the replication state
and the transaction table alone while the commit waits in the gate), exactly
one gcs_to_release is called on `seqno_l`; it comes after one
gcs_to_self_cancel on `seqno_l` when the transaction was found aborted after
`gcs_repl`, and after no cancel of the transaction's own otherwise. (The
gcs_to_cancel of a galera_cancel_commit that runs once the seqno is assigned
comes on top of these.) -/
theorem trx_life_releases_once (st : galera_state) (trx_id conn_id : Nat)
    (repl : Int × Nat × Nat) (during_repl wake : galera_state → galera_state)
    (ws : wsdb_write_set)
    (hen : st.repl_state = galera_repl_state.GALERA_ENABLED)
    (hna : wsdb_get_local_trx_seqno st.local_trx trx_id ≠ GALERA_ABORT_SEQNO)
    (hws : wsdb_get_write_set st.local_ws trx_id conn_id = some ws)
    (hrepl : 0 ≤ repl.1) (h0 : 0 < repl.2.2) (hlt : repl.2.2 < GALERA_ABORT_SEQNO)
    (hdr : (during_repl st).repl_state = galera_repl_state.GALERA_ENABLED)
    (hwk1 : ∀ s, (wake s).repl_state = s.repl_state)
    (hwk2 : ∀ s, (wake s).local_trx = s.local_trx)
    (calls : List galera_call)
    (hlife : trx_life st trx_id conn_id repl during_repl wake = some calls) :
    release_count repl.2.2 calls = 1 ∧
    cancel_count repl.2.2 calls =
      (if wsdb_get_local_trx_seqno (during_repl st).local_trx trx_id = GALERA_ABORT_SEQNO
       then 1 else 0) := by
  unfold trx_life at hlife
  cases hc : galera_commit st trx_id conn_id true repl during_repl wake with
  | abort _ => simp only [hc] at hlife; cases hlife
  | diverge => simp only [hc] at hlife; cases hlife
  | ret rc st1 calls1 =>
    simp only [hc] at hlife
    obtain ⟨hen1, hrec, hshape⟩ := galera_commit_replicated st trx_id conn_id repl during_repl
      wake ws hen hna hws hrepl hdr hwk1 hwk2 rc st1 calls1 hc
    have hfinal : ∃ calls2, calls = calls1 ++ calls2 ∧
        (calls2 = [galera_call.delete_local_trx_info trx_id, galera_call.to_release repl.2.2] ∨
         calls2 = [galera_call.set_local_trx_committed trx_id,
           galera_call.delete_local_trx_info trx_id, galera_call.to_release repl.2.2]) := by
      by_cases hok : rc = galera_status.GALERA_OK
      · rw [if_pos hok] at hlife
        cases hf : galera_committed st1 trx_id with
        | abort _ => simp only [hf] at hlife; cases hlife
        | diverge => simp only [hf] at hlife; cases hlife
        | ret rc2 st2 calls2 =>
          simp only [hf] at hlife
          injection hlife with hl
          exact ⟨calls2, hl.symm,
            Or.inr (galera_committed_calls st1 trx_id _ hen1 hrec h0 rc2 st2 calls2 hf)⟩
      · rw [if_neg hok] at hlife
        cases hf : galera_rolledback st1 trx_id with
        | abort _ => simp only [hf] at hlife; cases hlife
        | diverge => simp only [hf] at hlife; cases hlife
        | ret rc2 st2 calls2 =>
          simp only [hf] at hlife
          injection hlife with hl
          exact ⟨calls2, hl.symm,
            Or.inl (galera_rolledback_calls st1 trx_id _ hen1 hrec h0 hlt rc2 st2 calls2 hf)⟩
    obtain ⟨calls2, hcalls, hc2⟩ := hfinal
    subst hcalls
    rcases hshape with ⟨hab, _, hc1⟩ | ⟨hab, hc1 | hc1⟩ <;> rcases hc2 with hc2 | hc2 <;>
      subst hc1 <;> subst hc2 <;>
      simp [release_count, cancel_count, is_release, is_cancel, List.countP_cons, hab]

/-- Witness of C16: local transaction 1 commits at local seqno 1 on a fresh
gate; its life holds one gcs_to_release on seqno 1 and no cancel. -/
theorem trx_life_releases_once_witness :
    release_count 1 [galera_call.gcs_repl, galera_call.assign_trx 1 1 1,
        galera_call.to_grab 1, galera_call.append_write_set 1 ws_ex,
        galera_call.set_local_trx_committed 1, galera_call.delete_local_trx_info 1,
        galera_call.to_release 1] = 1 ∧
    cancel_count 1 [galera_call.gcs_repl, galera_call.assign_trx 1 1 1,
        galera_call.to_grab 1, galera_call.append_write_set 1 ws_ex,
        galera_call.set_local_trx_committed 1, galera_call.delete_local_trx_info 1,
        galera_call.to_release 1] =
      (if wsdb_get_local_trx_seqno (id galera_ex1).local_trx 1 = GALERA_ABORT_SEQNO
       then 1 else 0) :=
  trx_life_releases_once galera_ex1 1 0 (0, 1, 1) id id ws_ex (by decide) (by decide)
    (by decide) (by decide) (by decide) (by decide) (by decide) (fun _ => rfl)
    (fun _ => rfl) _ (by decide)

/-- The release that ends the processing of an action whose slot is at the
head of the gate returns and moves the gate past the slot. -/
theorem to_queue_release_head (st : galera_state) (sl : Nat) (calls : List galera_call)
    (hwf : to_wf st.to_queue) (hs : st.to_queue.seqno = sl) :
    ∃ k tq', k < st.to_queue.qlen ∧
      to_queue_release st sl calls =
        galera_outcome.ret galera_status.GALERA_OK { st with to_queue := tq' }
          (calls ++ [galera_call.to_release sl]) ∧
      tq'.seqno = (sl + k + 1) % SEQNO_RANGE ∧
      slot_state tq' sl = waiter_state_t.RELEASED ∧ to_wf tq' ∧
      (slot_state st.to_queue (sl + 1) ≠ waiter_state_t.CANCELED → k = 0) := by
  subst hs
  obtain ⟨k, tq', sig, hk, hres, hseq, hrel, hwf', hk0⟩ :=
    gcs_to_release_head_slot st.to_queue hwf
  refine ⟨k, tq', hk, ?_, hseq, hrel, hwf', hk0⟩
  unfold to_queue_release
  rw [hres]

/-- A grab that returned 0 left the caller holder of its slot, at the head of
the gate when the gate was there at its return. -/
theorem to_queue_grab_seqno (wake : galera_state → galera_state) (st st1 : galera_state)
    (s : Nat) (h : to_queue_grab wake st s = some (0, st1)) (hwf : to_wf st1.to_queue)
    (hhead : ∀ tq', gcs_to_grab st.to_queue s = to_result.wait tq' →
      st1.to_queue.seqno = s) :
    st1.to_queue.seqno = s ∧ slot_state st1.to_queue s = waiter_state_t.HOLDER := by
  obtain ⟨hh, hcase⟩ := to_queue_grab_ok wake st st1 s h hwf
  refine ⟨?_, hh⟩
  rcases hcase with ⟨_, hst, hseq⟩ | ⟨tq', hw, _⟩
  · rw [hst]; exact hseq
  · exact hhead tq' hw

/-- Function apply_write_set fails on every write set of level
WSDB_WS_DATA_COLS. -/
theorem apply_write_set_cols (h : galera_handlers) (calls : List galera_call)
    (ws : wsdb_write_set) (hl : ws.level = wsdb_ws_level.WSDB_WS_DATA_COLS) :
    (apply_write_set h calls ws).1 ≠ galera_status.GALERA_OK := by
  unfold apply_write_set
  simp only [hl]
  split <;> simp

/-- The loop that applies a write set of level WSDB_WS_DATA_COLS does not end,
whatever the fuel. -/
theorem apply_retry_cols (h : galera_handlers) (ws : wsdb_write_set)
    (hl : ws.level = wsdb_ws_level.WSDB_WS_DATA_COLS) :
    ∀ (fuel : Nat) (calls : List galera_call), apply_retry h ws fuel calls = none := by
  intro fuel
  induction fuel with
  | zero => intro calls; rfl
  | succ n ih =>
    intro calls
    unfold apply_retry
    simp only [if_pos (apply_write_set_cols h calls ws hl)]
    exact ih _

/-- The retry block of process_query_write_set does not end on a write set of
level WSDB_WS_DATA_COLS. -/
theorem apply_commit_retry_cols (h : galera_handlers) (ws : wsdb_write_set) (sl : Nat)
    (hl : ws.level = wsdb_ws_level.WSDB_WS_DATA_COLS) (fuel : Nat)
    (calls : List galera_call) : apply_commit_retry h ws sl fuel calls = none := by
  cases fuel with
  | zero => rfl
  | succ n =>
    unfold apply_commit_retry
    rw [apply_retry_cols h ws hl]

/-- A certified write set of level WSDB_WS_DATA_COLS keeps
process_query_write_set in its apply loop for ever. -/
theorem process_query_write_set_cols (fuel : Nat) (h : galera_handlers)
    (wake : galera_state → galera_state) (st st1 : galera_state)
    (calls : List galera_call) (ws : wsdb_write_set) (sg sl : Nat)
    (hl : ws.level = wsdb_ws_level.WSDB_WS_DATA_COLS)
    (hgrab : to_queue_grab wake st sl = some (0, st1))
    (hcert : (wsdb_append_write_set st1.cert_index sg ws).1 = WSDB_OK) :
    process_query_write_set fuel h wake st calls ws sg sl = galera_outcome.diverge := by
  unfold process_query_write_set
  simp only [hgrab]
  simp [hcert, apply_commit_retry_cols h ws sl hl]

/-- C17, the code at the failing input. The write set `ws_cols` is a
transaction write set of level WSDB_WS_DATA_COLS; on a fresh gate at seqno 1 the
grab of slot 1 returns 0 and the certification passes, the handlers of the
application always return 0, and yet process_query_write_set never leaves its
apply loop, whatever the fuel: slot 1 is not released. On the same write set
process_conn_write_set logs the failure and releases the slot. -/
theorem process_query_write_set_cols_diverges :
    ws_cols.type = wsdb_ws_type.WSDB_WS_TYPE_TRX ∧
    to_queue_grab id galera_ex1 1 =
      some (0, { galera_ex1 with to_queue := set_state gate_ex2 1 waiter_state_t.HOLDER }) ∧
    (wsdb_append_write_set galera_ex1.cert_index 1 ws_cols).1 = WSDB_OK ∧
    (∀ fuel, process_query_write_set fuel handlers_ok id galera_ex1
      [galera_call.ws_start 1] ws_cols 1 1 = galera_outcome.diverge) ∧
    outcome_calls (process_conn_write_set handlers_ok id galera_ex1
      [galera_call.ws_start 1] ws_cols 1) =
      [galera_call.ws_start 1, galera_call.to_grab 1, galera_call.to_release 1] := by
  refine ⟨by decide, by decide, by decide, ?_, by decide⟩
  intro fuel
  exact process_query_write_set_cols fuel handlers_ok id galera_ex1
    { galera_ex1 with to_queue := set_state gate_ex2 1 waiter_state_t.HOLDER }
    [galera_call.ws_start 1] ws_cols 1 1 (by decide) (by decide) (by decide)

/-- The calls of apply_queries come after the calls made before it, and are
calls of the handlers. -/
theorem apply_queries_calls (h : galera_handlers) :
    ∀ (qs : List (List Nat)) (calls : List galera_call),
      ∃ extra, (apply_queries h calls qs).2 = calls ++ extra ∧
        ∀ c ∈ extra, is_apply_call c = true := by
  intro qs
  induction qs with
  | nil => intro calls; exact ⟨[], by simp [apply_queries], by simp⟩
  | cons q qs ih =>
    intro calls
    unfold apply_queries
    by_cases hq : h.bf_execute_cb calls.length q = 0
    · rw [if_pos hq]
      obtain ⟨extra, he, ha⟩ := ih (calls ++ [galera_call.execute q])
      refine ⟨galera_call.execute q :: extra, by rw [he]; simp, ?_⟩
      intro c hc
      rcases List.mem_cons.1 hc with rfl | hc
      · rfl
      · exact ha c hc
    · rw [if_neg hq]
      exact ⟨[galera_call.execute q], rfl, by simp [is_apply_call]⟩

/-- The calls of the loop of apply_rows come after the calls made before it,
and are calls of the handlers. -/
theorem apply_rows_loop_calls (cb : Nat → List Nat → Int) :
    ∀ (its : List wsdb_item_rec) (calls : List galera_call),
      ∃ extra, (apply_rows_loop cb calls its).2 = calls ++ extra ∧
        ∀ c ∈ extra, is_apply_call c = true := by
  intro its
  induction its with
  | nil => intro calls; exact ⟨[], by simp [apply_rows_loop], by simp⟩
  | cons it its ih =>
    intro calls
    unfold apply_rows_loop
    by_cases hm : it.data_mode ≠ wsdb_item_data_mode.ROW
    · rw [if_pos hm]; exact ih calls
    · rw [if_neg hm]
      by_cases hq : cb calls.length it.row = 0
      · rw [if_pos hq]
        obtain ⟨extra, he, ha⟩ := ih (calls ++ [galera_call.apply_row it.row])
        refine ⟨galera_call.apply_row it.row :: extra, by rw [he]; simp, ?_⟩
        intro c hc
        rcases List.mem_cons.1 hc with rfl | hc
        · rfl
        · exact ha c hc
      · rw [if_neg hq]
        exact ⟨[galera_call.apply_row it.row], rfl, by simp [is_apply_call]⟩

/-- The calls of apply_write_set come after the calls made before it, and are
calls of the handlers: no certification among them. -/
theorem apply_write_set_calls (h : galera_handlers) (calls : List galera_call)
    (ws : wsdb_write_set) :
    ∃ extra, (apply_write_set h calls ws).2 = calls ++ extra ∧
      ∀ c ∈ extra, is_apply_call c = true := by
  obtain ⟨e1, he1, ha1⟩ := apply_queries_calls h ws.conn_queries calls
  unfold apply_write_set
  by_cases hr : (apply_queries h calls ws.conn_queries).1 ≠ galera_status.GALERA_OK
  · simp only [if_pos hr]
    exact ⟨e1, he1, ha1⟩
  · simp only [if_neg hr]
    have hjoin : ∀ e2, (∀ c ∈ e2, is_apply_call c = true) →
        ∀ c ∈ e1 ++ e2, is_apply_call c = true := by
      intro e2 h2 c hc
      rcases List.mem_append.1 hc with hc | hc
      · exact ha1 c hc
      · exact h2 c hc
    cases hl : ws.level with
    | WSDB_WS_QUERY =>
      simp only []
      obtain ⟨e2, he2, ha2⟩ := apply_queries_calls h ws.queries
        (apply_queries h calls ws.conn_queries).2
      exact ⟨e1 ++ e2, by rw [he2, he1, List.append_assoc], hjoin e2 ha2⟩
    | WSDB_WS_DATA_ROW =>
      simp only []
      unfold apply_rows
      cases hcb : h.bf_apply_row_cb with
      | none => exact ⟨e1, he1, ha1⟩
      | some cb =>
        simp only []
        obtain ⟨e2, he2, ha2⟩ := apply_rows_loop_calls cb ws.items
          (apply_queries h calls ws.conn_queries).2
        exact ⟨e1 ++ e2, by rw [he2, he1, List.append_assoc], hjoin e2 ha2⟩
    | WSDB_WS_DATA_COLS =>
      exact ⟨e1, he1, ha1⟩

/-- The calls of the apply loop of process_query_write_set come after the
calls made before it. -/
theorem apply_retry_calls (h : galera_handlers) (ws : wsdb_write_set) :
    ∀ (fuel : Nat) (calls c : List galera_call), apply_retry h ws fuel calls = some c →
      ∃ extra, c = calls ++ extra := by
  intro fuel
  induction fuel with
  | zero => intro calls c hc; cases hc
  | succ n ih =>
    intro calls c hc
    unfold apply_retry at hc
    obtain ⟨e1, he1, _⟩ := apply_write_set_calls h calls ws
    by_cases hr : (apply_write_set h calls ws).1 ≠ galera_status.GALERA_OK
    · simp only [if_pos hr] at hc
      obtain ⟨e2, he2⟩ := ih _ c hc
      exact ⟨e1 ++ e2, by rw [he2, he1, List.append_assoc]⟩
    · simp only [if_neg hr] at hc
      injection hc with hc
      exact ⟨e1, by rw [← hc, he1]⟩

/-- The calls of the retry block of process_query_write_set come after the
calls made before it and start with the start of the job. -/
theorem apply_commit_retry_calls (h : galera_handlers) (ws : wsdb_write_set) (sl : Nat) :
    ∀ (fuel : Nat) (calls c : List galera_call),
      apply_commit_retry h ws sl fuel calls = some c →
      ∃ extra, c = calls ++ galera_call.job_start sl :: extra := by
  intro fuel
  induction fuel with
  | zero => intro calls c hc; cases hc
  | succ n ih =>
    intro calls c hc
    unfold apply_commit_retry at hc
    cases hr : apply_retry h ws (n + 1) (calls ++ [galera_call.job_start sl]) with
    | none => simp only [hr] at hc; cases hc
    | some c1 =>
      simp only [hr] at hc
      obtain ⟨e1, he1⟩ := apply_retry_calls h ws _ _ _ hr
      by_cases hx : h.bf_execute_cb (c1 ++ [galera_call.job_end]).length commit_query ≠ 0
      · rw [if_pos hx] at hc
        obtain ⟨e2, he2⟩ := ih _ c hc
        refine ⟨e1 ++ [galera_call.job_end, galera_call.execute commit_query] ++
          galera_call.job_start sl :: e2, ?_⟩
        rw [he2, he1]; simp
      · rw [if_neg hx] at hc
        injection hc with hc
        refine ⟨e1 ++ [galera_call.job_end, galera_call.execute commit_query], ?_⟩
        rw [← hc, he1]; simp

/-- With a statement handler that always returns 0, apply_queries executes
every statement and returns `GALERA_OK`. -/
theorem apply_queries_ok (h : galera_handlers) (hx : ∀ n q, h.bf_execute_cb n q = 0) :
    ∀ (qs : List (List Nat)) (calls : List galera_call),
      apply_queries h calls qs =
        (galera_status.GALERA_OK, calls ++ qs.map galera_call.execute) := by
  intro qs
  induction qs with
  | nil => intro calls; simp [apply_queries]
  | cons q qs ih =>
    intro calls
    unfold apply_queries
    rw [if_pos (hx _ _), ih]
    simp

/-- With a statement handler that always returns 0, the retry block of
process_query_write_set ends at its first pass on a write set of level
WSDB_WS_QUERY. -/
theorem apply_commit_retry_ok (h : galera_handlers) (hx : ∀ n q, h.bf_execute_cb n q = 0)
    (ws : wsdb_write_set) (hl : ws.level = wsdb_ws_level.WSDB_WS_QUERY) (sl fuel : Nat)
    (calls : List galera_call) :
    apply_commit_retry h ws sl (fuel + 1) calls =
      some (calls ++ galera_call.job_start sl ::
        (ws.conn_queries.map galera_call.execute ++ ws.queries.map galera_call.execute ++
          [galera_call.job_end, galera_call.execute commit_query])) := by
  have haw : ∀ c, apply_write_set h c ws =
      (galera_status.GALERA_OK,
        c ++ ws.conn_queries.map galera_call.execute ++ ws.queries.map galera_call.execute) := by
    intro c
    unfold apply_write_set
    simp [apply_queries_ok h hx, hl]
  unfold apply_commit_retry
  unfold apply_retry
  simp [haw, hx]

/-- C18, counterexample. The connection-level write set `ws_conn` touches row
`k`, which the index holds at seqno 11, inside its certification gap
`(10, 12)`: its certification at global seqno 12 fails. Function
process_write_set applies it all the same: it executes the statement between
the grab and the release of slot 1 and never calls the certification. -/
theorem process_write_set_conn_counterexample :
    ws_conn.type = wsdb_ws_type.WSDB_WS_TYPE_CONN ∧
    wsdb_certification_test galera_ex2.cert_index ws_conn 12 = WSDB_CERTIFICATION_FAIL ∧
    process_write_set 1 handlers_ok id galera_ex2 (some ws_conn) 12 1 =
      galera_outcome.ret galera_status.GALERA_OK
        { galera_ex2 with to_queue := { gate_ex2 with seqno := 2 } }
        [galera_call.ws_start 1, galera_call.to_grab 1, galera_call.execute [85],
         galera_call.to_release 1, galera_call.ws_start 0] := by
  decide

/-- C18, amended. For a write set handed to process_write_set whose grab of
slot `sl` returns 0 at the head of the gate: a write set of type TRX is
certified right after the grab and before any handler is called; when its
certification fails no handler is called, the index is left as it was and the
slot is released; when it passes, the handlers are called after it, and with a
statement handler that always returns 0 and level WSDB_WS_QUERY the statements
are executed and the slot released. A write set of type CONN is applied
between the grab and the release without any certification. -/
theorem process_write_set_certification (fuel : Nat) (h : galera_handlers)
    (wake : galera_state → galera_state) (st st1 : galera_state) (ws : wsdb_write_set)
    (sg sl : Nat)
    (hgrab : to_queue_grab wake st sl = some (0, st1))
    (hhead : ∀ tq', gcs_to_grab st.to_queue sl = to_result.wait tq' →
      st1.to_queue.seqno = sl)
    (hwf : to_wf st1.to_queue) :
    (ws.type = wsdb_ws_type.WSDB_WS_TYPE_TRX →
      (wsdb_append_write_set st1.cert_index sg ws).1 ≠ WSDB_OK →
      (wsdb_append_write_set st1.cert_index sg ws).2 = st1.cert_index ∧
      ∃ tq', process_write_set fuel h wake st (some ws) sg sl =
        galera_outcome.ret galera_status.GALERA_OK { st1 with to_queue := tq' }
          [galera_call.ws_start sl, galera_call.to_grab sl,
           galera_call.append_write_set sg ws, galera_call.to_release sl,
           galera_call.ws_start 0]) ∧
    (ws.type = wsdb_ws_type.WSDB_WS_TYPE_TRX →
      (wsdb_append_write_set st1.cert_index sg ws).1 = WSDB_OK →
      (process_write_set fuel h wake st (some ws) sg sl = galera_outcome.diverge ∨
       ∃ st' rest, process_write_set fuel h wake st (some ws) sg sl =
        galera_outcome.ret galera_status.GALERA_OK st'
          ([galera_call.ws_start sl, galera_call.to_grab sl,
            galera_call.append_write_set sg ws, galera_call.job_start sl] ++ rest)) ∧
      ((∀ n q, h.bf_execute_cb n q = 0) → ws.level = wsdb_ws_level.WSDB_WS_QUERY →
        0 < fuel →
        ∃ tq', process_write_set fuel h wake st (some ws) sg sl =
          galera_outcome.ret galera_status.GALERA_OK
            { st1 with
              cert_index := (wsdb_append_write_set st1.cert_index sg ws).2
              committed := sg :: st1.committed
              to_queue := tq' }
            ([galera_call.ws_start sl, galera_call.to_grab sl,
              galera_call.append_write_set sg ws, galera_call.job_start sl] ++
             ws.conn_queries.map galera_call.execute ++
             ws.queries.map galera_call.execute ++
             [galera_call.job_end, galera_call.execute commit_query,
              galera_call.set_global_trx_committed sg, galera_call.to_release sl,
              galera_call.ws_start 0]))) ∧
    (ws.type = wsdb_ws_type.WSDB_WS_TYPE_CONN →
      ∃ tq' applied, process_write_set fuel h wake st (some ws) sg sl =
        galera_outcome.ret galera_status.GALERA_OK { st1 with to_queue := tq' }
          ([galera_call.ws_start sl, galera_call.to_grab sl] ++ applied ++
           [galera_call.to_release sl, galera_call.ws_start 0]) ∧
        (apply_write_set h [galera_call.ws_start sl, galera_call.to_grab sl] ws).2 =
          [galera_call.ws_start sl, galera_call.to_grab sl] ++ applied ∧
        ∀ c ∈ applied, is_apply_call c = true ∧ is_certify_call c = false) := by
  obtain ⟨hseq, _⟩ := to_queue_grab_seqno wake st st1 sl hgrab hwf hhead
  refine ⟨?_, ?_, ?_⟩
  · intro hty hcert
    obtain ⟨_, hix⟩ := wsdb_append_write_set_fail _ _ _ hcert
    refine ⟨hix, ?_⟩
    obtain ⟨k, tq', _, hrel, _⟩ := to_queue_release_head
      { st1 with cert_index := (wsdb_append_write_set st1.cert_index sg ws).2 } sl
      ([galera_call.ws_start sl] ++ [galera_call.to_grab sl] ++
        [galera_call.append_write_set sg ws]) hwf hseq
    refine ⟨tq', ?_⟩
    unfold process_write_set
    simp only [hty]
    unfold process_query_write_set
    simp only [hgrab]
    simp only [ne_eq, not_true_eq_false, if_false, if_neg hcert, hrel]
    rw [hix]
    rfl
  · intro hty hcert
    constructor
    · unfold process_write_set
      simp only [hty]
      unfold process_query_write_set
      simp only [hgrab]
      simp only [ne_eq, not_true_eq_false, if_false, if_pos hcert]
      cases hr : apply_commit_retry h ws sl fuel
          ([galera_call.ws_start sl] ++ [galera_call.to_grab sl] ++
            [galera_call.append_write_set sg ws]) with
      | none => left; rfl
      | some c3 =>
        right
        obtain ⟨extra, he⟩ := apply_commit_retry_calls h ws sl _ _ _ hr
        obtain ⟨k, tq', _, hrel, _⟩ := to_queue_release_head
          { st1 with
            cert_index := (wsdb_append_write_set st1.cert_index sg ws).2
            committed := sg :: st1.committed } sl
          (c3 ++ [galera_call.set_global_trx_committed sg]) hwf hseq
        simp only [hrel]
        refine ⟨{ st1 with
            cert_index := (wsdb_append_write_set st1.cert_index sg ws).2
            committed := sg :: st1.committed
            to_queue := tq' },
          extra ++ [galera_call.set_global_trx_committed sg,
            galera_call.to_release sl, galera_call.ws_start 0], ?_⟩
        rw [he]
        simp
    · intro hx hl hf
      obtain ⟨n, rfl⟩ : ∃ n, fuel = n + 1 := ⟨fuel - 1, by omega⟩
      obtain ⟨k, tq', _, hrel, _⟩ := to_queue_release_head
        { st1 with
          cert_index := (wsdb_append_write_set st1.cert_index sg ws).2
          committed := sg :: st1.committed } sl
        (([galera_call.ws_start sl] ++ [galera_call.to_grab sl] ++
            [galera_call.append_write_set sg ws]) ++ galera_call.job_start sl ::
          (ws.conn_queries.map galera_call.execute ++ ws.queries.map galera_call.execute ++
            [galera_call.job_end, galera_call.execute commit_query]) ++
          [galera_call.set_global_trx_committed sg]) hwf hseq
      refine ⟨tq', ?_⟩
      unfold process_write_set
      simp only [hty]
      unfold process_query_write_set
      simp only [hgrab]
      simp only [ne_eq, not_true_eq_false, if_false, if_pos hcert,
        apply_commit_retry_ok h hx ws hl, hrel]
      simp
  · intro hty
    obtain ⟨applied, hap, hall⟩ := apply_write_set_calls h
      [galera_call.ws_start sl, galera_call.to_grab sl] ws
    obtain ⟨k, tq', _, hrel, _⟩ := to_queue_release_head st1 sl
      (apply_write_set h [galera_call.ws_start sl, galera_call.to_grab sl] ws).2 hwf hseq
    refine ⟨tq', applied, ?_, hap, ?_⟩
    · unfold process_write_set
      simp only [hty]
      unfold process_conn_write_set
      simp only [hgrab]
      simp only [ne_eq, not_true_eq_false, if_false, List.singleton_append, hrel]
      rw [hap]
      simp
    · intro c hc
      have := hall c hc
      refine ⟨this, ?_⟩
      cases c <;> simp_all [is_apply_call, is_certify_call]

/-- Witness of C18: the transaction write set `ws_ex` touches row `k`, held by
the index at seqno 11; delivered at global seqno 12 and local seqno 1 it is
certified after the grab, fails, and is released without any handler call. -/
theorem process_write_set_certification_witness :
    to_queue_grab id galera_ex2 1 =
      some (0, { galera_ex2 with to_queue := set_state gate_ex2 1 waiter_state_t.HOLDER }) ∧
    ((wsdb_append_write_set galera_ex2.cert_index 12 ws_ex).2 = galera_ex2.cert_index ∧
     ∃ tq', process_write_set 1 handlers_ok id galera_ex2 (some ws_ex) 12 1 =
      galera_outcome.ret galera_status.GALERA_OK
        { galera_ex2 with to_queue := tq' }
        [galera_call.ws_start 1, galera_call.to_grab 1,
         galera_call.append_write_set 12 ws_ex, galera_call.to_release 1,
         galera_call.ws_start 0]) :=
  ⟨by decide,
   (process_write_set_certification 1 handlers_ok id galera_ex2
      { galera_ex2 with to_queue := set_state gate_ex2 1 waiter_state_t.HOLDER }
      ws_ex 12 1 (by decide) (fun _ _ => by decide)
      ⟨⟨2, by decide, by decide⟩, by decide, by decide, by decide⟩).1
    (by decide) (by decide)⟩

/-- The release of the slot at the head of the gate, the next slot being
RELEASED, leaves the gate at the next seqno with that slot RELEASED. -/
theorem to_queue_release_next (st : galera_state) (sl : Nat) (calls : List galera_call)
    (hwf : to_wf st.to_queue) (hs : st.to_queue.seqno = sl)
    (hn : slot_state st.to_queue (sl + 1) = waiter_state_t.RELEASED)
    (hb : sl + 1 < SEQNO_RANGE) :
    ∃ tq', to_queue_release st sl calls =
        galera_outcome.ret galera_status.GALERA_OK { st with to_queue := tq' }
          (calls ++ [galera_call.to_release sl]) ∧
      tq'.seqno = sl + 1 ∧ to_wf tq' ∧
      w_state tq' (to_get_waiter tq' (sl + 1)) = waiter_state_t.RELEASED := by
  subst hs
  obtain ⟨k, tq', sig, hk, hres, hseq, hrel, hfr, hql, hqm, hlen, _, _, _, hcan⟩ :=
    gcs_to_release_head st.to_queue hwf
  have hwf' : to_wf tq' :=
    to_wf_of_frame st.to_queue tq' hwf hql hqm hlen
      (by rw [hseq]; exact Nat.mod_lt _ (by decide))
  have hn' : w_state st.to_queue ((st.to_queue.seqno + 1) % st.to_queue.qlen) =
      waiter_state_t.RELEASED := by
    simpa only [slot_state, to_get_waiter_eq_mod st.to_queue hwf] using hn
  have hk0 : k = 0 := by
    by_contra hne
    have := hcan 1 (by omega) (by omega)
    rw [hn'] at this
    cases this
  subst hk0
  refine ⟨tq', ?_, ?_, hwf', ?_⟩
  · unfold to_queue_release
    rw [hres]
  · rw [hseq, Nat.add_zero, Nat.mod_eq_of_lt hb]
  · rw [to_get_waiter_eq_mod tq' hwf', hql]
    by_cases he : (st.to_queue.seqno + 1) % st.to_queue.qlen =
        (st.to_queue.seqno + 0) % st.to_queue.qlen
    · rw [he]; exact hrel 0 (by omega)
    · unfold w_state
      rw [hfr _ (by
        intro i hi
        have : i = 0 := by omega
        subst this
        exact he)]
      exact hn'

/-- The grab of a gate slot changes the certification index and the committed
seqnos only through what the other threads did while the caller waited. -/
theorem to_queue_grab_index (wake : galera_state → galera_state) (st st1 : galera_state)
    (s : Nat) (rc : Int) (h : to_queue_grab wake st s = some (rc, st1))
    (hwk : ∀ x, (wake x).cert_index = x.cert_index ∧ (wake x).committed = x.committed) :
    st1.cert_index = st.cert_index ∧ st1.committed = st.committed := by
  rcases to_queue_grab_frame wake st st1 s rc h with
    ⟨tq', sg, _, hst, _⟩ | ⟨tq', tq2, sg, _, _, hst, _⟩
  · rw [hst]; exact ⟨rfl, rfl⟩
  · rw [hst]
    exact hwk { st with to_queue := tq' }

/-- C19. For a delivered action of type PRIMARY, NON_PRIMARY or SNAPSHOT with
local seqno `sl` whose grab returns 0 at the head of the gate, the pass of the
receive loop calls gcs_to_grab on `sl`, then gcs_to_release on `sl`, and
nothing else: no certification, no handler of the application; the
certification index and the committed seqnos are those found when the grab
returned (those of the start when the other threads left them alone), the loop
goes on, and when slot `sl + 1` is RELEASED the gate stands at `sl + 1` and the
grab of `sl + 1` by the next action returns 0 at once. -/
theorem galera_recv_control_action (fuel : Nat) (h : galera_handlers)
    (wake wake2 : galera_state → galera_state) (st st1 : galera_state) (a : gcs_action)
    (hr : 0 ≤ a.rcode)
    (ht : a.action_type = gcs_act_type_t.GCS_ACT_PRIMARY ∨
      a.action_type = gcs_act_type_t.GCS_ACT_NON_PRIMARY ∨
      a.action_type = gcs_act_type_t.GCS_ACT_SNAPSHOT)
    (hgrab : to_queue_grab wake st a.seqno_l = some (0, st1))
    (hhead : ∀ tq', gcs_to_grab st.to_queue a.seqno_l = to_result.wait tq' →
      st1.to_queue.seqno = a.seqno_l)
    (hwf : to_wf st1.to_queue) :
    ∃ k tq', k < st1.to_queue.qlen ∧
      galera_recv_action fuel h wake st a =
        (galera_outcome.ret galera_status.GALERA_OK { st1 with to_queue := tq' }
          [galera_call.to_grab a.seqno_l, galera_call.to_release a.seqno_l], true) ∧
      (∀ c ∈ [galera_call.to_grab a.seqno_l, galera_call.to_release a.seqno_l],
        is_certify_call c = false ∧ is_apply_call c = false) ∧
      tq'.seqno = (a.seqno_l + k + 1) % SEQNO_RANGE ∧
      slot_state tq' a.seqno_l = waiter_state_t.RELEASED ∧
      ((∀ x, (wake x).cert_index = x.cert_index ∧ (wake x).committed = x.committed) →
        st1.cert_index = st.cert_index ∧ st1.committed = st.committed) ∧
      (slot_state st1.to_queue (a.seqno_l + 1) = waiter_state_t.RELEASED →
        a.seqno_l + 1 < SEQNO_RANGE →
        tq'.seqno = a.seqno_l + 1 ∧
        to_queue_grab wake2 { st1 with to_queue := tq' } (a.seqno_l + 1) =
          some (0, { st1 with
            to_queue := set_state tq' (to_get_waiter tq' (a.seqno_l + 1))
              waiter_state_t.HOLDER })) := by
  obtain ⟨hseq, _⟩ := to_queue_grab_seqno wake st st1 a.seqno_l hgrab hwf hhead
  obtain ⟨k, tq', hk, hrel, hsq, hsl, hwf', _⟩ :=
    to_queue_release_head st1 a.seqno_l [galera_call.to_grab a.seqno_l] hwf hseq
  have hact : galera_recv_action fuel h wake st a =
      (to_queue_release st1 a.seqno_l [galera_call.to_grab a.seqno_l], true) := by
    unfold galera_recv_action
    rw [if_neg (by omega)]
    rcases ht with ht | ht | ht <;> simp [ht, hgrab]
  refine ⟨k, tq', hk, ?_, ?_, hsq, hsl, ?_, ?_⟩
  · rw [hact, hrel]; rfl
  · intro c hc
    simp only [List.mem_cons, List.mem_singleton, List.not_mem_nil, or_false] at hc
    rcases hc with rfl | rfl <;> exact ⟨rfl, rfl⟩
  · exact to_queue_grab_index wake st st1 a.seqno_l 0 hgrab
  · intro hn hb
    obtain ⟨tq2, hrel2, hsq2, _, hw2⟩ :=
      to_queue_release_next st1 a.seqno_l [galera_call.to_grab a.seqno_l] hwf hseq hn hb
    rw [hrel] at hrel2
    injection hrel2 with _ hst _
    have htq : tq' = tq2 := congrArg galera_state.to_queue hst
    subst htq
    exact ⟨hsq2, to_queue_grab_head wake2 { st1 with to_queue := tq' } (a.seqno_l + 1)
      hsq2 hw2⟩

/-- Witness of C19, scenario 4: after DATA at local seqno 1 the PRIMARY action
at local seqno 2 grabs and releases slot 2 and nothing else, the index is left
as DATA(1) made it, the gate moves to seqno 3, and the receive loop over
DATA(1), PRIMARY(2), DATA(3) certifies and applies the two write sets in
order. -/
theorem galera_recv_control_action_witness :
    galera_recv 1 handlers_ok id galera_ex1 [] (recv_scn4.take 1) =
      galera_outcome.ret galera_status.GALERA_OK galera_scn4_data1
        [galera_call.ws_start 1, galera_call.to_grab 1,
         galera_call.append_write_set 1 ws_ex1, galera_call.job_start 1,
         galera_call.execute [73], galera_call.job_end,
         galera_call.execute commit_query, galera_call.set_global_trx_committed 1,
         galera_call.to_release 1, galera_call.ws_start 0] ∧
    outcome_calls (galera_recv 1 handlers_ok id galera_ex1 [] recv_scn4) =
      [galera_call.ws_start 1, galera_call.to_grab 1,
       galera_call.append_write_set 1 ws_ex1, galera_call.job_start 1,
       galera_call.execute [73], galera_call.job_end,
       galera_call.execute commit_query, galera_call.set_global_trx_committed 1,
       galera_call.to_release 1, galera_call.ws_start 0,
       galera_call.to_grab 2, galera_call.to_release 2,
       galera_call.ws_start 3, galera_call.to_grab 3,
       galera_call.append_write_set 2 ws_ex, galera_call.job_start 3,
       galera_call.execute [85], galera_call.job_end,
       galera_call.execute commit_query, galera_call.set_global_trx_committed 2,
       galera_call.to_release 3, galera_call.ws_start 0] ∧
    ∃ k tq', k < galera_scn4_held.to_queue.qlen ∧
      galera_recv_action 1 handlers_ok id galera_scn4_data1 recv_primary2 =
        (galera_outcome.ret galera_status.GALERA_OK { galera_scn4_held with to_queue := tq' }
          [galera_call.to_grab recv_primary2.seqno_l,
           galera_call.to_release recv_primary2.seqno_l], true) ∧
      (∀ c ∈ [galera_call.to_grab recv_primary2.seqno_l,
          galera_call.to_release recv_primary2.seqno_l],
        is_certify_call c = false ∧ is_apply_call c = false) ∧
      tq'.seqno = (recv_primary2.seqno_l + k + 1) % SEQNO_RANGE ∧
      slot_state tq' recv_primary2.seqno_l = waiter_state_t.RELEASED ∧
      ((∀ x : galera_state, (id x).cert_index = x.cert_index ∧
          (id x).committed = x.committed) →
        galera_scn4_held.cert_index = galera_scn4_data1.cert_index ∧
        galera_scn4_held.committed = galera_scn4_data1.committed) ∧
      (slot_state galera_scn4_held.to_queue (recv_primary2.seqno_l + 1) =
          waiter_state_t.RELEASED →
        recv_primary2.seqno_l + 1 < SEQNO_RANGE →
        tq'.seqno = recv_primary2.seqno_l + 1 ∧
        to_queue_grab id { galera_scn4_held with to_queue := tq' }
            (recv_primary2.seqno_l + 1) =
          some (0, { galera_scn4_held with
            to_queue := set_state tq' (to_get_waiter tq' (recv_primary2.seqno_l + 1))
              waiter_state_t.HOLDER })) :=
  ⟨by decide, by decide,
   galera_recv_control_action 1 handlers_ok id id galera_scn4_data1 galera_scn4_held
     recv_primary2 (by decide) (Or.inl rfl) (by decide) (fun _ _ => by decide)
     ⟨⟨2, by decide, by decide⟩, by decide, by decide, by decide⟩⟩

/-- Function ws_conflict_check returns 0 for a job sequenced before the other
one. -/
theorem ws_conflict_check_earlier (index : List (footprint × Nat))
    (job1 job2 : Nat × wsdb_write_set) (h : job1.1 < job2.1) :
    ws_conflict_check index job1 job2 = 0 := by
  unfold ws_conflict_check
  rw [if_pos h]

/-- The verdict of ws_conflict_check does not depend on the write set of the
second job: only its seqno is handed to the certification test. -/
theorem ws_conflict_check_second_ws (index : List (footprint × Nat))
    (job1 : Nat × wsdb_write_set) (s : Nat) (ws2 ws3 : wsdb_write_set) :
    ws_conflict_check index job1 (s, ws2) = ws_conflict_check index job1 (s, ws3) := rfl

/-- C20, the code at the failing input. Job J, at seqno 6, writes row `k`;
job K, at seqno 5, writes row `g`: they share no footprint. The certification
index holds row `k` at seqno 5, put there by a third write set, and
ws_conflict_check(J, K) returns 1. Conversely, with K writing row `k` at
seqno 5 and J writing it at seqno 6, both certified and inserted in order (the
index then holds `k` at 6), ws_conflict_check(J, K) returns 0 although J and K
share the footprint. -/
theorem ws_conflict_check_foreign_index :
    (∀ f ∈ ws_footprints ws_ex, f ∉ ws_footprints ws_ex2) ∧
    ws_conflict_check [({ dbtable := [116], key := [107], action := 85 }, 5)]
      (6, ws_ex) (5, ws_ex2) = 1 ∧
    ws_footprints { ws_ex with last_seen_trx := 5 } =
      ws_footprints { ws_ex with last_seen_trx := 4 } ∧
    wsdb_append_write_set [] 5 { ws_ex with last_seen_trx := 4 } =
      (WSDB_OK, [({ dbtable := [116], key := [107], action := 85 }, 5)]) ∧
    wsdb_append_write_set [({ dbtable := [116], key := [107], action := 85 }, 5)] 6
        { ws_ex with last_seen_trx := 5 } =
      (WSDB_OK, [({ dbtable := [116], key := [107], action := 85 }, 6)]) ∧
    ws_conflict_check [({ dbtable := [116], key := [107], action := 85 }, 6)]
      (6, { ws_ex with last_seen_trx := 5 }) (5, { ws_ex with last_seen_trx := 4 }) = 0 := by
  decide

/-- Two seqnos less than a ring length apart have different slots. -/
theorem slot_ne_of_ring (q a b : Nat) (h1 : a < b) (h2 : b < a + q) :
    b % q ≠ a % q := by
  intro he
  have := ring_index_inj q a (b - a) 0 (by omega) (by omega)
    (by rw [Nat.add_zero, Nat.add_sub_cancel' (Nat.le_of_lt h1)]; exact he)
  omega

/-- A caller found in a list of callers is still found after a call has been
appended. -/
theorem threads_append_get (threads : List grab_thread) (t : Nat) (thd new : grab_thread)
    (h : threads[t]? = some thd) : (threads ++ [new])[t]? = some thd := by
  obtain ⟨hlt, _⟩ := List.getElem?_eq_some.1 h
  rw [List.getElem?_append_left hlt]
  exact h

/-- What `thread_below` says of a caller is kept by a gate change that does
not make its slot WAIT. -/
theorem thread_below_keep (s : Nat) (tq tq' : gcs_to) (thd : grab_thread)
    (h : thread_below s tq thd)
    (hk : slot_state tq s ≠ waiter_state_t.WAIT → slot_state tq' s ≠ waiter_state_t.WAIT) :
    thread_below s tq' thd := by
  cases thd with
  | waiting s' sig => exact ⟨h.1, fun hs => hk (h.2 hs)⟩
  | returned s' e => exact h
  | aborted s' => exact h

/-- The invariant `grab_inv` after a gate change that keeps the ring, does not
move the seqno back or up to `s`, and leaves slot `s` not RELEASED. -/
theorem grab_inv_next (s t : Nat) (sys : to_sys) (tq' : gcs_to) (th' : List grab_thread)
    (hs : List Nat) (ab : Bool) (hinv : grab_inv s t sys) (hwf' : to_wf tq')
    (hlt : tq'.seqno < s) (hge : sys.tq.seqno ≤ tq'.seqno) (hql : tq'.qlen = sys.tq.qlen)
    (hslot : slot_state tq' s ≠ waiter_state_t.RELEASED)
    (hth : ∃ thd, th'[t]? = some thd ∧ thread_below s tq' thd) :
    grab_inv s t { tq := tq', threads := th', holders := hs, aborted := ab } := by
  obtain ⟨_, _, h3, h4, _, _⟩ := hinv
  refine ⟨hwf', hlt, ?_, ?_, hslot, hth⟩
  · show s < tq'.seqno + tq'.qlen
    rw [hql]; omega
  · show s + tq'.qlen ≤ SEQNO_RANGE
    rw [hql]; exact h4

/-- A gate change that keeps the frame and changes a slot only from RELEASED,
or from WAIT to HOLDER, keeps the invariant `grab_inv` for the callers in
`th'`. -/
theorem grab_inv_frame (s t : Nat) (sys : to_sys) (tq' : gcs_to) (th' : List grab_thread)
    (hs : List Nat) (ab : Bool) (hinv : grab_inv s t sys) (hf : to_frame sys.tq tq')
    (hst : ∀ j, w_state tq' j = w_state sys.tq j ∨
      w_state sys.tq j = waiter_state_t.RELEASED ∨
      (w_state tq' j ≠ waiter_state_t.RELEASED ∧ w_state tq' j ≠ waiter_state_t.WAIT))
    (hth : ∀ thd, sys.threads[t]? = some thd → thread_below s tq' thd →
      ∃ thd', th'[t]? = some thd' ∧ thread_below s tq' thd') :
    grab_inv s t { tq := tq', threads := th', holders := hs, aborted := ab } := by
  have hinv' := hinv
  obtain ⟨hwf, h2, _, _, h5, thd, hget, hthd⟩ := hinv'
  have hsl : slot_state tq' s = w_state tq' (to_get_waiter sys.tq s) :=
    slot_state_frame sys.tq tq' s hf.2.2.1
  have hcases := hst (to_get_waiter sys.tq s)
  have hrel : slot_state tq' s ≠ waiter_state_t.RELEASED := by
    rw [hsl]
    rcases hcases with h | h | h
    · rw [h]; exact h5
    · exact absurd h h5
    · exact h.1
  have hwait : slot_state sys.tq s ≠ waiter_state_t.WAIT →
      slot_state tq' s ≠ waiter_state_t.WAIT := by
    intro hw
    rw [hsl]
    rcases hcases with h | h | h
    · rw [h]; exact hw
    · exact absurd h h5
    · exact h.2
  refine grab_inv_next s t sys tq' th' hs ab hinv (to_wf_frame _ _ hwf hf)
    (by rw [hf.1]; exact h2) (by rw [hf.1]) hf.2.1 hrel ?_
  exact hth thd hget (thread_below_keep s sys.tq tq' thd hthd hwait)

/-- What a signal does to a caller of the list: nothing, or, when the caller
was suspended, not yet signalled, on the signalled condition, it marks it
signalled. -/
theorem gu_cond_signal_get (tq : gcs_to) (threads th' : List grab_thread)
    (sig woken : Option Nat) (t : Nat) (thd : grab_thread)
    (h : gu_cond_signal tq threads sig woken = some th') (hget : threads[t]? = some thd) :
    th'[t]? = some thd ∨
    ∃ x w, sig = some w ∧ thd = grab_thread.waiting x false ∧ to_get_waiter tq x = w ∧
      th'[t]? = some (grab_thread.waiting x true) := by
  unfold gu_cond_signal at h
  cases sig with
  | none =>
    cases woken with
    | none => simp only at h; injection h with h; subst h; exact Or.inl hget
    | some t0 => simp only at h; cases h
  | some w =>
    cases woken with
    | none =>
      simp only at h
      split at h
      · cases h
      · injection h with h; subst h; exact Or.inl hget
    | some t0 =>
      simp only at h
      cases h0 : threads[t0]? with
      | none => simp only [h0] at h; cases h
      | some th0 =>
        cases th0 with
        | returned x e => simp only [h0] at h; cases h
        | aborted x => simp only [h0] at h; cases h
        | waiting x sg =>
          cases sg with
          | true => simp only [h0] at h; cases h
          | false =>
            simp only [h0] at h
            by_cases hw : to_get_waiter tq x = w
            · rw [if_pos hw] at h
              injection h with h
              subst h
              by_cases ht : t0 = t
              · subst ht
                right
                rw [hget] at h0
                injection h0 with h0
                refine ⟨x, w, rfl, h0, hw, ?_⟩
                exact List.getElem?_set_self (List.getElem?_eq_some.1 hget).1
              · left
                rw [List.getElem?_set_ne ht]
                exact hget
            · rw [if_neg hw] at h; cases h

/-- The invariant `grab_inv` is kept by a call of release, cancel or
self-cancel that does not take the seqno up to `s`, leaves slot `s` as it was
or CANCELED, and signals the condition of slot `s` only when that slot is not
WAIT. -/
theorem grab_inv_apply (s t : Nat) (sys sys' : to_sys) (r : to_result) (woken : Option Nat)
    (hinv : grab_inv s t sys) (happ : to_apply sys r woken = some sys')
    (hlt : sys'.tq.seqno < s)
    (heff : ∀ e tq' sg, r = to_result.ret e tq' sg → tq'.seqno < s →
      to_wf tq' ∧ sys.tq.seqno ≤ tq'.seqno ∧ tq'.qlen = sys.tq.qlen ∧
      (slot_state tq' s = slot_state sys.tq s ∨
        slot_state tq' s = waiter_state_t.CANCELED) ∧
      (∀ w, sg = some w → w = to_get_waiter tq' s →
        slot_state tq' s ≠ waiter_state_t.WAIT)) :
    grab_inv s t sys' := by
  unfold to_apply at happ
  cases r with
  | wait tq' => simp only at happ; cases happ
  | diverge => simp only at happ; cases happ
  | abort =>
    simp only at happ
    cases woken with
    | some _ => simp only at happ; cases happ
    | none =>
      simp only at happ
      injection happ with happ
      subst happ
      exact hinv
  | ret e tq' sg =>
    simp only at happ
    cases hsig : gu_cond_signal tq' sys.threads sg woken with
    | none => simp only [hsig] at happ; cases happ
    | some th' =>
      simp only [hsig] at happ
      injection happ with happ
      subst happ
      obtain ⟨hwf', hge, hql, hslot, hsg⟩ := heff e tq' sg rfl hlt
      have hinv' := hinv
      obtain ⟨_, _, _, _, h5, thd, hget, hthd⟩ := hinv'
      have hrel : slot_state tq' s ≠ waiter_state_t.RELEASED := by
        rcases hslot with h | h
        · rw [h]; exact h5
        · rw [h]; decide
      have hwait : slot_state sys.tq s ≠ waiter_state_t.WAIT →
          slot_state tq' s ≠ waiter_state_t.WAIT := by
        intro hw
        rcases hslot with h | h
        · rw [h]; exact hw
        · rw [h]; decide
      refine grab_inv_next s t sys tq' th' sys.holders sys.aborted hinv hwf' hlt hge hql
        hrel ?_
      rcases gu_cond_signal_get tq' sys.threads th' sg woken t thd hsig hget with
        h | ⟨x, w, hw1, hw2, hw3, hw4⟩
      · exact ⟨thd, h, thread_below_keep s sys.tq tq' thd hthd hwait⟩
      · subst hw2
        have hx : x = s := hthd.1
        subst hx
        exact ⟨_, hw4, rfl, fun _ => hsg w hw1 hw3.symm⟩

/-- The invariant `grab_inv` is kept by every step of the system after which
the current seqno is still below `s`. -/
theorem grab_inv_step (s t : Nat) (sys sys' : to_sys) (ev : to_event)
    (hinv : grab_inv s t sys) (hstep : to_step sys ev = some sys')
    (hlt : sys'.tq.seqno < s) : grab_inv s t sys' := by
  have hinv' := hinv
  obtain ⟨hwf, h2, h3, h4, h5, thd, hget, hthd⟩ := hinv'
  have hmod : ∀ x, to_get_waiter sys.tq x = x % sys.tq.qlen := to_get_waiter_eq_mod sys.tq hwf
  unfold to_step at hstep
  by_cases hab : sys.aborted = true
  · rw [if_pos hab] at hstep; cases hstep
  rw [if_neg hab] at hstep
  cases ev with
  | grab x =>
    simp only at hstep
    cases hg : gcs_to_grab sys.tq x with
    | diverge => simp only [hg] at hstep; cases hstep
    | abort =>
      simp only [hg] at hstep
      injection hstep with hstep
      subst hstep
      exact ⟨hwf, h2, h3, h4, h5, thd, threads_append_get _ _ _ _ hget, hthd⟩
    | wait tq' =>
      simp only [hg] at hstep
      injection hstep with hstep
      subst hstep
      obtain ⟨hf, hst⟩ := gcs_to_grab_wait_effect _ _ _ hg
      exact grab_inv_frame s t sys tq' _ _ _ hinv hf
        (fun j => (hst j).elim Or.inl (fun h => Or.inr (Or.inl h)))
        (fun thd' hg' hb => ⟨thd', threads_append_get _ _ _ _ hg', hb⟩)
    | ret err tq' sg =>
      simp only [hg] at hstep
      injection hstep with hstep
      subst hstep
      obtain ⟨hf, _, hst, _⟩ := gcs_to_grab_ret_effect _ _ _ _ _ hg
      exact grab_inv_frame s t sys tq' _ _ _ hinv hf
        (fun j => (hst j).elim Or.inl (fun h => Or.inr (Or.inl h)))
        (fun thd' hg' hb => ⟨thd', threads_append_get _ _ _ _ hg', hb⟩)
  | wakeup t0 =>
    simp only at hstep
    cases h0 : sys.threads[t0]? with
    | none => simp only [h0] at hstep; cases hstep
    | some th0 =>
      cases th0 with
      | returned x e => simp only [h0] at hstep; cases hstep
      | aborted x => simp only [h0] at hstep; cases hstep
      | waiting x sgn =>
        cases sgn with
        | false => simp only [h0] at hstep; cases hstep
        | true =>
          simp only [h0] at hstep
          have hlen : t0 < sys.threads.length := (List.getElem?_eq_some.1 h0).1
          cases hg : gcs_to_grab_wakeup sys.tq x with
          | diverge => simp only [hg] at hstep; cases hstep
          | wait tq' => simp only [hg] at hstep; cases hstep
          | abort =>
            simp only [hg] at hstep
            injection hstep with hstep
            subst hstep
            refine ⟨hwf, h2, h3, h4, h5, ?_⟩
            by_cases ht : t0 = t
            · subst ht
              rw [hget] at h0
              injection h0 with h0
              subst h0
              exact ⟨_, List.getElem?_set_self hlen, hthd.1⟩
            · exact ⟨thd, by rw [List.getElem?_set_ne ht]; exact hget, hthd⟩
          | ret err tq' sg =>
            simp only [hg] at hstep
            injection hstep with hstep
            subst hstep
            obtain ⟨hf, hst, he0, herr⟩ := gcs_to_grab_wakeup_effect _ _ _ _ _ hg
            refine grab_inv_frame s t sys tq' _ _ _ hinv hf ?_ ?_
            · intro j
              rcases hst j with h | ⟨_, h⟩
              · exact Or.inl h
              · exact Or.inr (Or.inr ⟨by rw [h]; decide, by rw [h]; decide⟩)
            · intro thd' hg' hb
              by_cases ht : t0 = t
              · subst ht
                rw [hg'] at h0
                injection h0 with h0
                subst h0
                rw [hget] at hg'
                injection hg' with hg'
                subst hg'
                have hx : x = s := hthd.1
                subst hx
                refine ⟨_, List.getElem?_set_self hlen, rfl, ?_⟩
                rcases herr with h | h
                · exact absurd (he0 h) (hthd.2 rfl)
                · exact h
              · exact ⟨thd', by rw [List.getElem?_set_ne ht]; exact hg', hb⟩
  | release x woken =>
    simp only at hstep
    refine grab_inv_apply s t sys sys' _ woken hinv hstep hlt ?_
    intro e tq' sg hr hlt'
    rcases gcs_to_release_effect sys.tq hwf x e tq' sg hr with
      ⟨h1, hsg⟩ | ⟨hx, k, hk, hseq, hql, hqm, hlen, hfr, hsg⟩
    · subst h1
      subst hsg
      exact ⟨hwf, Nat.le_refl _, rfl, Or.inl rfl, fun w hw => by cases hw⟩
    · have hnw : sys.tq.seqno + k + 1 < SEQNO_RANGE := by omega
      rw [Nat.mod_eq_of_lt hnw] at hseq
      have hwf' : to_wf tq' := to_wf_of_frame sys.tq tq' hwf hql hqm hlen (by omega)
      have hmod' : ∀ y, to_get_waiter tq' y = y % sys.tq.qlen := by
        intro y; rw [to_get_waiter_eq_mod tq' hwf', hql]
      refine ⟨hwf', by omega, hql, Or.inl ?_, ?_⟩
      · simp only [slot_state, w_state]
        rw [hmod', hmod, hfr _ (fun i hi =>
          slot_ne_of_ring sys.tq.qlen (sys.tq.seqno + i) s (by omega) (by omega))]
      · intro w hw1 hw2
        rcases hsg with h | h
        · rw [h] at hw1; cases hw1
        · rw [h] at hw1
          injection hw1 with hw1
          rw [hmod', ← hw1] at hw2
          exact absurd hw2.symm
            (slot_ne_of_ring sys.tq.qlen (sys.tq.seqno + k + 1) s (by omega) (by omega))
  | cancel x woken =>
    simp only at hstep
    refine grab_inv_apply s t sys sys' _ woken hinv hstep hlt ?_
    intro e tq' sg hr _
    obtain ⟨hf, hsg, hc, hoth⟩ := gcs_to_cancel_effect sys.tq hwf x e tq' sg hr
    have hsl : slot_state tq' s = w_state tq' (to_get_waiter sys.tq s) :=
      slot_state_frame sys.tq tq' s hf.2.2.1
    have hslot : slot_state tq' s = slot_state sys.tq s ∨
        slot_state tq' s = waiter_state_t.CANCELED := by
      by_cases hj : to_get_waiter sys.tq s = to_get_waiter sys.tq x
      · right; rw [hsl, hj]; exact hc
      · left; rw [hsl, hoth _ hj]; rfl
    refine ⟨to_wf_frame _ _ hwf hf, by rw [hf.1], hf.2.1, hslot, ?_⟩
    intro w hw1 hw2
    rw [hsg] at hw1
    injection hw1 with hw1
    have hq : to_get_waiter tq' s = to_get_waiter sys.tq s := by
      simp only [to_get_waiter, hf.2.2.1]
    rw [hsl, ← hq, ← hw2, ← hw1, hc]
    decide
  | self_cancel x =>
    simp only at hstep
    refine grab_inv_apply s t sys sys' _ none hinv hstep hlt ?_
    intro e tq' sg hr _
    obtain ⟨hf, hsg, hc, hoth⟩ := gcs_to_self_cancel_effect sys.tq hwf x e tq' sg hr
    have hsl : slot_state tq' s = w_state tq' (to_get_waiter sys.tq s) :=
      slot_state_frame sys.tq tq' s hf.2.2.1
    have hslot : slot_state tq' s = slot_state sys.tq s ∨
        slot_state tq' s = waiter_state_t.CANCELED := by
      by_cases hj : to_get_waiter sys.tq s = to_get_waiter sys.tq x
      · right; rw [hsl, hj]; exact hc
      · left; rw [hsl, hoth _ hj]; rfl
    refine ⟨to_wf_frame _ _ hwf hf, by rw [hf.1], hf.2.1, hslot, ?_⟩
    intro w hw1 _
    rw [hsg] at hw1
    cases hw1

/-- The invariant `grab_inv` holds all along a run in which the current seqno
stays below `s`. -/
theorem grab_inv_run (s t : Nat) :
    ∀ (evs : List to_event) (sys sys' : to_sys), grab_inv s t sys →
      to_run_below s sys evs = some sys' → grab_inv s t sys' := by
  intro evs
  induction evs with
  | nil =>
    intro sys sys' hinv hrun
    unfold to_run_below at hrun
    injection hrun with hrun
    subst hrun
    exact hinv
  | cons ev evs ih =>
    intro sys sys' hinv hrun
    unfold to_run_below at hrun
    cases hstep : to_step sys ev with
    | none => simp only [hstep] at hrun; cases hrun
    | some sys1 =>
      simp only [hstep] at hrun
      by_cases hlt : sys1.tq.seqno < s
      · rw [if_pos hlt] at hrun
        exact ih sys1 sys' (grab_inv_step s t sys sys1 ev hinv hstep hlt) hrun
      · rw [if_neg hlt] at hrun; cases hrun

/-- C2, counterexample. On the gate `gcs_to_create(2, 0)` slot 3 is RELEASED
and 3 is ahead of the current seqno 0, three seqnos away on a ring of two: the
caller of gcs_to_grab(3) is put in WAIT on the slot of seqno 1; the release of
seqno 0 moves the gate to seqno 1, finds that slot WAIT and signals it, and
the caller resumes, marks the slot HOLDER and returns 0 while the current
seqno is 1. -/
theorem gcs_to_grab_overflow_counterexample :
    gcs_to_create 2 0 = some gate_ex6 ∧
    slot_state gate_ex6 3 = waiter_state_t.RELEASED ∧ gate_ex6.seqno < 3 ∧
    to_step (to_sys_init gate_ex6) (to_event.grab 3) =
      some { tq := used_inc (set_state gate_ex6 1 waiter_state_t.WAIT),
             threads := [grab_thread.waiting 3 false], holders := [], aborted := false } ∧
    to_run_below 3
      { tq := used_inc (set_state gate_ex6 1 waiter_state_t.WAIT),
        threads := [grab_thread.waiting 3 false], holders := [], aborted := false }
      [to_event.release 0 (some 0), to_event.wakeup 0] =
      some { tq := { seqno := 1, used := 0, qlen := 2, qmask := 1,
                     queue := [⟨waiter_state_t.RELEASED, 0⟩, ⟨waiter_state_t.HOLDER, 0⟩] },
             threads := [grab_thread.returned 3 0], holders := [3], aborted := false } := by
  decide

/-- C2, amended. For every gate as gcs_to_create builds it and every seqno `s`
whose slot is RELEASED: when `s` is the current seqno, gcs_to_grab(s) returns 0
without waiting, marks slot `s` HOLDER and changes neither the current seqno
nor any other slot; when `s` is ahead of the current seqno by less than the
ring length (and `s + ring length` does not pass 2^64), the caller is put in
WAIT and, in every run of the system in which the current seqno stays below
`s`, it is never a caller whose grab returned 0: it still waits, or its grab
returned `-ECANCELED`, or it ended in `abort()`. -/
theorem gcs_to_grab_spec (tq : gcs_to) (s : Nat) (hwf : to_wf tq)
    (hst : slot_state tq s = waiter_state_t.RELEASED) :
    (s = tq.seqno →
      gcs_to_grab tq s =
        to_result.ret 0 (set_state tq (to_get_waiter tq s) waiter_state_t.HOLDER) none ∧
      slot_state (set_state tq (to_get_waiter tq s) waiter_state_t.HOLDER) s =
        waiter_state_t.HOLDER ∧
      (set_state tq (to_get_waiter tq s) waiter_state_t.HOLDER).seqno = tq.seqno ∧
      ∀ j, j ≠ to_get_waiter tq s →
        waiter_at (set_state tq (to_get_waiter tq s) waiter_state_t.HOLDER) j =
          waiter_at tq j) ∧
    (tq.seqno < s → s < tq.seqno + tq.qlen → s + tq.qlen ≤ SEQNO_RANGE →
      ∃ tq1, gcs_to_grab tq s = to_result.wait tq1 ∧
        slot_state tq1 s = waiter_state_t.WAIT ∧
        ∀ sys : to_sys, sys.tq = tq → sys.aborted = false →
          ∃ sys1, to_step sys (to_event.grab s) = some sys1 ∧
            sys1.threads = sys.threads ++ [grab_thread.waiting s false] ∧
            ∀ evs sys', to_run_below s sys1 evs = some sys' →
              sys'.tq.seqno < s ∧
              ∃ th, sys'.threads[sys.threads.length]? = some th ∧
                th ≠ grab_thread.returned s 0 ∧ thread_below s sys'.tq th) := by
  constructor
  · intro hs
    subst hs
    exact ⟨gcs_to_grab_head tq hst, set_state_slot tq hwf tq.seqno waiter_state_t.HOLDER⟩
  · intro h1 h2 h3
    have hg := gcs_to_grab_ahead tq s h1 hst
    obtain ⟨hf, _⟩ := gcs_to_grab_wait_effect _ _ _ hg
    have hw : slot_state (used_inc (set_state tq (to_get_waiter tq s) waiter_state_t.WAIT)) s =
        waiter_state_t.WAIT := by
      rw [slot_state_frame tq _ s hf.2.2.1, w_state_used_inc]
      exact (set_state_slot tq hwf s waiter_state_t.WAIT).1
    refine ⟨_, hg, hw, ?_⟩
    intro sys htq hab
    subst htq
    have hstep : to_step sys (to_event.grab s) =
        some { sys with
          tq := used_inc (set_state sys.tq (to_get_waiter sys.tq s) waiter_state_t.WAIT)
          threads := sys.threads ++ [grab_thread.waiting s false] } := by
      unfold to_step
      simp only [hab, hg]
      rfl
    refine ⟨_, hstep, rfl, ?_⟩
    intro evs sys' hrun
    have hinv1 : grab_inv s sys.threads.length
        { sys with
          tq := used_inc (set_state sys.tq (to_get_waiter sys.tq s) waiter_state_t.WAIT)
          threads := sys.threads ++ [grab_thread.waiting s false] } := by
      refine ⟨to_wf_frame _ _ hwf hf, ?_, ?_, ?_, ?_, grab_thread.waiting s false, ?_, ?_⟩
      · show (used_inc _).seqno < s
        rw [hf.1]; exact h1
      · show s < (used_inc _).seqno + (used_inc _).qlen
        rw [hf.1, hf.2.1]; exact h2
      · show s + (used_inc _).qlen ≤ SEQNO_RANGE
        rw [hf.2.1]; exact h3
      · show slot_state (used_inc _) s ≠ waiter_state_t.RELEASED
        rw [hw]; decide
      · show (sys.threads ++ [grab_thread.waiting s false])[sys.threads.length]? = _
        simp
      · exact ⟨rfl, fun h => by cases h⟩
    obtain ⟨_, hlt, _, _, _, th, hget, hth⟩ :=
      grab_inv_run s sys.threads.length evs _ sys' hinv1 hrun
    refine ⟨hlt, th, hget, ?_, hth⟩
    intro he
    subst he
    have := hth.2
    simp [ECANCELED] at this

/-- Witness of the amended C2: on a fresh gate of four slots at seqno 1 the
caller of gcs_to_grab(3) waits, and is not a holder while the seqno is below
3. -/
theorem gcs_to_grab_spec_witness :
    ∃ tq1, gcs_to_grab gate_ex2 3 = to_result.wait tq1 ∧
      slot_state tq1 3 = waiter_state_t.WAIT ∧
      ∀ sys : to_sys, sys.tq = gate_ex2 → sys.aborted = false →
        ∃ sys1, to_step sys (to_event.grab 3) = some sys1 ∧
          sys1.threads = sys.threads ++ [grab_thread.waiting 3 false] ∧
          ∀ evs sys', to_run_below 3 sys1 evs = some sys' →
            sys'.tq.seqno < 3 ∧
            ∃ th, sys'.threads[sys.threads.length]? = some th ∧
              th ≠ grab_thread.returned 3 0 ∧ thread_below 3 sys'.tq th :=
  (gcs_to_grab_spec gate_ex2 3 ⟨⟨2, by decide, by decide⟩, by decide, by decide, by decide⟩
    (by decide)).2 (by decide) (by decide) (by decide)

/-- C3, the code at the failing input. On the gate `gcs_to_create(2, 1)`,
every seqno being in the ring when it is used: the caller of grab(2) waits and
is cancelled (and signalled); grab(1) and release(1) follow, the sweep passes
the cancelled slot of seqno 2, marks it RELEASED and moves the gate to seqno 3;
grab(3) returns 0; grab(4) is put in WAIT on the slot that seqno 2 had; then
the caller of grab(2) resumes, finds its slot WAIT, marks it HOLDER and returns
0. Both slots are HOLDER, the current seqno is 3, and the grabs returned 0 in
the order 1, 3, 2. -/
theorem to_run_two_holders :
    gcs_to_create 2 1 = some gate_ex7 ∧
    to_run_ring (to_sys_init gate_ex7)
      [to_event.grab 2, to_event.cancel 2 (some 0), to_event.grab 1,
       to_event.release 1 none, to_event.grab 3, to_event.grab 4, to_event.wakeup 0] =
      some { tq := { seqno := 3, used := 1, qlen := 2, qmask := 1,
                     queue := [⟨waiter_state_t.HOLDER, 0⟩, ⟨waiter_state_t.HOLDER, 0⟩] },
             threads := [grab_thread.returned 2 0, grab_thread.returned 1 0,
                         grab_thread.returned 3 0, grab_thread.waiting 4 false],
             holders := [1, 3, 2], aborted := false } ∧
    holder_count { seqno := 3, used := 1, qlen := 2, qmask := 1,
                   queue := [⟨waiter_state_t.HOLDER, 0⟩, ⟨waiter_state_t.HOLDER, 0⟩] } = 2 := by
  decide

/-- C4, the code at the failing input. On the gate `gcs_to_create(8, 4)`:
grab(4) returns 0, the caller of grab(5) waits, cancel(5) marks slot 5 CANCELED
and signals it, release(4) sweeps slot 5 to RELEASED and moves the gate to
seqno 6; the caller of grab(5) then resumes, finds its slot RELEASED, which is
neither CANCELED nor WAIT, and ends in `abort()` instead of returning
`-ECANCELED`. -/
theorem to_run_cancel_abort :
    gcs_to_create 8 4 = some gate_ex8 ∧
    to_run_ring (to_sys_init gate_ex8)
      [to_event.grab 4, to_event.grab 5, to_event.cancel 5 (some 1),
       to_event.release 4 none] =
      some { tq := { gate_ex8 with seqno := 6, used := 1 },
             threads := [grab_thread.returned 4 0, grab_thread.waiting 5 true],
             holders := [4], aborted := false } ∧
    gcs_to_grab_wakeup { gate_ex8 with seqno := 6, used := 1 } 5 = to_result.abort ∧
    to_step { tq := { gate_ex8 with seqno := 6, used := 1 },
              threads := [grab_thread.returned 4 0, grab_thread.waiting 5 true],
              holders := [4], aborted := false } (to_event.wakeup 1) =
      some { tq := { gate_ex8 with seqno := 6, used := 1 },
             threads := [grab_thread.returned 4 0, grab_thread.aborted 5],
             holders := [4], aborted := true } ∧
    gcs_to_grab (set_state gate_ex8 5 waiter_state_t.CANCELED) 5 =
      to_result.ret (-ECANCELED) (set_state gate_ex8 5 waiter_state_t.CANCELED) none := by
  decide

/-- A run of planned calls over two plans in a row: the second plan is run
after the first when the first ended with `GALERA_OK`. -/
theorem run_callbacks_append (h : galera_handlers) :
    ∀ (p1 p2 : List galera_call) (calls : List galera_call),
      run_callbacks h calls (p1 ++ p2) =
        if (run_callbacks h calls p1).1 = galera_status.GALERA_OK then
          run_callbacks h (run_callbacks h calls p1).2 p2
        else run_callbacks h calls p1 := by
  intro p1
  induction p1 with
  | nil => intro p2 calls; simp [run_callbacks]
  | cons c cs ih =>
    intro p2 calls
    simp only [List.cons_append, run_callbacks]
    by_cases hc : callback_rc h calls.length c = 0
    · simp only [if_pos hc]; exact ih p2 _
    · simp only [if_neg hc]
      rw [if_neg (by decide)]

/-- The loop of apply_queries is the run of the statements in order. -/
theorem apply_queries_run (h : galera_handlers) :
    ∀ (qs : List (List Nat)) (calls : List galera_call),
      apply_queries h calls qs = run_callbacks h calls (qs.map galera_call.execute) := by
  intro qs
  induction qs with
  | nil => intro calls; rfl
  | cons q qs ih =>
    intro calls
    simp only [List.map_cons, run_callbacks, apply_queries, callback_rc]
    by_cases hq : h.bf_execute_cb calls.length q = 0
    · simp only [if_pos hq]; exact ih _
    · simp only [if_neg hq]

/-- The loop of apply_rows is the run, in order, of the items that carry row
data. -/
theorem apply_rows_loop_run (h : galera_handlers) (cb : Nat → List Nat → Int)
    (hcb : h.bf_apply_row_cb = some cb) :
    ∀ (its : List wsdb_item_rec) (calls : List galera_call),
      apply_rows_loop cb calls its =
        run_callbacks h calls
          ((its.filter (fun it => decide (it.data_mode = wsdb_item_data_mode.ROW))).map
            (fun it => galera_call.apply_row it.row)) := by
  intro its
  induction its with
  | nil => intro calls; rfl
  | cons it its ih =>
    intro calls
    unfold apply_rows_loop
    by_cases hm : it.data_mode = wsdb_item_data_mode.ROW
    · rw [if_neg (by simpa using hm)]
      simp only [List.filter_cons, hm, decide_True, if_true, List.map_cons, run_callbacks,
        callback_rc, hcb]
      by_cases hq : cb calls.length it.row = 0
      · simp only [if_pos hq]; exact ih _
      · simp only [if_neg hq]
    · rw [if_pos hm]
      simp only [List.filter_cons, hm, decide_False]
      exact ih calls

/-- A run of planned calls whose handlers all return 0 makes every call and
ends with `GALERA_OK`; a run whose first non-zero return code comes at the
planned call number `i` makes the calls up to that one and ends with
`GALERA_TRX_FAIL`. -/
theorem run_callbacks_spec (h : galera_handlers) :
    ∀ (plan calls : List galera_call),
      ((∀ i, (hi : i < plan.length) →
          callback_rc h (calls.length + i) (plan.get ⟨i, hi⟩) = 0) →
        run_callbacks h calls plan = (galera_status.GALERA_OK, calls ++ plan)) ∧
      (∀ i, (hi : i < plan.length) →
        (∀ j, (hj : j < i) →
          callback_rc h (calls.length + j) (plan.get ⟨j, Nat.lt_trans hj hi⟩) = 0) →
        callback_rc h (calls.length + i) (plan.get ⟨i, hi⟩) ≠ 0 →
        run_callbacks h calls plan =
          (galera_status.GALERA_TRX_FAIL, calls ++ plan.take (i + 1))) := by
  intro plan
  induction plan with
  | nil =>
    intro calls
    refine ⟨fun _ => by simp [run_callbacks], fun i hi => absurd hi (Nat.not_lt_zero _)⟩
  | cons c cs ih =>
    intro calls
    constructor
    · intro hall
      have h0 := hall 0 (Nat.succ_pos _)
      simp only [Nat.add_zero, List.get_eq_getElem, List.getElem_cons_zero] at h0
      unfold run_callbacks
      rw [if_pos h0, (ih (calls ++ [c])).1 (fun i hi => by
        have := hall (i + 1) (Nat.succ_lt_succ hi)
        simp only [List.get_eq_getElem, List.getElem_cons_succ] at this
        simp only [List.length_append, List.length_singleton, List.get_eq_getElem]
        rw [Nat.add_assoc, Nat.add_comm 1 i]
        exact this)]
      simp
    · intro i hi hlt hne
      cases i with
      | zero =>
        simp only [Nat.add_zero, List.get_eq_getElem, List.getElem_cons_zero] at hne
        unfold run_callbacks
        rw [if_neg hne]
        simp
      | succ i =>
        have h0 := hlt 0 (Nat.succ_pos _)
        simp only [Nat.add_zero, List.get_eq_getElem, List.getElem_cons_zero] at h0
        unfold run_callbacks
        rw [if_pos h0, (ih (calls ++ [c])).2 i (Nat.lt_of_succ_lt_succ hi) (fun j hj => by
          have := hlt (j + 1) (Nat.succ_lt_succ hj)
          simp only [List.get_eq_getElem, List.getElem_cons_succ] at this
          simp only [List.length_append, List.length_singleton, List.get_eq_getElem]
          rw [Nat.add_assoc, Nat.add_comm 1 j]
          exact this) (by
          simp only [List.get_eq_getElem, List.getElem_cons_succ] at hne
          simp only [List.length_append, List.length_singleton, List.get_eq_getElem]
          rw [Nat.add_assoc, Nat.add_comm 1 i]
          exact hne)]
        simp

/-- A run of planned calls ends with `GALERA_OK` or `GALERA_TRX_FAIL`. -/
theorem run_callbacks_status (h : galera_handlers) :
    ∀ (plan calls : List galera_call),
      (run_callbacks h calls plan).1 = galera_status.GALERA_OK ∨
      (run_callbacks h calls plan).1 = galera_status.GALERA_TRX_FAIL := by
  intro plan
  induction plan with
  | nil => intro calls; exact Or.inl rfl
  | cons c cs ih =>
    intro calls
    unfold run_callbacks
    by_cases hc : callback_rc h calls.length c = 0
    · rw [if_pos hc]; exact ih _
    · rw [if_neg hc]; exact Or.inr rfl

/-- C21, counterexample. The write set `ws_cols` has level WSDB_WS_DATA_COLS
and no connection query: apply_write_set calls no handler, so that every
handler called returned 0, and returns `GALERA_TRX_FAIL`, not `GALERA_OK`. -/
theorem apply_write_set_cols_counterexample :
    ws_cols.level = wsdb_ws_level.WSDB_WS_DATA_COLS ∧
    apply_write_set handlers_ok [] ws_cols = (galera_status.GALERA_TRX_FAIL, []) := by
  decide

/-- C21, amended. For a write set of level QUERY, and for one of level ROW
when a row handler is installed, apply_write_set is the run of the apply plan:
the connection queries in recorded order through the statement handler, then
the statements in order through the statement handler (QUERY) or the items
that carry row data in order through the row handler (ROW); it makes every
planned call and returns `GALERA_OK` when every handler returns 0, and stops at
the first handler that returns non-zero with `GALERA_TRX_FAIL`. For level ROW
with no row handler it returns `GALERA_FATAL` after the connection queries,
and for level COLS it returns `GALERA_TRX_FAIL` after the connection queries,
whatever the handlers returned. -/
theorem apply_write_set_order (h : galera_handlers) (calls : List galera_call)
    (ws : wsdb_write_set) :
    ((ws.level = wsdb_ws_level.WSDB_WS_QUERY ∨
      (ws.level = wsdb_ws_level.WSDB_WS_DATA_ROW ∧ h.bf_apply_row_cb ≠ none)) →
      apply_write_set h calls ws = run_callbacks h calls (apply_plan ws) ∧
      ((∀ i, (hi : i < (apply_plan ws).length) →
          callback_rc h (calls.length + i) ((apply_plan ws).get ⟨i, hi⟩) = 0) →
        apply_write_set h calls ws = (galera_status.GALERA_OK, calls ++ apply_plan ws)) ∧
      (∀ i, (hi : i < (apply_plan ws).length) →
        (∀ j, (hj : j < i) →
          callback_rc h (calls.length + j)
            ((apply_plan ws).get ⟨j, Nat.lt_trans hj hi⟩) = 0) →
        callback_rc h (calls.length + i) ((apply_plan ws).get ⟨i, hi⟩) ≠ 0 →
        apply_write_set h calls ws =
          (galera_status.GALERA_TRX_FAIL, calls ++ (apply_plan ws).take (i + 1)))) ∧
    (ws.level = wsdb_ws_level.WSDB_WS_DATA_ROW → h.bf_apply_row_cb = none →
      apply_write_set h calls ws =
        (if (run_callbacks h calls (ws.conn_queries.map galera_call.execute)).1 =
            galera_status.GALERA_OK then galera_status.GALERA_FATAL
         else galera_status.GALERA_TRX_FAIL,
         (run_callbacks h calls (ws.conn_queries.map galera_call.execute)).2)) ∧
    (ws.level = wsdb_ws_level.WSDB_WS_DATA_COLS →
      apply_write_set h calls ws =
        (galera_status.GALERA_TRX_FAIL,
         (run_callbacks h calls (ws.conn_queries.map galera_call.execute)).2)) := by
  have hconn := apply_queries_run h ws.conn_queries calls
  have hst := run_callbacks_status h (ws.conn_queries.map galera_call.execute) calls
  have hfail : (run_callbacks h calls (ws.conn_queries.map galera_call.execute)).1 ≠
      galera_status.GALERA_OK →
      (galera_status.GALERA_TRX_FAIL,
        (run_callbacks h calls (ws.conn_queries.map galera_call.execute)).2) =
      run_callbacks h calls (ws.conn_queries.map galera_call.execute) := by
    intro hne
    rcases hst with h1 | h1
    · exact absurd h1 hne
    · rw [← h1]
  refine ⟨?_, ?_, ?_⟩
  · intro hlv
    have heq : apply_write_set h calls ws = run_callbacks h calls (apply_plan ws) := by
      unfold apply_write_set apply_plan
      rw [run_callbacks_append, hconn]
      rcases hlv with hl | ⟨hl, hcb⟩
      · simp only [hl]
        by_cases hr : (run_callbacks h calls (ws.conn_queries.map galera_call.execute)).1 =
            galera_status.GALERA_OK
        · simp only [ne_eq, hr, not_true_eq_false, if_false, if_true]
          exact apply_queries_run h _ _
        · simp only [ne_eq, hr, not_false_eq_true, if_true, if_false]
          exact hfail hr
      · simp only [hl]
        by_cases hr : (run_callbacks h calls (ws.conn_queries.map galera_call.execute)).1 =
            galera_status.GALERA_OK
        · simp only [ne_eq, hr, not_true_eq_false, if_false, if_true]
          unfold apply_rows
          cases hc : h.bf_apply_row_cb with
          | none => exact absurd hc hcb
          | some cb => exact apply_rows_loop_run h cb hc _ _
        · simp only [ne_eq, hr, not_false_eq_true, if_true, if_false]
          exact hfail hr
    refine ⟨heq, ?_, ?_⟩
    · intro hall
      rw [heq]
      exact (run_callbacks_spec h (apply_plan ws) calls).1 hall
    · intro i hi hlt hne
      rw [heq]
      exact (run_callbacks_spec h (apply_plan ws) calls).2 i hi hlt hne
  · intro hl hcb
    unfold apply_write_set
    rw [hconn]
    by_cases hr : (run_callbacks h calls (ws.conn_queries.map galera_call.execute)).1 =
        galera_status.GALERA_OK
    · simp only [ne_eq, hr, not_true_eq_false, if_false, if_true, hl, apply_rows, hcb]
    · simp only [ne_eq, hr, not_false_eq_true, if_true, if_false]
  · intro hl
    unfold apply_write_set
    rw [hconn]
    by_cases hr : (run_callbacks h calls (ws.conn_queries.map galera_call.execute)).1 =
        galera_status.GALERA_OK
    · simp only [ne_eq, hr, not_true_eq_false, if_false, hl]
    · simp only [ne_eq, hr, not_false_eq_true, if_true]

/-- Witness of the amended C21: a row-level write set with one connection
query, an item without row data and two rows, the row handler failing on the
second row. The connection query and the two rows are applied in order, the
item without row data is skipped, and the status is `GALERA_TRX_FAIL`. -/
theorem apply_write_set_order_witness :
    apply_write_set handlers_row2 [] ws_rows = run_callbacks handlers_row2 [] (apply_plan ws_rows) ∧
    apply_write_set handlers_row2 [] ws_rows =
      (galera_status.GALERA_TRX_FAIL,
       [] ++ (apply_plan ws_rows).take (2 + 1)) ∧
    (apply_plan ws_rows).take (2 + 1) =
      [galera_call.execute [83], galera_call.apply_row [1], galera_call.apply_row [2]] :=
  ⟨((apply_write_set_order handlers_row2 [] ws_rows).1
      (Or.inr ⟨by decide, by simp [handlers_row2]⟩)).1,
   ((apply_write_set_order handlers_row2 [] ws_rows).1
      (Or.inr ⟨by decide, by simp [handlers_row2]⟩)).2.2 2 (by decide) (by decide) (by decide),
   by decide⟩

/-- C22. The certification of `wsdb_append_write_set(s_new, ws)` passes, with
`WSDB_OK`, exactly when no footprint of `ws` is recorded in the certification
index at a seqno `s_x` with `ws.last_seen_trx < s_x < s_new`, and returns
`WSDB_CERTIFICATION_FAIL` otherwise; a write set that passes and touches a key
last committed at `s_A`, before `s_new`, has `last_seen_trx ≥ s_A`. -/
theorem wsdb_append_write_set_contract (index : List (footprint × Nat)) (s_new : Nat)
    (ws : wsdb_write_set) :
    ((wsdb_append_write_set index s_new ws).1 = WSDB_OK ↔
      ∀ f ∈ ws_footprints ws, ∀ sx, cert_lookup index f = some sx →
        ¬ (ws.last_seen_trx < sx ∧ sx < s_new)) ∧
    ((wsdb_append_write_set index s_new ws).1 ≠ WSDB_OK →
      (wsdb_append_write_set index s_new ws).1 = WSDB_CERTIFICATION_FAIL) ∧
    ((wsdb_append_write_set index s_new ws).1 = WSDB_OK →
      ∀ f ∈ ws_footprints ws, ∀ sA, cert_lookup index f = some sA → sA < s_new →
        sA ≤ ws.last_seen_trx) := by
  have hiff : (wsdb_append_write_set index s_new ws).1 = WSDB_OK ↔
      ∀ f ∈ ws_footprints ws, ∀ sx, cert_lookup index f = some sx →
        ¬ (ws.last_seen_trx < sx ∧ sx < s_new) := by
    unfold wsdb_append_write_set wsdb_certification_test
    by_cases hany : ((ws_footprints ws).any (fun f =>
        match cert_lookup index f with
        | some sx => decide (ws.last_seen_trx < sx ∧ sx < s_new)
        | none => false)) = true
    · simp only [hany, if_true]
      have hne : WSDB_CERTIFICATION_FAIL ≠ WSDB_OK := by decide
      simp only [if_neg hne]
      constructor
      · intro h; exact absurd h hne
      · intro hall
        exfalso
        obtain ⟨f, hf, hm⟩ := List.any_eq_true.1 hany
        cases hl : cert_lookup index f with
        | none => rw [hl] at hm; cases hm
        | some sx =>
          rw [hl] at hm
          exact hall f hf sx hl (of_decide_eq_true hm)
    · simp only [hany]
      simp only [Bool.false_eq_true, if_false, if_true, true_iff]
      intro f hf sx hl hwin
      apply hany
      refine List.any_eq_true.2 ⟨f, hf, ?_⟩
      rw [hl]
      exact decide_eq_true hwin
  refine ⟨hiff, ?_, ?_⟩
  · intro hne
    exact (wsdb_append_write_set_fail index s_new ws hne).1
  · intro hok f hf sA hl hlt
    have := hiff.1 hok f hf sA hl
    by_contra hcon
    exact this ⟨by omega, hlt⟩

/-- Witness of C22, scenario 2: row `k` was committed at seqno 11; a write set
of `k` that saw seqno 10 fails at seqno 12, and one that saw seqno 11
passes. -/
theorem wsdb_append_write_set_contract_witness :
    (wsdb_append_write_set galera_ex2.cert_index 12 ws_ex).1 = WSDB_CERTIFICATION_FAIL ∧
    ∀ f ∈ ws_footprints { ws_ex with last_seen_trx := 11 }, ∀ sA,
      cert_lookup galera_ex2.cert_index f = some sA → sA < 12 →
        sA ≤ ({ ws_ex with last_seen_trx := 11 } : wsdb_write_set).last_seen_trx :=
  ⟨(wsdb_append_write_set_contract galera_ex2.cert_index 12 ws_ex).2.1 (by decide),
   (wsdb_append_write_set_contract galera_ex2.cert_index 12
      { ws_ex with last_seen_trx := 11 }).2.2 (by decide)⟩

/-- C23. On a gate as gcs_to_create builds it, gcs_to_grab (up to its return
or its wait, and after its wait), gcs_to_cancel, gcs_to_self_cancel,
gcs_to_withdraw and gcs_to_renew_wait leave the current seqno as it was;
gcs_to_release leaves it as it was when its seqno is not the current one, and
when it is the current one it returns with the current seqno increased by
`k + 1` for some `k` below the ring length (modulo 2^64: a strict increase when
`seqno + k + 1` is below 2^64). -/
theorem gate_seqno_advances (tq : gcs_to) (s : Nat) (hwf : to_wf tq) :
    (∀ e tq' sg, gcs_to_grab tq s = to_result.ret e tq' sg → tq'.seqno = tq.seqno) ∧
    (∀ tq', gcs_to_grab tq s = to_result.wait tq' → tq'.seqno = tq.seqno) ∧
    (∀ e tq' sg, gcs_to_grab_wakeup tq s = to_result.ret e tq' sg →
      tq'.seqno = tq.seqno) ∧
    (∀ e tq' sg, gcs_to_cancel tq s = to_result.ret e tq' sg → tq'.seqno = tq.seqno) ∧
    (∀ e tq' sg, gcs_to_self_cancel tq s = to_result.ret e tq' sg →
      tq'.seqno = tq.seqno) ∧
    (∃ e tq' sg, gcs_to_withdraw tq s = to_result.ret e tq' sg ∧ tq'.seqno = tq.seqno) ∧
    (∃ e tq' sg, gcs_to_renew_wait tq s = to_result.ret e tq' sg ∧ tq'.seqno = tq.seqno) ∧
    (s ≠ tq.seqno → ∀ e tq' sg, gcs_to_release tq s = to_result.ret e tq' sg →
      tq'.seqno = tq.seqno) ∧
    (s = tq.seqno → ∃ k tq' sg, k < tq.qlen ∧
      gcs_to_release tq s = to_result.ret 0 tq' sg ∧
      tq'.seqno = (tq.seqno + k + 1) % SEQNO_RANGE ∧
      (tq.seqno + k + 1 < SEQNO_RANGE → tq.seqno + 1 ≤ tq'.seqno)) := by
  refine ⟨?_, ?_, ?_, ?_, ?_, ?_, ?_, ?_, ?_⟩
  · intro e tq' sg h
    exact (gcs_to_grab_ret_effect _ _ _ _ _ h).1.1
  · intro tq' h
    exact (gcs_to_grab_wait_effect _ _ _ h).1.1
  · intro e tq' sg h
    exact (gcs_to_grab_wakeup_effect _ _ _ _ _ h).1.1
  · intro e tq' sg h
    exact (gcs_to_cancel_effect _ hwf _ _ _ _ h).1.1
  · intro e tq' sg h
    exact (gcs_to_self_cancel_effect _ hwf _ _ _ _ h).1.1
  · unfold gcs_to_withdraw
    by_cases hs : tq.seqno ≤ s
    · rw [if_pos hs]; exact ⟨_, _, _, rfl, rfl⟩
    · rw [if_neg hs]; exact ⟨_, _, _, rfl, rfl⟩
  · unfold gcs_to_renew_wait
    by_cases hs : tq.seqno ≤ s
    · rw [if_pos hs]; exact ⟨_, _, _, rfl, rfl⟩
    · rw [if_neg hs]; exact ⟨_, _, _, rfl, rfl⟩
  · intro hne e tq' sg h
    rcases gcs_to_release_effect tq hwf s e tq' sg h with ⟨h1, _⟩ | ⟨hx, _⟩
    · rw [h1]
    · exact absurd hx hne
  · intro hs
    subst hs
    obtain ⟨k, tq', sig, hk, hres, hseq, _⟩ := gcs_to_release_head tq hwf
    refine ⟨k, tq', sig, hk, hres, hseq, ?_⟩
    intro hb
    rw [hseq, Nat.mod_eq_of_lt hb]
    omega

/-- Witness of C23: on the gate `gate_ex1` (seqno 1, slot 2 cancelled) the
release of seqno 1 moves the current seqno forward and the cancel of seqno 3
leaves it where it is. -/
theorem gate_seqno_advances_witness :
    (∃ k tq' sg, k < gate_ex1.qlen ∧
      gcs_to_release gate_ex1 1 = to_result.ret 0 tq' sg ∧
      tq'.seqno = (gate_ex1.seqno + k + 1) % SEQNO_RANGE ∧
      (gate_ex1.seqno + k + 1 < SEQNO_RANGE → gate_ex1.seqno + 1 ≤ tq'.seqno)) ∧
    (∀ e tq' sg, gcs_to_cancel gate_ex1 3 = to_result.ret e tq' sg →
      tq'.seqno = gate_ex1.seqno) :=
  ⟨(gate_seqno_advances gate_ex1 1
      ⟨⟨2, by decide, by decide⟩, by decide, by decide, by decide⟩).2.2.2.2.2.2.2.2
      (by decide),
   (gate_seqno_advances gate_ex1 3
      ⟨⟨2, by decide, by decide⟩, by decide, by decide, by decide⟩).2.2.2.1⟩

/-- The doubling loop of gcs_to_create, entered with a power of two `2 ^ j`
that is 1 or whose half is below `len`, ends on the smallest power of two that
is at least `len`, for `len` up to `2 ^ 63` and enough fuel. -/
theorem create_qlen_spec (len : Int) (hlen : len ≤ 2 ^ 63) :
    ∀ (fuel j : Nat), j ≤ 63 → 64 ≤ fuel + j → (∀ i, i < j → (2 : Int) ^ i < len) →
      ∃ j', j' ≤ 63 ∧ create_qlen fuel (2 ^ j) len = 2 ^ j' ∧ len ≤ 2 ^ j' ∧
        ∀ i, i < j' → (2 : Int) ^ i < len := by
  intro fuel
  induction fuel with
  | zero => intro j hj hf _; omega
  | succ n ih =>
    intro j hj hf hlow
    unfold create_qlen
    by_cases hc : ((2 ^ j : Nat) : Int) < len
    · rw [if_pos hc]
      have hj63 : j < 63 := by
        by_contra hge
        have hj' : j = 63 := by omega
        subst hj'
        have : ((2 ^ 63 : Nat) : Int) = 2 ^ 63 := by norm_num
        omega
      have hsh : (2 ^ j <<< 1) % SEQNO_RANGE = 2 ^ (j + 1) := by
        rw [Nat.shiftLeft_eq, Nat.pow_one, ← Nat.pow_succ]
        apply Nat.mod_eq_of_lt
        unfold SEQNO_RANGE
        exact Nat.pow_lt_pow_right (by decide) (by omega)
      rw [hsh]
      apply ih (j + 1) (by omega) (by omega)
      intro i hi
      by_cases hij : i < j
      · exact hlow i hij
      · have : i = j := by omega
        subst this
        have : ((2 ^ i : Nat) : Int) = 2 ^ i := by push_cast; rfl
        rw [← this]; exact hc
    · rw [if_neg hc]
      refine ⟨j, hj, rfl, ?_, hlow⟩
      have : ((2 ^ j : Nat) : Int) = 2 ^ j := by push_cast; rfl
      rw [← this]; omega

/-- C24. For `len ≤ 0` gcs_to_create returns NULL. For every `len > 0` (an
`int`) and every 64-bit seqno it returns a gate whose ring length is the
smallest power of two that is at least `len`, whose mask is the ring length
minus one, whose current seqno is `seqno` and whose slots are all RELEASED; on
that gate `seqno & mask` is `seqno mod ring length` and indexes a slot of the
ring, for every seqno. -/
theorem gcs_to_create_spec (len : Int) (seqno : Nat) :
    (len ≤ 0 → gcs_to_create len seqno = none) ∧
    (0 < len → len ≤ 2147483647 → seqno < SEQNO_RANGE →
      ∃ j tq, gcs_to_create len seqno = some tq ∧
        tq.qlen = 2 ^ j ∧ len ≤ 2 ^ j ∧ (∀ i, i < j → (2 : Int) ^ i < len) ∧
        tq.qmask = tq.qlen - 1 ∧ tq.seqno = seqno ∧ tq.queue.length = tq.qlen ∧
        (∀ w, w < tq.qlen → w_state tq w = waiter_state_t.RELEASED) ∧
        ∀ s, to_get_waiter tq s = s % tq.qlen ∧ to_get_waiter tq s < tq.queue.length) := by
  constructor
  · intro h
    unfold gcs_to_create
    rw [if_pos h]
  · intro hpos hmax hseq
    obtain ⟨j, hj, hq, hge, hmin⟩ := create_qlen_spec len (by norm_num; omega) 64 0
      (by omega) (by omega) (fun i hi => absurd hi (Nat.not_lt_zero _))
    rw [Nat.pow_zero] at hq
    have hcr : gcs_to_create len seqno =
        some { seqno := seqno, used := 0, qlen := 2 ^ j, qmask := 2 ^ j - 1,
               queue := List.replicate (2 ^ j) ⟨waiter_state_t.RELEASED, 0⟩ } := by
      unfold gcs_to_create
      rw [if_neg (by omega)]
      simp only [hq]
    have hwf : to_wf
        { seqno := seqno, used := 0, qlen := 2 ^ j, qmask := 2 ^ j - 1,
          queue := List.replicate (2 ^ j) ⟨waiter_state_t.RELEASED, 0⟩ } :=
      ⟨⟨j, hj, rfl⟩, rfl, by simp, hseq⟩
    refine ⟨j, _, hcr, rfl, hge, hmin, rfl, rfl, by simp, ?_, ?_⟩
    · intro w _
      unfold w_state waiter_at
      rw [List.getD_eq_getElem?_getD, List.getElem?_replicate]
      split <;> rfl
    · intro s
      exact ⟨to_get_waiter_eq_mod _ hwf s, to_get_waiter_lt _ hwf s⟩

/-- Witness of C24: `gcs_to_create(5, 7)` builds a ring of 8 slots with mask 7
at seqno 7. -/
theorem gcs_to_create_spec_witness :
    ∃ j tq, gcs_to_create 5 7 = some tq ∧
      tq.qlen = 2 ^ j ∧ (5 : Int) ≤ 2 ^ j ∧ (∀ i, i < j → (2 : Int) ^ i < 5) ∧
      tq.qmask = tq.qlen - 1 ∧ tq.seqno = 7 ∧ tq.queue.length = tq.qlen ∧
      (∀ w, w < tq.qlen → w_state tq w = waiter_state_t.RELEASED) ∧
      ∀ s, to_get_waiter tq s = s % tq.qlen ∧ to_get_waiter tq s < tq.queue.length :=
  (gcs_to_create_spec 5 7).2 (by decide) (by decide) (by decide)

/-- Every slot of a ring of `q` slots is that of one of the `q` seqnos that
follow `s`. -/
theorem ring_index_surj (q s w : Nat) (hw : w < q) :
    ∃ i, i < q ∧ (s + i) % q = w := by
  refine ⟨(w + q - s % q) % q, Nat.mod_lt _ (by omega), ?_⟩
  have hs : s % q < q := Nat.mod_lt _ (by omega)
  obtain ⟨m, hm, hm0⟩ : ∃ m, s = m + s % q ∧ m % q = 0 :=
    ⟨q * (s / q), (Nat.div_add_mod s q).symm, Nat.mul_mod_right _ _⟩
  rw [Nat.add_mod, Nat.mod_mod, ← Nat.add_mod]
  have : s + (w + q - s % q) = m + (w + q) := by omega
  rw [this, Nat.add_mod, hm0, Nat.zero_add, Nat.mod_mod, Nat.add_mod_right,
    Nat.mod_eq_of_lt hw]

/-- C28. On every gate as gcs_to_create builds it, the release of the current
seqno returns: its sweep increments the current seqno `k + 1` times for some
`k` below the ring length, that is at most ring-length times. When every slot
other than the released one is CANCELED the sweep goes once round the ring,
`k + 1` is the ring length, and it stops on the slot it has just marked
RELEASED, every slot being then RELEASED. -/
theorem gcs_to_release_terminates (tq : gcs_to) (hwf : to_wf tq) :
    ∃ k tq' sig, k < tq.qlen ∧
      gcs_to_release tq tq.seqno = to_result.ret 0 tq' sig ∧
      tq'.seqno = (tq.seqno + k + 1) % SEQNO_RANGE ∧
      ((∀ i, 1 ≤ i → i < tq.qlen →
          w_state tq ((tq.seqno + i) % tq.qlen) = waiter_state_t.CANCELED) →
        k + 1 = tq.qlen ∧
        to_get_waiter tq' tq'.seqno = to_get_waiter tq tq.seqno ∧
        ∀ w, w < tq.qlen → w_state tq' w = waiter_state_t.RELEASED) := by
  have hpos := to_wf_qlen_pos tq hwf
  by_cases hall : ∀ i, 1 ≤ i → i < tq.qlen →
      w_state tq ((tq.seqno + i) % tq.qlen) = waiter_state_t.CANCELED
  · obtain ⟨tq', sig, hres, hseq, hrel, _, hql, hqm, hlen, _⟩ :=
      gcs_to_release_run tq (tq.qlen - 1) hwf (by omega)
        (fun i h1 h2 => hall i h1 (by omega)) (fun h => by omega)
    have hwf' : to_wf tq' :=
      to_wf_of_frame tq tq' hwf hql hqm hlen (by rw [hseq]; exact Nat.mod_lt _ (by decide))
    refine ⟨tq.qlen - 1, tq', sig, by omega, hres, hseq, fun _ => ⟨by omega, ?_, ?_⟩⟩
    · rw [to_get_waiter_eq_mod tq' hwf', to_get_waiter_eq_mod tq hwf, hql, hseq,
        mod_range_mod tq hwf]
      have : tq.seqno + (tq.qlen - 1) + 1 = tq.seqno + tq.qlen := by omega
      rw [this, Nat.add_mod_right]
    · intro w hw
      obtain ⟨i, hi, hiw⟩ := ring_index_surj tq.qlen tq.seqno w hw
      rw [← hiw]
      exact hrel i (by omega)
  · obtain ⟨k, tq', sig, hk, hres, hseq, _⟩ := gcs_to_release_head tq hwf
    exact ⟨k, tq', sig, hk, hres, hseq, fun h => absurd h hall⟩

/-- Witness of C28: the holder of seqno 1 releases a gate of four slots whose
other slots are all CANCELED; the sweep makes four increments, stops at seqno 5
on the slot it released, and leaves every slot RELEASED. -/
theorem gcs_to_release_terminates_witness :
    (∀ i, 1 ≤ i → i < gate_ex9.qlen →
      w_state gate_ex9 ((gate_ex9.seqno + i) % gate_ex9.qlen) = waiter_state_t.CANCELED) ∧
    gcs_to_release gate_ex9 1 =
      to_result.ret 0
        { seqno := 5, used := 0, qlen := 4, qmask := 3,
          queue := List.replicate 4 ⟨waiter_state_t.RELEASED, 0⟩ } none ∧
    ∃ k tq' sig, k < gate_ex9.qlen ∧
      gcs_to_release gate_ex9 gate_ex9.seqno = to_result.ret 0 tq' sig ∧
      tq'.seqno = (gate_ex9.seqno + k + 1) % SEQNO_RANGE ∧
      ((∀ i, 1 ≤ i → i < gate_ex9.qlen →
          w_state gate_ex9 ((gate_ex9.seqno + i) % gate_ex9.qlen) =
            waiter_state_t.CANCELED) →
        k + 1 = gate_ex9.qlen ∧
        to_get_waiter tq' tq'.seqno = to_get_waiter gate_ex9 gate_ex9.seqno ∧
        ∀ w, w < gate_ex9.qlen → w_state tq' w = waiter_state_t.RELEASED) :=
  ⟨by decide, by decide,
   gcs_to_release_terminates gate_ex9
     ⟨⟨2, by decide, by decide⟩, by decide, by decide, by decide⟩⟩

/-- C29, the code at the failing input. Transaction 7 has no seqno recorded.
The first galera_cancel_commit records the sentinel `GALERA_ABORT_SEQNO` as its
seqnos, calls no gate function and returns `GALERA_WARNING`. The second one
finds a seqno that is not 0, the sentinel, and calls gcs_to_cancel on it: the
slot of `2^64 - 1`, slot 3 of the ring of four, goes from RELEASED to CANCELED,
and the status is `GALERA_OK`. -/
theorem galera_cancel_commit_twice :
    wsdb_get_local_trx_seqno galera_ex5.local_trx 7 = 0 ∧
    galera_cancel_commit galera_ex5 7 =
      galera_outcome.ret galera_status.GALERA_WARNING
        { galera_ex5 with
          local_trx := [{ trx_id := 7, seqno_l := GALERA_ABORT_SEQNO,
                          seqno_g := GALERA_ABORT_SEQNO }] }
        [galera_call.assign_trx 7 GALERA_ABORT_SEQNO GALERA_ABORT_SEQNO] ∧
    galera_cancel_commit
        { galera_ex5 with
          local_trx := [{ trx_id := 7, seqno_l := GALERA_ABORT_SEQNO,
                          seqno_g := GALERA_ABORT_SEQNO }] } 7 =
      galera_outcome.ret galera_status.GALERA_OK
        { galera_ex5 with
          local_trx := [{ trx_id := 7, seqno_l := GALERA_ABORT_SEQNO,
                          seqno_g := GALERA_ABORT_SEQNO }]
          to_queue := set_state gate_ex2 3 waiter_state_t.CANCELED }
        [galera_call.to_cancel GALERA_ABORT_SEQNO] ∧
    to_get_waiter gate_ex2 GALERA_ABORT_SEQNO = 3 ∧
    slot_state gate_ex2 GALERA_ABORT_SEQNO = waiter_state_t.RELEASED ∧
    slot_state (set_state gate_ex2 3 waiter_state_t.CANCELED) GALERA_ABORT_SEQNO =
      waiter_state_t.CANCELED ∧
    gcs_to_grab (set_state gate_ex2 3 waiter_state_t.CANCELED) 3 =
      to_result.ret (-ECANCELED) (set_state gate_ex2 3 waiter_state_t.CANCELED) none := by
  decide

/-- The four big-endian bytes of a 32-bit value hold that value. -/
theorem of_be32_be32 (w : Nat) (hw : w < 4294967296) : of_be32 (be32 w) = w := by
  unfold of_be32 be32
  simp only [List.getD_cons_zero, List.getD_cons_succ]
  omega

/-- The four bytes found at `o` after four bytes were written there. -/
theorem take_drop_written (buf b rest : List Nat) (o : Nat) (ho : o ≤ buf.length)
    (hb : b.length = 4) :
    ((buf.take o ++ b ++ rest).drop o).take 4 = b := by
  have hl : (buf.take o).length = o := by rw [List.length_take]; omega
  have hd : (buf.take o).drop o = [] := List.drop_eq_nil_of_le (by omega)
  rw [List.append_assoc, List.drop_append_of_le_length (by omega), hd,
    List.nil_append, List.take_append_of_le_length (by omega), ← hb, List.take_length]

/-- Reading a 32-bit value where it was written gives the value back, and the
same end offset. -/
theorem read_uint32_write (w : Nat) (buf : List Nat) (buflen o : Nat)
    (hw : w < 4294967296) (ho : o + 4 ≤ buflen) (hl : o ≤ buf.length) :
    write_uint32 w buf buflen o =
      (o + 4, buf.take o ++ be32 w ++ buf.drop (o + 4)) ∧
    read_uint32 (write_uint32 w buf buflen o).2 buflen o = (o + 4, w) := by
  have hwr : write_uint32 w buf buflen o =
      (o + 4, buf.take o ++ be32 w ++ buf.drop (o + 4)) := by
    unfold write_uint32
    rw [if_neg (by omega), Nat.mod_eq_of_lt hw]
  refine ⟨hwr, ?_⟩
  rw [hwr]
  unfold read_uint32
  rw [if_neg (by omega)]
  simp only
  rw [take_drop_written buf (be32 w) _ o hl rfl, of_be32_be32 w hw]

/-- C30, the code at the failing input. The command (SET, FAIL) with address 7
is written at offset 1 of a buffer of ten bytes: write returns 9, that is
`offset + size()`, eight bytes further. Read at offset 1 from those bytes
recovers the type SET and the result FAIL but returns 5, four bytes further:
it does not consume the four bytes of the address, which it leaves as it was
in the reader. For the command (LEAVE, FAIL) read returns 9 and recovers the
address. -/
theorem VSRCommand_read_short :
    VSRCommand.write ⟨⟨7⟩, VSRCommand_Type.SET, VSRCommand_Result.FAIL⟩
      (List.replicate 10 0) 10 1 = (9, [0, 0, 0, 1, 0, 0, 0, 0, 7, 0]) ∧
    1 + VSRCommand.size ⟨⟨7⟩, VSRCommand_Type.SET, VSRCommand_Result.FAIL⟩ = 9 ∧
    VSRCommand.read ⟨⟨0⟩, VSRCommand_Type.JOIN, VSRCommand_Result.SUCCESS⟩
      [0, 0, 0, 1, 0, 0, 0, 0, 7, 0] 10 1 =
      some (5, ⟨⟨0⟩, VSRCommand_Type.SET, VSRCommand_Result.FAIL⟩) ∧
    VSRCommand.write ⟨⟨7⟩, VSRCommand_Type.LEAVE, VSRCommand_Result.FAIL⟩
      (List.replicate 10 0) 10 1 = (9, [0, 0, 0, 1, 2, 0, 0, 0, 7, 0]) ∧
    VSRCommand.read ⟨⟨0⟩, VSRCommand_Type.SET, VSRCommand_Result.SUCCESS⟩
      [0, 0, 0, 1, 2, 0, 0, 0, 7, 0] 10 1 =
      some (9, ⟨⟨7⟩, VSRCommand_Type.LEAVE, VSRCommand_Result.FAIL⟩) := by
  decide

/-- What the loops of send_nointr do: the call fails with -1, or it returns
the number `k` of bytes of the buffer, from `offset` on, that are on the wire
once it returns. -/
theorem send_loop_spec (data : List Nat) (offset : Nat) (w0 : List Nat) :
    ∀ (sock : List sock_result) (sent : Nat) (wire : List Nat),
      sent + offset ≤ data.length → wire = w0 ++ (data.drop offset).take sent →
      (send_loop data offset sock sent wire).1 = -1 ∨
      ∃ k : Nat, (send_loop data offset sock sent wire).1 = (k : Int) ∧ sent ≤ k ∧
        k + offset ≤ data.length ∧
        (send_loop data offset sock sent wire).2.1 = w0 ++ (data.drop offset).take k := by
  intro sock
  induction sock with
  | nil =>
    intro sent wire hs hw
    exact Or.inr ⟨sent, rfl, Nat.le_refl _, hs, hw⟩
  | cons r rs ih =>
    intro sent wire hs hw
    cases r with
    | eintr => exact ih sent wire hs hw
    | eagain => exact Or.inr ⟨sent, rfl, Nat.le_refl _, hs, hw⟩
    | error => exact Or.inl rfl
    | sent n =>
      unfold send_loop
      simp only
      by_cases h0 : min n (data.length - offset - sent) = 0
      · rw [if_pos h0]; exact Or.inl rfl
      · rw [if_neg h0]
        have hle : min n (data.length - offset - sent) ≤ data.length - offset - sent :=
          Nat.min_le_right _ _
        have hw' : wire ++ (data.drop (offset + sent)).take (min n (data.length - offset - sent)) =
            w0 ++ (data.drop offset).take (sent + min n (data.length - offset - sent)) := by
          rw [hw, List.append_assoc, List.take_add, List.drop_drop]
        by_cases hc : sent + min n (data.length - offset - sent) + offset < data.length
        · rw [if_pos hc]
          rcases ih (sent + min n (data.length - offset - sent)) _ (by omega) hw' with h | h
          · exact Or.inl h
          · obtain ⟨k, hk1, hk2, hk3, hk4⟩ := h
            exact Or.inr ⟨k, hk1, by omega, hk3, hk4⟩
        · rw [if_neg hc]
          exact Or.inr ⟨sent + min n (data.length - offset - sent), rfl, by omega, by omega,
            hw'⟩

/-- Function send_nointr from offset 0 changes the wire and the socket only:
it fails with -1, or it returns the number `k` of the first bytes of the
buffer that it has put on the wire. -/
theorem send_nointr_spec (tp : TCPTransport) (data : List Nat) :
    (tp.send_nointr data 0).2.state = tp.state ∧
    (tp.send_nointr data 0).2.pending = tp.pending ∧
    (tp.send_nointr data 0).2.pending_bytes = tp.pending_bytes ∧
    ((tp.send_nointr data 0).1 = -1 ∨
      ∃ k : Nat, (tp.send_nointr data 0).1 = (k : Int) ∧ k ≤ data.length ∧
        (tp.send_nointr data 0).2.wire = tp.wire ++ data.take k) := by
  unfold TCPTransport.send_nointr
  by_cases hl : data.length = 0
  · rw [if_pos hl]
    exact ⟨rfl, rfl, rfl, Or.inr ⟨0, rfl, Nat.zero_le _, by simp⟩⟩
  · rw [if_neg hl]
    refine ⟨rfl, rfl, rfl, ?_⟩
    rcases send_loop_spec data 0 tp.wire tp.sock 0 tp.wire (by omega) (by simp) with h | h
    · exact Or.inl h
    · obtain ⟨k, hk1, _, hk3, hk4⟩ := h
      exact Or.inr ⟨k, hk1, hk3, by simpa using hk4⟩

/-- The header built from a length below 2^32 holds its four big-endian
bytes. -/
theorem TCPTransportHdr_of_len (l : Nat) (hl : l < 4294967296) :
    TCPTransportHdr.of_len l = some { raw := be32 l, len := l } := by
  unfold TCPTransportHdr.of_len write_uint32
  simp [Nat.mod_eq_of_lt hl]

/-- The sender's buffer after the header of four bytes was prepended and
rolled back. -/
theorem rollback_prepend (wb : WriteBuf) (l : Nat) :
    (wb.prepend_hdr (be32 l) TCPTransportHdr.get_raw_len).rollback_hdr
      TCPTransportHdr.get_raw_len = wb := by
  unfold WriteBuf.prepend_hdr WriteBuf.rollback_hdr TCPTransportHdr.get_raw_len be32
  simp

/-- What handle_down does once the transport is connected and has room, `tp1`
being the transport after the contention loop and `wb1` the buffer with the
header prepended: it returns 0 or EPIPE, and when it returns 0 the bytes that
the peer receives are those it was to receive before, followed by the header
and by the bytes of the buffer. -/
theorem handle_down_send (tp1 : TCPTransport) (wb1 : WriteBuf) (rc : Int)
    (tp' : TCPTransport)
    (hres : (if tp1.pending.length ≠ 0 then
          (0, { tp1 with pending := tp1.pending ++ [(wb1, 0)]
                         pending_bytes := tp1.pending_bytes + wb1.get_totlen })
        else
          if (tp1.send_nointr wb1.hdr 0).1 = -1 then (EPIPE, (tp1.send_nointr wb1.hdr 0).2)
          else if (tp1.send_nointr wb1.hdr 0).1 ≠ (wb1.get_hdrlen : Int) then
            (0, { (tp1.send_nointr wb1.hdr 0).2 with
                  pending := (tp1.send_nointr wb1.hdr 0).2.pending ++
                    [(wb1, (tp1.send_nointr wb1.hdr 0).1.toNat)]
                  pending_bytes := (tp1.send_nointr wb1.hdr 0).2.pending_bytes +
                    wb1.get_totlen })
          else
            if ((tp1.send_nointr wb1.hdr 0).2.send_nointr wb1.buf 0).1 = -1 then
              (EPIPE, ((tp1.send_nointr wb1.hdr 0).2.send_nointr wb1.buf 0).2)
            else if (tp1.send_nointr wb1.hdr 0).1 +
                ((tp1.send_nointr wb1.hdr 0).2.send_nointr wb1.buf 0).1 ≠
                ((wb1.get_len + wb1.get_hdrlen : Nat) : Int) then
              (0, { ((tp1.send_nointr wb1.hdr 0).2.send_nointr wb1.buf 0).2 with
                    pending := ((tp1.send_nointr wb1.hdr 0).2.send_nointr wb1.buf 0).2.pending ++
                      [(wb1, ((tp1.send_nointr wb1.hdr 0).1 +
                        ((tp1.send_nointr wb1.hdr 0).2.send_nointr wb1.buf 0).1).toNat)]
                    pending_bytes :=
                      ((tp1.send_nointr wb1.hdr 0).2.send_nointr wb1.buf 0).2.pending_bytes +
                        wb1.get_totlen })
            else (0, ((tp1.send_nointr wb1.hdr 0).2.send_nointr wb1.buf 0).2)) = (rc, tp')) :
    (rc = 0 ∨ rc = EPIPE) ∧
    (rc = 0 → tp'.outgoing = tp1.outgoing ++ (wb1.hdr ++ wb1.buf)) := by
  by_cases hp : tp1.pending.length ≠ 0
  · rw [if_pos hp] at hres
    injection hres with h1 h2
    subst h1; subst h2
    refine ⟨Or.inl rfl, fun _ => ?_⟩
    simp [TCPTransport.outgoing]
  · rw [if_neg hp] at hres
    have hpn : tp1.pending = [] := List.length_eq_zero.1 (by omega)
    obtain ⟨_, hp1, _, hs1⟩ := send_nointr_spec tp1 wb1.hdr
    by_cases h1 : (tp1.send_nointr wb1.hdr 0).1 = -1
    · rw [if_pos h1] at hres
      injection hres with h1 h2
      subst h1
      exact ⟨Or.inr rfl, fun h => by simp [EPIPE] at h⟩
    · rw [if_neg h1] at hres
      rcases hs1 with hs1 | ⟨k1, hk1, hk1l, hw1⟩
      · exact absurd hs1 h1
      · by_cases h2 : (tp1.send_nointr wb1.hdr 0).1 ≠ (wb1.get_hdrlen : Int)
        · rw [if_pos h2] at hres
          injection hres with h3 h4
          subst h3; subst h4
          refine ⟨Or.inl rfl, fun _ => ?_⟩
          simp only [TCPTransport.outgoing, hp1, hpn, hw1, hk1, Int.toNat_ofNat,
            List.nil_append, List.map_cons, List.map_nil, List.flatten_cons,
            List.flatten_nil, List.append_nil]
          rw [List.append_assoc, List.drop_append_of_le_length hk1l, ← List.append_assoc
            (wb1.hdr.take k1), List.take_append_drop]
        · rw [if_neg h2] at hres
          have hk1e : k1 = wb1.hdr.length := by
            have : (tp1.send_nointr wb1.hdr 0).1 = (wb1.get_hdrlen : Int) := by
              by_contra hc; exact h2 hc
            rw [hk1] at this
            exact Int.ofNat.inj this
          obtain ⟨_, hp2, _, hs2⟩ := send_nointr_spec (tp1.send_nointr wb1.hdr 0).2 wb1.buf
          by_cases h5 : ((tp1.send_nointr wb1.hdr 0).2.send_nointr wb1.buf 0).1 = -1
          · rw [if_pos h5] at hres
            injection hres with h6 h7
            subst h6
            exact ⟨Or.inr rfl, fun h => by simp [EPIPE] at h⟩
          · rw [if_neg h5] at hres
            rcases hs2 with hs2 | ⟨k2, hk2, hk2l, hw2⟩
            · exact absurd hs2 h5
            · have hw1' : (tp1.send_nointr wb1.hdr 0).2.wire = tp1.wire ++ wb1.hdr := by
                rw [hw1, hk1e, List.take_length]
              by_cases h8 : (tp1.send_nointr wb1.hdr 0).1 +
                  ((tp1.send_nointr wb1.hdr 0).2.send_nointr wb1.buf 0).1 ≠
                  ((wb1.get_len + wb1.get_hdrlen : Nat) : Int)
              · rw [if_pos h8] at hres
                injection hres with h9 h10
                subst h9; subst h10
                refine ⟨Or.inl rfl, fun _ => ?_⟩
                have hsum : ((k1 : Int) + (k2 : Int)).toNat = wb1.hdr.length + k2 := by
                  rw [hk1e]; omega
                simp only [TCPTransport.outgoing, hp2, hp1, hpn, hw2, hw1', hk1, hk2, hsum,
                  List.nil_append, List.map_cons, List.map_nil, List.flatten_cons,
                  List.flatten_nil, List.append_nil]
                rw [List.drop_append_eq_append_drop, List.drop_eq_nil_of_le (by omega),
                  List.nil_append, Nat.add_sub_cancel_left, List.append_assoc,
                  List.append_assoc, List.take_append_drop]
              · rw [if_neg h8] at hres
                injection hres with h9 h10
                subst h9; subst h10
                refine ⟨Or.inl rfl, fun _ => ?_⟩
                have hk2e : k2 = wb1.buf.length := by
                  have : (tp1.send_nointr wb1.hdr 0).1 +
                      ((tp1.send_nointr wb1.hdr 0).2.send_nointr wb1.buf 0).1 =
                      ((wb1.get_len + wb1.get_hdrlen : Nat) : Int) := by
                    by_contra hc; exact h8 hc
                  rw [hk1, hk2, hk1e] at this
                  unfold WriteBuf.get_len WriteBuf.get_hdrlen at this
                  omega
                simp only [TCPTransport.outgoing, hp2, hp1, hpn, hw2, hw1',
                  List.map_nil, List.flatten_nil, List.append_nil]
                rw [hk2e, List.take_length, List.append_assoc]

/-- C25. For every payload length `L` below 2^32: the header built from `L`
is four bytes that hold `L` in big-endian order; the header built from a
buffer that has those four bytes at `offset` has length `L`; the decoding is
rejected whenever `buflen < offset + 4`. For every buffer of total length `L`
handed to handle_down, the call returns 0, ENOTCONN, EAGAIN or EPIPE with the
header rolled back from the buffer of the sender, and when it returns 0 the
peer is to receive, after what it was to receive before, the four bytes of `L`
followed by the `L` bytes of the buffer. -/
theorem tcp_framing (L : Nat) (hL : L < 4294967296) :
    TCPTransportHdr.of_len L = some { raw := be32 L, len := L } ∧
    be32 L = [L / 16777216 % 256, L / 65536 % 256, L / 256 % 256, L % 256] ∧
    (∀ buf buflen offset, offset + 4 ≤ buflen → buflen < SIZE_RANGE →
      (buf.drop offset).take 4 = be32 L →
      TCPTransportHdr.of_buf buf buflen offset = some { raw := be32 L, len := L }) ∧
    (∀ buf buflen offset, buflen < offset + 4 → offset + 4 < SIZE_RANGE →
      TCPTransportHdr.of_buf buf buflen offset = none) ∧
    (∀ (poll_out : TCPTransport → TCPTransport) (tp : TCPTransport) (wb : WriteBuf),
      wb.get_totlen = L →
      ∃ rc tp', TCPTransport.handle_down poll_out tp wb = some (rc, tp', wb) ∧
        (rc = 0 ∨ rc = ENOTCONN ∨ rc = EAGAIN ∨ rc = EPIPE) ∧
        (rc = 0 →
          tp'.outgoing =
            (if tp.pending_bytes + wb.get_totlen > tp.max_pending_bytes then
              (if tp.contention_tries > 0 then
                contention_loop poll_out wb.get_totlen tp.contention_tries tp
               else tp)
             else tp).outgoing ++ (be32 L ++ (wb.hdr ++ wb.buf)))) := by
  refine ⟨TCPTransportHdr_of_len L hL, rfl, ?_, ?_, ?_⟩
  · intro buf buflen offset ho hb hraw
    have hmod : (4 + offset) % SIZE_RANGE = 4 + offset := Nat.mod_eq_of_lt (by omega)
    have h1 : ¬ buflen < (4 + offset) % SIZE_RANGE := by rw [hmod]; omega
    have h2 : ¬ (4 < 0 + 4) := by omega
    have h3 : (be32 L).take 4 = be32 L := rfl
    have h4 : ¬ (0 + 4 = 0) := by omega
    simp only [TCPTransportHdr.of_buf, if_neg h1, hraw, read_uint32, if_neg h2,
      List.drop_zero, h3, of_be32_be32 L hL, if_neg h4]
  · intro buf buflen offset hlt hb
    have hmod : (4 + offset) % SIZE_RANGE = 4 + offset := Nat.mod_eq_of_lt (by omega)
    have h1 : buflen < (4 + offset) % SIZE_RANGE := by rw [hmod]; omega
    simp only [TCPTransportHdr.of_buf, if_pos h1]
  · intro poll_out tp wb hwb
    subst hwb
    unfold TCPTransport.handle_down
    by_cases hst : tp.state ≠ TransportState.TRANSPORT_S_CONNECTED
    · rw [if_pos hst]
      exact ⟨ENOTCONN, tp, rfl, Or.inr (Or.inl rfl), fun h => by simp [ENOTCONN] at h⟩
    · rw [if_neg hst]
      generalize (if tp.pending_bytes + wb.get_totlen > tp.max_pending_bytes then
          (if tp.contention_tries > 0 then
            contention_loop poll_out wb.get_totlen tp.contention_tries tp
           else tp)
         else tp) = tp1
      simp only
      by_cases hag : tp.pending_bytes + wb.get_totlen > tp.max_pending_bytes ∧
          tp1.pending_bytes + wb.get_totlen > tp1.max_pending_bytes
      · rw [if_pos hag]
        exact ⟨EAGAIN, tp1, rfl, Or.inr (Or.inr (Or.inl rfl)), fun h => by simp [EAGAIN] at h⟩
      · rw [if_neg hag, TCPTransportHdr_of_len _ hL]
        simp only [rollback_prepend]
        have hwb1 : wb.prepend_hdr (be32 wb.get_totlen) TCPTransportHdr.get_raw_len =
            { hdr := be32 wb.get_totlen ++ wb.hdr, buf := wb.buf } := by
          unfold WriteBuf.prepend_hdr TCPTransportHdr.get_raw_len be32
          simp
        rw [hwb1]
        split
        · next hp =>
          obtain ⟨h1, h2⟩ := handle_down_send tp1
            { hdr := be32 wb.get_totlen ++ wb.hdr, buf := wb.buf } 0 _
            (by rw [if_pos hp])
          refine ⟨0, _, rfl, Or.inl rfl, fun h => ?_⟩
          rw [h2 h, List.append_assoc]
        · next hp =>
          split
          · next h1 =>
            exact ⟨EPIPE, _, rfl, Or.inr (Or.inr (Or.inr rfl)), fun h => by simp [EPIPE] at h⟩
          · next h1 =>
            split
            · next h2 =>
              obtain ⟨_, h4⟩ := handle_down_send tp1
                { hdr := be32 wb.get_totlen ++ wb.hdr, buf := wb.buf } 0 _
                (by rw [if_neg hp, if_neg h1, if_pos h2])
              refine ⟨0, _, rfl, Or.inl rfl, fun h => ?_⟩
              rw [h4 h, List.append_assoc]
            · next h2 =>
              split
              · next h5 =>
                exact ⟨EPIPE, _, rfl, Or.inr (Or.inr (Or.inr rfl)),
                  fun h => by simp [EPIPE] at h⟩
              · next h5 =>
                split
                · next h8 =>
                  obtain ⟨_, h4⟩ := handle_down_send tp1
                    { hdr := be32 wb.get_totlen ++ wb.hdr, buf := wb.buf } 0 _
                    (by rw [if_neg hp, if_neg h1, if_neg h2, if_neg h5, if_pos h8])
                  refine ⟨0, _, rfl, Or.inl rfl, fun h => ?_⟩
                  rw [h4 h, List.append_assoc]
                · next h8 =>
                  obtain ⟨_, h4⟩ := handle_down_send tp1
                    { hdr := be32 wb.get_totlen ++ wb.hdr, buf := wb.buf } 0 _
                    (by rw [if_neg hp, if_neg h1, if_neg h2, if_neg h5, if_neg h8])
                  refine ⟨0, _, rfl, Or.inl rfl, fun h => ?_⟩
                  rw [h4 h, List.append_assoc]

/-- Witness of C25: a buffer of one header byte and seven payload bytes,
`L = 8`, sent on a socket that accepts three bytes, then two, then would
block. The call returns 0, five bytes are on the wire, the rest is pending,
and the peer is to receive `0 0 0 8` followed by the eight bytes. -/
theorem tcp_framing_witness :
    (TCPTransport.handle_down id tcp_ex1 ⟨[9], [1, 2, 3, 4, 5, 6, 7]⟩).map
        (fun r => (r.1, r.2.1.wire, r.2.1.outgoing)) =
      some (0, [0, 0, 0, 8, 9], [0, 0, 0, 8, 9, 1, 2, 3, 4, 5, 6, 7]) ∧
    ∃ rc tp', TCPTransport.handle_down id tcp_ex1 ⟨[9], [1, 2, 3, 4, 5, 6, 7]⟩ =
        some (rc, tp', ⟨[9], [1, 2, 3, 4, 5, 6, 7]⟩) ∧
      (rc = 0 ∨ rc = ENOTCONN ∨ rc = EAGAIN ∨ rc = EPIPE) ∧
      (rc = 0 →
        tp'.outgoing =
          (if tcp_ex1.pending_bytes + (⟨[9], [1, 2, 3, 4, 5, 6, 7]⟩ : WriteBuf).get_totlen >
              tcp_ex1.max_pending_bytes then
            (if tcp_ex1.contention_tries > 0 then
              contention_loop id (⟨[9], [1, 2, 3, 4, 5, 6, 7]⟩ : WriteBuf).get_totlen
                tcp_ex1.contention_tries tcp_ex1
             else tcp_ex1)
           else tcp_ex1).outgoing ++
            (be32 8 ++ ((⟨[9], [1, 2, 3, 4, 5, 6, 7]⟩ : WriteBuf).hdr ++
              (⟨[9], [1, 2, 3, 4, 5, 6, 7]⟩ : WriteBuf).buf))) :=
  ⟨by decide,
   (tcp_framing 8 (by decide)).2.2.2.2 id tcp_ex1 ⟨[9], [1, 2, 3, 4, 5, 6, 7]⟩ (by decide)⟩

/-- Reading an address that was released or written elsewhere. -/
theorem mem_get_free_ne (mem : List (Nat × gcs_queue_memb_t)) (a b : Nat) (h : b ≠ a) :
    mem_get (mem_free mem a) b = mem_get mem b := by
  have hf : (mem.filter (fun p => !decide (p.1 = a))).find? (fun p => decide (p.1 = b)) =
      mem.find? (fun p => decide (p.1 = b)) := by
    induction mem with
    | nil => rfl
    | cons p ps ih =>
      by_cases hp : p.1 = a
      · have hb : ¬ p.1 = b := by rw [hp]; exact fun e => h e.symm
        rw [List.filter_cons, List.find?_cons]
        simp only [hp, decide_True, Bool.not_true, Bool.false_eq_true, if_false]
        rw [hp] at hb
        simp only [hb, decide_False]
        exact ih
      · rw [List.filter_cons]
        simp only [hp, decide_False, Bool.not_false, if_true]
        rw [List.find?_cons, List.find?_cons, ih]
  unfold mem_get mem_free
  rw [hf]

/-- Reading the address just written. -/
theorem mem_get_set_self (mem : List (Nat × gcs_queue_memb_t)) (a : Nat)
    (m : gcs_queue_memb_t) : mem_get (mem_set mem a m) a = some m := by
  unfold mem_get mem_set
  simp

/-- Reading another address than the one just written. -/
theorem mem_get_set_ne (mem : List (Nat × gcs_queue_memb_t)) (a b : Nat)
    (m : gcs_queue_memb_t) (h : b ≠ a) : mem_get (mem_set mem a m) b = mem_get mem b := by
  have := mem_get_free_ne mem a b h
  unfold mem_get mem_set at *
  have hab : ¬ a = b := fun e => h e.symm
  simp only [List.find?_cons, hab, decide_False]
  exact this

/-- A chain is the same in a memory that agrees on its addresses. -/
theorem q_chain_congr (mem mem' : List (Nat × gcs_queue_memb_t)) :
    ∀ (nodes : List (Nat × dummy_msg_t)) (p e : Option Nat),
      (∀ n ∈ nodes, mem_get mem' n.1 = mem_get mem n.1) →
      q_chain mem p nodes e → q_chain mem' p nodes e := by
  intro nodes
  induction nodes with
  | nil => intro p e _ h; exact h
  | cons n rest ih =>
    intro p e hag h
    obtain ⟨a, d⟩ := n
    obtain ⟨hp, nx, hm, hr⟩ := h
    refine ⟨hp, nx, ?_, ih nx e (fun n hn => hag n (List.mem_cons_of_mem _ hn)) hr⟩
    rw [hag (a, d) (List.mem_cons_self _ _)]
    exact hm

/-- Every member of a chain is stored at its address. -/
theorem q_chain_mem (mem : List (Nat × gcs_queue_memb_t)) :
    ∀ (nodes : List (Nat × dummy_msg_t)) (p e : Option Nat),
      q_chain mem p nodes e →
      ∀ n ∈ nodes, ∃ nx, mem_get mem n.1 = some { data := n.2, next := nx } := by
  intro nodes
  induction nodes with
  | nil => intro p e _ n hn; cases hn
  | cons n0 rest ih =>
    intro p e h n hn
    obtain ⟨a, d⟩ := n0
    obtain ⟨_, nx, hm, hr⟩ := h
    rcases List.mem_cons.1 hn with rfl | hn
    · exact ⟨nx, hm⟩
    · exact ih nx e hr n hn

/-- Two chains in a row make one chain. -/
theorem q_chain_append (mem : List (Nat × gcs_queue_memb_t)) :
    ∀ (n1 n2 : List (Nat × dummy_msg_t)) (p e1 e2 : Option Nat),
      q_chain mem p n1 e1 → q_chain mem e1 n2 e2 → q_chain mem p (n1 ++ n2) e2 := by
  intro n1
  induction n1 with
  | nil =>
    intro n2 p e1 e2 h1 h2
    have : p = e1 := h1
    subst this
    exact h2
  | cons n rest ih =>
    intro n2 p e1 e2 h1 h2
    obtain ⟨a, d⟩ := n
    obtain ⟨hp, nx, hm, hr⟩ := h1
    exact ⟨hp, nx, hm, ih n2 nx e1 e2 hr h2⟩

/-- The assignment `tail->next = memb` on a chain that ends with NULL: the
chain then ends with `memb`. -/
theorem q_chain_link (mem : List (Nat × gcs_queue_memb_t)) (t : Nat) (dt : dummy_msg_t)
    (a : Option Nat) :
    ∀ (nodes : List (Nat × dummy_msg_t)) (p : Option Nat),
      q_chain mem p nodes none → nodes.getLast? = some (t, dt) →
      (nodes.map (fun n => n.1)).Nodup →
      mem_get mem t = some { data := dt, next := none } ∧
      q_chain (mem_set mem t { data := dt, next := a }) p nodes a := by
  intro nodes
  induction nodes with
  | nil => intro p _ hl _; cases hl
  | cons n rest ih =>
    intro p h hl hnd
    obtain ⟨x, d⟩ := n
    obtain ⟨hp, nx, hm, hr⟩ := h
    cases rest with
    | nil =>
      simp only [List.getLast?_singleton, Option.some.injEq, Prod.mk.injEq] at hl
      obtain ⟨rfl, rfl⟩ := hl
      have hnx : nx = none := hr
      subst hnx
      exact ⟨hm, hp, a, mem_get_set_self _ _ _, rfl⟩
    | cons n2 rest2 =>
      have hl' : (n2 :: rest2).getLast? = some (t, dt) := by
        rw [List.getLast?_cons_cons] at hl; exact hl
      have hnd' : ((n2 :: rest2).map (fun n => n.1)).Nodup := (List.nodup_cons.1 hnd).2
      obtain ⟨h1, h2⟩ := ih nx hr hl' hnd'
      refine ⟨h1, hp, nx, ?_, h2⟩
      have hxt : x ≠ t := by
        intro hxt
        apply (List.nodup_cons.1 hnd).1
        have hmem : (t, dt) ∈ (n2 :: rest2) := List.mem_of_getLast?_eq_some hl'
        rw [hxt]
        exact List.mem_map.2 ⟨(t, dt), hmem, rfl⟩
      rw [mem_get_set_ne _ _ _ _ hxt]
      exact hm

/-- Function gcs_queue_push, with a new member at an address that is not in
use, returns 0 and puts the data at the tail of the queue; the addresses that
were not in use, the new one apart, are still not in use. -/
theorem gcs_queue_push_wf (q : gcs_queue_t) (nodes : List (Nat × dummy_msg_t))
    (d : dummy_msg_t) (a : Nat) (hwf : q_wf q nodes) (hfresh : mem_get q.mem a = none) :
    ∃ q', gcs_queue_push q d (some a) = (0, q') ∧ q_wf q' (nodes ++ [(a, d)]) ∧
      ∀ b, b ≠ a → mem_get q.mem b = none → mem_get q'.mem b = none := by
  obtain ⟨herr, hch, htl, hnd⟩ := hwf
  have hmem := q_chain_mem q.mem nodes q.head none hch
  have hna : ∀ n ∈ nodes, n.1 ≠ a := by
    intro n hn he
    obtain ⟨nx, hm⟩ := hmem n hn
    rw [he, hfresh] at hm
    cases hm
  have hch1 : q_chain (mem_set q.mem a { data := d, next := none }) q.head nodes none :=
    q_chain_congr q.mem _ nodes q.head none
      (fun n hn => mem_get_set_ne _ _ _ _ (hna n hn)) hch
  have hnd' : ((nodes ++ [(a, d)]).map (fun n => n.1)).Nodup := by
    rw [List.map_append, List.nodup_append]
    refine ⟨hnd, List.nodup_singleton _, ?_⟩
    intro x hx1 hx2
    simp only [List.map_cons, List.map_nil, List.mem_singleton] at hx2
    obtain ⟨n, hn, hnx⟩ := List.mem_map.1 hx1
    exact hna n hn (hnx.trans hx2)
  have hlast : some a = ((nodes ++ [(a, d)]).getLast?).map (fun n => n.1) := by
    rw [List.getLast?_append]; rfl
  cases hnl : nodes.getLast? with
  | none =>
    have hnil : nodes = [] := List.getLast?_eq_none_iff.1 hnl
    subst hnil
    have hh : q.head = none := hch
    have ht : q.tail = none := by rw [htl]; rfl
    have hchain : q_chain (mem_set q.mem a { data := d, next := none }) (some a)
        ([] ++ [(a, d)]) none := ⟨rfl, none, mem_get_set_self _ _ _, rfl⟩
    have hkeep : ∀ b, b ≠ a → mem_get q.mem b = none →
        mem_get (mem_set q.mem a { data := d, next := none }) b = none := by
      intro b hb hn
      rw [mem_get_set_ne _ _ _ _ hb]; exact hn
    by_cases hn : q.next = none
    · refine ⟨{ mem := mem_set q.mem a { data := d, next := none }, head := some a,
                next := some a, tail := some a, err := 0 }, ?_, ⟨rfl, hchain, hlast, hnd'⟩,
        hkeep⟩
      simp only [gcs_queue_push, herr, ht, hn, if_true]
    · refine ⟨{ mem := mem_set q.mem a { data := d, next := none }, head := some a,
                next := q.next, tail := some a, err := 0 }, ?_, ⟨rfl, hchain, hlast, hnd'⟩,
        hkeep⟩
      simp only [gcs_queue_push, herr, ht, hn, if_true, if_false]
  | some tl =>
    obtain ⟨t, dt⟩ := tl
    have ht : q.tail = some t := by rw [htl, hnl]; rfl
    obtain ⟨hmt, hlink⟩ := q_chain_link (mem_set q.mem a { data := d, next := none }) t dt
      (some a) nodes q.head hch1 hnl hnd
    have hta : t ≠ a := hna (t, dt) (List.mem_of_getLast?_eq_some hnl)
    have hchain : q_chain
        (mem_set (mem_set q.mem a { data := d, next := none }) t { data := dt, next := some a })
        q.head (nodes ++ [(a, d)]) none := by
      refine q_chain_append _ nodes [(a, d)] q.head (some a) none hlink ?_
      refine ⟨rfl, none, ?_, rfl⟩
      rw [mem_get_set_ne _ _ _ _ (fun e => hta e.symm)]
      exact mem_get_set_self _ _ _
    have hkeep : ∀ b, b ≠ a → mem_get q.mem b = none →
        mem_get (mem_set (mem_set q.mem a { data := d, next := none }) t
          { data := dt, next := some a }) b = none := by
      intro b hb hn
      have hbt : b ≠ t := by
        intro e
        obtain ⟨nx, hm⟩ := hmem (t, dt) (List.mem_of_getLast?_eq_some hnl)
        rw [← e, hn] at hm
        cases hm
      rw [mem_get_set_ne _ _ _ _ hbt, mem_get_set_ne _ _ _ _ hb]; exact hn
    by_cases hn : q.next = none
    · refine ⟨{ mem := mem_set (mem_set q.mem a { data := d, next := none }) t
                  { data := dt, next := some a },
                head := q.head, next := some a, tail := some a, err := 0 }, ?_,
        ⟨rfl, hchain, hlast, hnd'⟩, hkeep⟩
      simp only [gcs_queue_push, herr, ht, hmt, hn, if_true]
    · refine ⟨{ mem := mem_set (mem_set q.mem a { data := d, next := none }) t
                  { data := dt, next := some a },
                head := q.head, next := q.next, tail := some a, err := 0 }, ?_,
        ⟨rfl, hchain, hlast, hnd'⟩, hkeep⟩
      simp only [gcs_queue_push, herr, ht, hmt, hn, if_true, if_false]

/-- Function gcs_queue_pop_wait on a queue that is not empty returns 0 with
the data at the head and leaves the rest of the queue. -/
theorem gcs_queue_pop_wait_wf (q : gcs_queue_t) (a : Nat) (d : dummy_msg_t)
    (rest : List (Nat × dummy_msg_t)) (hwf : q_wf q ((a, d) :: rest)) :
    ∃ q', gcs_queue_pop_wait q = some (0, some d, q') ∧ q_wf q' rest := by
  obtain ⟨herr, hch, htl, hnd⟩ := hwf
  obtain ⟨hh, nx, hm, hr⟩ := hch
  have hnd2 := List.nodup_cons.1 hnd
  have hchr : q_chain (mem_free q.mem a) nx rest none :=
    q_chain_congr q.mem _ rest nx none (fun n hn => mem_get_free_ne _ _ _ (by
      intro he
      apply hnd2.1
      rw [← he]
      exact List.mem_map.2 ⟨n, hn, rfl⟩)) hr
  have hne : ¬ (q.head = none ∧ q.err = 0) := by rw [hh]; simp
  cases rest with
  | nil =>
    have hnx : nx = none := hr
    subst hnx
    by_cases hn : q.next = some a
    · refine ⟨{ mem := mem_free q.mem a, head := none, next := none, tail := none, err := 0 },
        ?_, rfl, hchr, rfl, List.nodup_nil⟩
      simp only [gcs_queue_pop_wait, if_neg hne, hh, hm, hn, if_true, herr]
      simp
    · refine ⟨{ mem := mem_free q.mem a, head := none, next := q.next, tail := none, err := 0 },
        ?_, rfl, hchr, rfl, List.nodup_nil⟩
      simp only [gcs_queue_pop_wait, if_neg hne, hh, hm, hn, if_true, if_false, herr]
      simp
  | cons n2 rest2 =>
    obtain ⟨x, dx⟩ := n2
    have hnx : nx = some x := hr.1
    subst hnx
    have htl' : q.tail = (((x, dx) :: rest2).getLast?).map (fun n => n.1) := by
      rw [htl, List.getLast?_cons_cons]
    have hsn : ¬ (some x = (none : Option Nat)) := by simp
    by_cases hn : q.next = some a
    · refine ⟨{ mem := mem_free q.mem a, head := some x, next := some x, tail := q.tail,
                err := 0 }, ?_, rfl, hchr, htl', hnd2.2⟩
      simp only [gcs_queue_pop_wait, if_neg hne, hh, hm, hn, if_true, if_neg hsn, herr]
      simp
    · refine ⟨{ mem := mem_free q.mem a, head := some x, next := q.next, tail := q.tail,
                err := 0 }, ?_, rfl, hchr, htl', hnd2.2⟩
      simp only [gcs_queue_pop_wait, if_neg hne, hh, hm, hn, if_false, if_neg hsn, herr]
      simp

/-- Function gcs_queue_pop_wait waits on an empty queue without error. -/
theorem gcs_queue_pop_wait_empty (q : gcs_queue_t) (hwf : q_wf q []) :
    gcs_queue_pop_wait q = none := by
  obtain ⟨herr, hch, _, _⟩ := hwf
  have hh : q.head = none := hch
  unfold gcs_queue_pop_wait
  rw [if_pos ⟨hh, herr⟩]

/-- Function dummy_send, its allocations succeeding with a queue member at an
address that is not in use, returns `len` and puts the message behind those
that the connection has still to deliver. -/
theorem dummy_send_pending (c : dummy_t) (ds : List dummy_msg_t) (buf : List Nat)
    (len : Nat) (ty : gcs_msg_type_t) (a : Nat) (hp : dummy_pending c ds)
    (hfresh : mem_get c.gc_q.mem a = none) (hlen : len ≤ buf.length) :
    ∃ c', dummy_send (some c) buf len ty true (some a) = ((len : Int), some c') ∧
      dummy_pending c' (ds ++ [dummy_msg_create ty len buf]) ∧
      ∀ b, b ≠ a → mem_get c.gc_q.mem b = none → mem_get c'.gc_q.mem b = none := by
  obtain ⟨⟨nodes, hwf, hds⟩, hlens⟩ := hp
  obtain ⟨q', hpush, hwf', hkeep⟩ :=
    gcs_queue_push_wf c.gc_q nodes (dummy_msg_create ty len buf) a hwf hfresh
  refine ⟨{ c with gc_q := q' }, ?_, ⟨⟨nodes ++ [(a, dummy_msg_create ty len buf)], hwf', ?_⟩,
    ?_⟩, hkeep⟩
  · unfold dummy_send
    simp only [if_true, hpush, ne_eq, not_true_eq_false, if_false]
  · rw [hds, List.map_append, List.append_assoc]; rfl
  · intro m hm
    rcases List.mem_append.1 hm with h | h
    · exact hlens m h
    · rw [List.mem_singleton.1 h]
      simp only [dummy_msg_create, List.length_take]
      omega

/-- Function dummy_recv with a buffer that is long enough returns the length,
the bytes and the type of the first message to deliver, and consumes it. -/
theorem dummy_recv_long (c : dummy_t) (m : dummy_msg_t) (ds : List dummy_msg_t)
    (buf : List Nat) (len : Nat) (hp : dummy_pending c (m :: ds)) (hlen : m.len ≤ len) :
    ∃ c', dummy_recv c buf len =
        some ((m.len : Int), m.buf ++ buf.drop m.len, m.type, 0, c') ∧
      dummy_pending c' ds := by
  obtain ⟨⟨nodes, hwf, hds⟩, hlens⟩ := hp
  have hml : m.buf.take m.len = m.buf := by
    rw [← hlens m (List.mem_cons_self _ _), List.take_length]
  have hrest : ∀ x ∈ ds, x.buf.length = x.len :=
    fun x hx => hlens x (List.mem_cons_of_mem _ hx)
  cases hmsg : c.msg with
  | some m0 =>
    rw [hmsg] at hds
    simp only [Option.toList, List.singleton_append, List.cons.injEq] at hds
    obtain ⟨rfl, hds⟩ := hds
    refine ⟨{ c with msg := none }, ?_, ⟨⟨nodes, hwf, by rw [hds]; rfl⟩, hrest⟩⟩
    unfold dummy_recv
    simp only [hmsg, if_pos hlen, hml]
  | none =>
    rw [hmsg] at hds
    simp only [Option.toList, List.nil_append] at hds
    cases nodes with
    | nil => cases hds
    | cons n rest =>
      obtain ⟨a, d⟩ := n
      simp only [List.map_cons, List.cons.injEq] at hds
      obtain ⟨rfl, hds⟩ := hds
      obtain ⟨q', hpop, hwf'⟩ := gcs_queue_pop_wait_wf c.gc_q a m rest hwf
      refine ⟨{ c with gc_q := q', msg := none }, ?_, ⟨⟨rest, hwf', by rw [hds]; rfl⟩, hrest⟩⟩
      unfold dummy_recv
      simp only [hmsg, hpop, ne_eq, not_true_eq_false, if_false, if_pos hlen, hml]

/-- Function dummy_recv with a buffer shorter than the first message to
deliver returns the full length of the message and does not consume it. -/
theorem dummy_recv_short (c : dummy_t) (m : dummy_msg_t) (ds : List dummy_msg_t)
    (buf : List Nat) (len : Nat) (hp : dummy_pending c (m :: ds)) (hlen : len < m.len) :
    ∃ c', dummy_recv c buf len =
        some ((m.len : Int), m.buf.take len ++ buf.drop len,
          gcs_msg_type_t.GCS_MSG_ERROR, 0, c') ∧
      dummy_pending c' (m :: ds) := by
  obtain ⟨⟨nodes, hwf, hds⟩, hlens⟩ := hp
  have hnl : ¬ m.len ≤ len := by omega
  cases hmsg : c.msg with
  | some m0 =>
    rw [hmsg] at hds
    simp only [Option.toList, List.singleton_append, List.cons.injEq] at hds
    obtain ⟨rfl, hds⟩ := hds
    refine ⟨c, ?_, ⟨⟨nodes, hwf, by rw [hmsg, hds]; rfl⟩, hlens⟩⟩
    unfold dummy_recv
    simp only [hmsg, if_neg hnl]
  | none =>
    rw [hmsg] at hds
    simp only [Option.toList, List.nil_append] at hds
    cases nodes with
    | nil => cases hds
    | cons n rest =>
      obtain ⟨a, d⟩ := n
      simp only [List.map_cons, List.cons.injEq] at hds
      obtain ⟨rfl, hds⟩ := hds
      obtain ⟨q', hpop, hwf'⟩ := gcs_queue_pop_wait_wf c.gc_q a m rest hwf
      refine ⟨{ c with gc_q := q', msg := some m }, ?_,
        ⟨⟨rest, hwf', by rw [hds]; rfl⟩, hlens⟩⟩
      unfold dummy_recv
      simp only [hmsg, hpop, ne_eq, not_true_eq_false, if_false, if_neg hnl]

/-- Function dummy_recv waits when the connection has nothing to deliver. -/
theorem dummy_recv_empty (c : dummy_t) (buf : List Nat) (len : Nat)
    (hp : dummy_pending c []) : dummy_recv c buf len = none := by
  obtain ⟨⟨nodes, hwf, hds⟩, _⟩ := hp
  cases hmsg : c.msg with
  | some m0 => rw [hmsg] at hds; cases hds
  | none =>
    rw [hmsg] at hds
    simp only [Option.toList, List.nil_append] at hds
    have hn : nodes = [] := List.map_eq_nil_iff.1 hds.symm
    subst hn
    unfold dummy_recv
    simp only [hmsg, gcs_queue_pop_wait_empty c.gc_q hwf]

/-- Successive sends, each with a queue member at an address of its own that
is not in use, all return the length of their message and put the messages, in
order, behind those that the connection has still to deliver. -/
theorem dummy_send_list_pending :
    ∀ (msgs : List (gcs_msg_type_t × List Nat × Nat)) (c : dummy_t)
      (ds : List dummy_msg_t), dummy_pending c ds →
      (msgs.map (fun x => x.2.2)).Nodup →
      (∀ x ∈ msgs, mem_get c.gc_q.mem x.2.2 = none) →
      ∃ c1, dummy_send_list (some c) msgs = some c1 ∧
        dummy_pending c1
          (ds ++ msgs.map (fun x => { type := x.1, len := x.2.1.length, buf := x.2.1 })) := by
  intro msgs
  induction msgs with
  | nil => intro c ds hp _ _; exact ⟨c, rfl, by simpa using hp⟩
  | cons x rest ih =>
    intro c ds hp hnd hfr
    obtain ⟨ty, bytes, a⟩ := x
    obtain ⟨c', hs, hp', hkeep⟩ := dummy_send_pending c ds bytes bytes.length ty a hp
      (hfr _ (List.mem_cons_self _ _)) (Nat.le_refl _)
    have hnd2 := List.nodup_cons.1 hnd
    obtain ⟨c1, hs1, hp1⟩ := ih c' _ hp' hnd2.2 (fun y hy => hkeep _ (by
      intro e
      apply hnd2.1
      simp only
      rw [← e]
      exact List.mem_map.2 ⟨y, hy, rfl⟩) (hfr y (List.mem_cons_of_mem _ hy)))
    refine ⟨c1, ?_, ?_⟩
    · unfold dummy_send_list
      simp only [hs, if_true]
      exact hs1
    · have hc : dummy_msg_create ty bytes.length bytes =
          { type := ty, len := bytes.length, buf := bytes } := by
        simp [dummy_msg_create]
      rw [hc] at hp1
      simpa using hp1

/-- Successive receives with a buffer long enough for every message deliver
the messages that the connection had to deliver, in order, each once, and
leave nothing to deliver. -/
theorem dummy_recv_list_pending (len : Nat) :
    ∀ (ds : List dummy_msg_t) (c : dummy_t), dummy_pending c ds →
      (∀ m ∈ ds, m.len ≤ len) →
      ∃ c2, dummy_recv_list len ds.length c =
          (ds.map (fun m => ((m.len : Int), m.type, m.buf)), c2) ∧
        dummy_pending c2 [] := by
  intro ds
  induction ds with
  | nil => intro c hp _; exact ⟨c, rfl, hp⟩
  | cons m rest ih =>
    intro c hp hl
    have hml : m.buf.length = m.len := hp.2 m (List.mem_cons_self _ _)
    obtain ⟨c', hr, hp'⟩ := dummy_recv_long c m rest (List.replicate len 0) len hp
      (hl m (List.mem_cons_self _ _))
    obtain ⟨c2, hr2, hp2⟩ := ih c' hp' (fun x hx => hl x (List.mem_cons_of_mem _ hx))
    refine ⟨c2, ?_, hp2⟩
    simp only [List.length_cons, dummy_recv_list, hr, hr2, Int.toNat_ofNat, List.map_cons]
    rw [← hml, List.take_left]

/-- C27. After gcs_dummy_open, which puts one component message in the queue,
and any sequence of sends that succeed, successive calls of dummy_recv with a
buffer at least as long as each message return the component message and then
the messages sent, in the order of the sends, each with its length, its type
and its bytes, each once: the call that follows them waits. A dummy_recv with
a buffer shorter than the first message to deliver returns the full length of
that message and does not consume it. -/
theorem dummy_fifo (pc : List Nat) (page a0 len : Nat)
    (msgs : List (gcs_msg_type_t × List Nat × Nat))
    (hnd : (a0 :: msgs.map (fun x => x.2.2)).Nodup)
    (hpc : pc.length ≤ len) (hlen : ∀ x ∈ msgs, x.2.1.length ≤ len) :
    (∃ c0 c1 c2, gcs_dummy_open (some pc) page true (some a0) = (0, some c0) ∧
      dummy_pending c0
        [{ type := gcs_msg_type_t.GCS_MSG_COMPONENT, len := pc.length, buf := pc }] ∧
      dummy_send_list (some c0) msgs = some c1 ∧
      dummy_recv_list len (msgs.length + 1) c1 =
        (((pc.length : Int), gcs_msg_type_t.GCS_MSG_COMPONENT, pc) ::
          msgs.map (fun x => ((x.2.1.length : Int), x.1, x.2.1)), c2) ∧
      dummy_recv c2 (List.replicate len 0) len = none) ∧
    (∀ (c : dummy_t) (m : dummy_msg_t) (ds : List dummy_msg_t) (buf : List Nat) (l : Nat),
      dummy_pending c (m :: ds) → l < m.len →
      ∃ c', dummy_recv c buf l =
          some ((m.len : Int), m.buf.take l ++ buf.drop l,
            gcs_msg_type_t.GCS_MSG_ERROR, 0, c') ∧
        dummy_pending c' (m :: ds)) := by
  refine ⟨?_, fun c m ds buf l hp hl => dummy_recv_short c m ds buf l hp hl⟩
  have hnd2 := List.nodup_cons.1 hnd
  have hp00 : dummy_pending
      { gc_q := gcs_queue, msg := none, msg_id := 0, msg_max_size := page } [] :=
    ⟨⟨[], ⟨rfl, rfl, rfl, List.nodup_nil⟩, rfl⟩, fun m hm => by cases hm⟩
  obtain ⟨c0, hs0, hp0, hkeep⟩ := dummy_send_pending _ [] pc pc.length
    gcs_msg_type_t.GCS_MSG_COMPONENT a0 hp00 rfl (Nat.le_refl _)
  have hc : dummy_msg_create gcs_msg_type_t.GCS_MSG_COMPONENT pc.length pc =
      { type := gcs_msg_type_t.GCS_MSG_COMPONENT, len := pc.length, buf := pc } := by
    simp [dummy_msg_create]
  rw [hc, List.nil_append] at hp0
  obtain ⟨c1, hs1, hp1⟩ := dummy_send_list_pending msgs c0 _ hp0 hnd2.2 (fun x hx =>
    hkeep _ (by
      intro e
      apply hnd2.1
      rw [← e]
      exact List.mem_map.2 ⟨x, hx, rfl⟩) rfl)
  obtain ⟨c2, hr2, hp2⟩ := dummy_recv_list_pending len _ c1 hp1 (by
    intro m hm
    rcases List.mem_append.1 hm with h | h
    · rw [List.mem_singleton.1 h]; exact hpc
    · obtain ⟨x, hx, rfl⟩ := List.mem_map.1 h
      exact hlen x hx)
  refine ⟨c0, c1, c2, ?_, hp0, hs1, ?_, dummy_recv_empty c2 _ _ hp2⟩
  · unfold gcs_dummy_open
    simp only [hs0]
    rw [if_neg (by omega)]
  · simp only [List.length_append, List.length_singleton, List.length_map,
      List.map_append, List.map_cons, List.map_nil, List.map_map] at hr2
    rw [Nat.add_comm] at hr2
    rw [hr2]
    simp [Function.comp]

/-- Witness of C27: the component message `1 2 3`, then the messages `7 7`
and `8 8 8`, received with buffers of five bytes. -/
theorem dummy_fifo_witness :
    ∃ c0 c1 c2, gcs_dummy_open (some [1, 2, 3]) 4096 true (some 100) = (0, some c0) ∧
      dummy_pending c0
        [{ type := gcs_msg_type_t.GCS_MSG_COMPONENT, len := [1, 2, 3].length,
           buf := [1, 2, 3] }] ∧
      dummy_send_list (some c0)
          [(gcs_msg_type_t.GCS_MSG_OTHER 1, [7, 7], 101),
           (gcs_msg_type_t.GCS_MSG_OTHER 2, [8, 8, 8], 102)] = some c1 ∧
      dummy_recv_list 5
          ([(gcs_msg_type_t.GCS_MSG_OTHER 1, [7, 7], 101),
            (gcs_msg_type_t.GCS_MSG_OTHER 2, [8, 8, 8], 102)].length + 1) c1 =
        (((([1, 2, 3].length : Nat) : Int), gcs_msg_type_t.GCS_MSG_COMPONENT, [1, 2, 3]) ::
          [(gcs_msg_type_t.GCS_MSG_OTHER 1, [7, 7], 101),
           (gcs_msg_type_t.GCS_MSG_OTHER 2, [8, 8, 8], 102)].map
            (fun x => ((x.2.1.length : Int), x.1, x.2.1)), c2) ∧
      dummy_recv c2 (List.replicate 5 0) 5 = none :=
  (dummy_fifo [1, 2, 3] 4096 100 5
    [(gcs_msg_type_t.GCS_MSG_OTHER 1, [7, 7], 101),
     (gcs_msg_type_t.GCS_MSG_OTHER 2, [8, 8, 8], 102)]
    (by decide) (by decide) (by decide)).1


/-! ## wsdb hash -/

/-- The hash function of the test gives a bucket of the table. -/
theorem hash_fun_lt (size max_size len : Nat) (key : List Int) (h : 0 < size) :
    hash_fun size max_size len key < size := by
  unfold hash_fun
  exact Nat.mod_lt _ h

/-- The loop of `hash_cmp` runs to its end on equal keys. -/
theorem hash_cmp_loop_self (a : List Int) : hash_cmp_loop a a = none := by
  induction a with
  | nil => rfl
  | cons x xs ih => simp [hash_cmp_loop, ih]

/-- A value returned from inside the loop of `hash_cmp` is not 0. -/
theorem hash_cmp_loop_some (a b : List Int) (r : Int) (h : hash_cmp_loop a b = some r) :
    r ≠ 0 := by
  induction a generalizing b with
  | nil => simp [hash_cmp_loop] at h
  | cons x xs ih =>
    cases b with
    | nil => simp [hash_cmp_loop] at h
    | cons y ys =>
      simp only [hash_cmp_loop] at h
      split at h
      · simp at h; omega
      · split at h
        · simp at h; omega
        · exact ih ys h

/-- The loop of `hash_cmp` runs to its end on keys of one length only when
they are equal. -/
theorem hash_cmp_loop_none (a b : List Int) (hl : a.length = b.length)
    (h : hash_cmp_loop a b = none) : a = b := by
  induction a generalizing b with
  | nil =>
    cases b with
    | nil => rfl
    | cons y ys => simp at hl
  | cons x xs ih =>
    cases b with
    | nil => simp at hl
    | cons y ys =>
      simp only [hash_cmp_loop] at h
      split at h
      · simp at h
      · split at h
        · simp at h
        · have hxy : x = y := by omega
          have := ih ys (by simpa using hl) h
          rw [hxy, this]

/-- The comparison function of the test is 0 exactly on equal keys. -/
theorem hash_cmp_zero (k1 k2 : List Int) :
    hash_cmp k1.length k1 k2.length k2 = 0 ↔ k1 = k2 := by
  unfold hash_cmp
  rw [List.take_length, List.take_length]
  constructor
  · intro h
    cases hc : hash_cmp_loop k1 k2 with
    | some r =>
      rw [hc] at h
      exact absurd h (hash_cmp_loop_some k1 k2 r hc)
    | none =>
      rw [hc] at h
      simp only at h
      have hl : k1.length = k2.length := by
        by_contra hne
        split at h
        · omega
        · split at h
          · omega
          · omega
      exact hash_cmp_loop_none k1 k2 hl hc
  · intro h
    subst h
    rw [hash_cmp_loop_self]
    simp

/-- The bucket written by an update. -/
theorem getD_set_self (l : List (List hash_entry)) (i : Nat) (b : List hash_entry)
    (h : i < l.length) : (l.set i b).getD i [] = b := by
  simp [List.getD_eq_getElem?_getD, List.getElem?_set, h]

/-- The buckets not written by an update. -/
theorem getD_set_ne (l : List (List hash_entry)) (i j : Nat) (b : List hash_entry)
    (h : i ≠ j) : (l.set i b).getD j [] = l.getD j [] := by
  simp [List.getD_eq_getElem?_getD, List.getElem?_set, h]

/-- The value bound to a key in the map without a key. -/
theorem map_lookup_delete (m : List (List Int × Nat)) (key k : List Int) :
    map_lookup (map_delete m key) k = if k = key then none else map_lookup m k := by
  induction m with
  | nil => simp [map_delete, map_lookup]
  | cons e m ih =>
    obtain ⟨k1, v1⟩ := e
    unfold map_delete at ih ⊢
    by_cases h1 : k1 = key
    · subst h1
      simp only [List.filter, ne_eq, not_true_eq_false, decide_False]
      rw [ih]
      by_cases h2 : k = k1
      · simp [h2]
      · have h3 : ¬ k1 = k := fun h => h2 h.symm
        simp [h2, map_lookup, h3]
    · simp only [List.filter, ne_eq, h1, not_false_eq_true, decide_True, map_lookup]
      rw [ih]
      by_cases h2 : k1 = k
      · have h3 : ¬ k = key := fun h => h1 (h2.trans h)
        simp [h2, h3]
      · simp [h2]

/-- In the bucket of a key the comparison function finds the entries of that
key. -/
theorem bucket_cmp (h : wsdb_hash) (hinv : hash_inv h) (key : List Int) (e : hash_entry)
    (he : e ∈ h.bucket key.length key) :
    h.hash_cmp key.length key e.key_len e.key = 0 ↔ e.key = key := by
  obtain ⟨_, _, hc, hent, _⟩ := hinv
  have h1 := (hent _ e he).1
  rw [h1, hc]
  exact eq_comm

/-- An entry of the bucket of a key that has this key is a binding of it. -/
theorem bucket_entry (h : wsdb_hash) (hinv : hash_inv h) (key : List Int) (e : hash_entry)
    (he : e ∈ h.bucket key.length key) (hk : e.key = key) : hash_binds h key e.data := by
  obtain ⟨_, _, _, hent, _⟩ := hinv
  have h1 := (hent _ e he).1
  unfold hash_binds
  have : e = { key_len := key.length, key := key, data := e.data } := by
    cases e
    simp at h1 hk ⊢
    subst hk
    exact ⟨h1, rfl⟩
  rw [← this]
  exact he

/-- A key is bound to one value. -/
theorem hash_binds_unique (h : wsdb_hash) (hinv : hash_inv h) (key : List Int) (v w : Nat)
    (hv : hash_binds h key v) (hw : hash_binds h key w) : v = w := by
  obtain ⟨_, _, _, _, hnd⟩ := hinv
  have := List.inj_on_of_nodup_map (hnd (h.hash_fun h.max_size key.length key)) hv hw rfl
  simpa using this

/-- The search of a bound key returns its value. -/
theorem wsdb_hash_search_bound (h : wsdb_hash) (hinv : hash_inv h) (key : List Int) (w : Nat)
    (hb : hash_binds h key w) : wsdb_hash_search h key.length key = w := by
  unfold wsdb_hash_search
  cases hf : (h.bucket key.length key).find?
      (fun e => decide (h.hash_cmp key.length key e.key_len e.key = 0)) with
  | none =>
    rw [List.find?_eq_none] at hf
    have := hf _ hb
    simp only [decide_eq_true_eq] at this
    exact absurd ((bucket_cmp h hinv key _ hb).2 rfl) this
  | some e =>
    have hm := List.mem_of_find?_eq_some hf
    have hp := List.find?_some hf
    simp only [decide_eq_true_eq] at hp
    have hk := (bucket_cmp h hinv key e hm).1 hp
    exact hash_binds_unique h hinv key _ _ (bucket_entry h hinv key e hm hk) hb

/-- The search of a key that is not bound returns NULL. -/
theorem wsdb_hash_search_unbound (h : wsdb_hash) (hinv : hash_inv h) (key : List Int)
    (hb : ∀ w, ¬ hash_binds h key w) : wsdb_hash_search h key.length key = 0 := by
  unfold wsdb_hash_search
  cases hf : (h.bucket key.length key).find?
      (fun e => decide (h.hash_cmp key.length key e.key_len e.key = 0)) with
  | none => rfl
  | some e =>
    have hm := List.mem_of_find?_eq_some hf
    have hp := List.find?_some hf
    simp only [decide_eq_true_eq] at hp
    have hk := (bucket_cmp h hinv key e hm).1 hp
    exact absurd (bucket_entry h hinv key e hm hk) (hb _)

/-- The search returns the value that the map binds to the key. -/
theorem wsdb_hash_search_rel (h : wsdb_hash) (m : List (List Int × Nat)) (hr : hash_rel h m)
    (key : List Int) : wsdb_hash_search h key.length key = (map_lookup m key).getD 0 := by
  obtain ⟨hinv, hb⟩ := hr
  cases hl : map_lookup m key with
  | none =>
    simp only [Option.getD_none]
    apply wsdb_hash_search_unbound h hinv
    intro w hw
    rw [hb, hl] at hw
    simp at hw
  | some w =>
    simp only [Option.getD_some]
    exact wsdb_hash_search_bound h hinv key w ((hb key w).2 hl)

/-- The table that `wsdb_hash_open` gives, with the functions of the test,
stands for the empty map. -/
theorem wsdb_hash_open_rel (size : Nat) (hs : 0 < size) :
    hash_rel (wsdb_hash_open size (hash_fun size) hash_cmp) [] := by
  have hget : ∀ i, (List.replicate size ([] : List hash_entry)).getD i [] = [] := by
    intro i
    rw [List.getD_eq_getElem?_getD]
    by_cases hi : i < size
    · simp [List.getElem?_replicate, hi]
    · simp [List.getElem?_replicate, hi]
  refine ⟨⟨?_, ?_, ?_, ?_, ?_⟩, ?_⟩
  · simp [wsdb_hash_open]
  · intro len key
    exact hash_fun_lt size size len key hs
  · intro k1 k2
    exact hash_cmp_zero k1 k2
  · intro i e he
    simp only [wsdb_hash_open] at he
    rw [hget] at he
    simp at he
  · intro i
    simp only [wsdb_hash_open]
    rw [hget]
    simp
  · intro k w
    unfold hash_binds wsdb_hash.bucket
    simp only [wsdb_hash_open]
    rw [hget]
    simp [map_lookup]

/-- A push of a key that is not bound returns `WSDB_OK` and binds the key in
the map, whatever the bucket holds already. -/
theorem wsdb_hash_push_rel (h : wsdb_hash) (m : List (List Int × Nat)) (hr : hash_rel h m)
    (key : List Int) (v : Nat) (hnew : map_lookup m key = none) :
    (wsdb_hash_push h key.length key v).1 = WSDB_OK ∧
    hash_rel (wsdb_hash_push h key.length key v).2 ((key, v) :: m) := by
  obtain ⟨hinv, hb⟩ := hr
  have hinv0 := hinv
  obtain ⟨hlen, hlt, hc, hent, hnd⟩ := hinv
  have hidx : h.hash_fun h.max_size key.length key < h.buckets.length := by
    rw [hlen]
    exact hlt _ _
  have hfresh : ∀ e ∈ h.bucket key.length key, e.key ≠ key := by
    intro e he hk
    have := (hb key e.data).1 (bucket_entry h hinv0 key e he hk)
    rw [hnew] at this
    simp at this
  refine ⟨rfl, ⟨?_, ?_, ?_, ?_, ?_⟩, ?_⟩
  · simp [wsdb_hash_push, hlen]
  · intro len k
    exact hlt len k
  · intro k1 k2
    exact hc k1 k2
  · intro i e he
    simp only [wsdb_hash_push] at he ⊢
    by_cases hi : h.hash_fun h.max_size key.length key = i
    · subst hi
      rw [getD_set_self _ _ _ hidx] at he
      rcases List.mem_cons.1 he with h1 | h1
      · subst h1
        exact ⟨rfl, rfl⟩
      · exact hent _ e h1
    · rw [getD_set_ne _ _ _ _ hi] at he
      exact hent _ e he
  · intro i
    simp only [wsdb_hash_push]
    by_cases hi : h.hash_fun h.max_size key.length key = i
    · subst hi
      rw [getD_set_self _ _ _ hidx]
      rw [List.map_cons, List.nodup_cons]
      refine ⟨?_, hnd _⟩
      intro hmem
      obtain ⟨e, he, hk⟩ := List.mem_map.1 hmem
      exact hfresh e he hk
    · rw [getD_set_ne _ _ _ _ hi]
      exact hnd i
  · intro k w
    have hold := hb k w
    unfold hash_binds wsdb_hash.bucket at hold ⊢
    simp only [wsdb_hash_push, map_lookup]
    by_cases hi : h.hash_fun h.max_size key.length key = h.hash_fun h.max_size k.length k
    · rw [← hi, getD_set_self _ _ _ hidx]
      rw [← hi] at hold
      by_cases hk : key = k
      · subst hk
        simp only [if_true, List.mem_cons, Option.some.injEq]
        constructor
        · intro h1
          rcases h1 with h1 | h1
          · simp at h1
            exact h1.symm
          · have := hold.1 h1
            rw [hnew] at this
            simp at this
        · intro h1
          left
          rw [h1]
      · simp only [hk, if_false, List.mem_cons]
        rw [← hold]
        constructor
        · intro h1
          rcases h1 with h1 | h1
          · simp at h1
            exact absurd h1.2.1.symm hk
          · exact h1
        · intro h1
          exact Or.inr h1
    · rw [getD_set_ne _ _ _ _ hi]
      have hk : ¬ key = k := by
        intro hk
        subst hk
        exact hi rfl
      simp only [hk, if_false]
      exact hold

/-- A delete returns the value that the map binds to the key, NULL when there
is none, and takes the key out of the map; the other bindings stay. -/
theorem wsdb_hash_delete_rel (h : wsdb_hash) (m : List (List Int × Nat)) (hr : hash_rel h m)
    (key : List Int) :
    (wsdb_hash_delete h key.length key).1 = (map_lookup m key).getD 0 ∧
    hash_rel (wsdb_hash_delete h key.length key).2 (map_delete m key) := by
  have hsearch := wsdb_hash_search_rel h m hr key
  obtain ⟨hinv, hb⟩ := hr
  have hinv0 := hinv
  obtain ⟨hlen, hlt, hc, hent, hnd⟩ := hinv
  have hidx : h.hash_fun h.max_size key.length key < h.buckets.length := by
    rw [hlen]
    exact hlt _ _
  refine ⟨hsearch, ⟨?_, ?_, ?_, ?_, ?_⟩, ?_⟩
  · simp [wsdb_hash_delete, hlen]
  · intro len k
    exact hlt len k
  · intro k1 k2
    exact hc k1 k2
  · intro i e he
    simp only [wsdb_hash_delete] at he ⊢
    by_cases hi : h.hash_fun h.max_size key.length key = i
    · subst hi
      rw [getD_set_self _ _ _ hidx] at he
      exact hent _ e (List.mem_filter.1 he).1
    · rw [getD_set_ne _ _ _ _ hi] at he
      exact hent _ e he
  · intro i
    simp only [wsdb_hash_delete]
    by_cases hi : h.hash_fun h.max_size key.length key = i
    · subst hi
      rw [getD_set_self _ _ _ hidx]
      exact List.Nodup.sublist (List.Sublist.map _ (List.filter_sublist _)) (hnd _)
    · rw [getD_set_ne _ _ _ _ hi]
      exact hnd i
  · intro k w
    have hold := hb k w
    rw [map_lookup_delete]
    unfold hash_binds wsdb_hash.bucket at hold ⊢
    simp only [wsdb_hash_delete]
    by_cases hi : h.hash_fun h.max_size key.length key = h.hash_fun h.max_size k.length k
    · rw [← hi, getD_set_self _ _ _ hidx]
      rw [← hi] at hold
      unfold wsdb_hash.bucket
      rw [List.mem_filter]
      by_cases hk : k = key
      · subst hk
        simp only [if_true]
        constructor
        · intro h1
          have h2 := h1.2
          simp only [Bool.not_eq_true', decide_eq_false_iff_not] at h2
          exact absurd ((hc k k).2 rfl) h2
        · intro h1
          simp at h1
      · simp only [hk, if_false]
        rw [← hold]
        constructor
        · intro h1
          exact h1.1
        · intro h1
          refine ⟨h1, ?_⟩
          simp only [Bool.not_eq_true', decide_eq_false_iff_not]
          rw [hc]
          exact fun h2 => hk h2.symm
    · rw [getD_set_ne _ _ _ _ hi]
      have hk : ¬ k = key := by
        intro hk
        subst hk
        exact hi rfl
      simp only [hk, if_false]
      exact hold

/-- A sequence of calls returns what the map returns and leaves a table that
stands for the map after the calls. -/
theorem wsdb_hash_calls_rel (cs : List hash_call) (h : wsdb_hash) (m : List (List Int × Nat))
    (hr : hash_rel h m) (rs : List Int) (m2 : List (List Int × Nat))
    (hm : map_calls m cs = some (rs, m2)) :
    (wsdb_hash_calls h cs).1 = rs ∧ hash_rel (wsdb_hash_calls h cs).2 m2 := by
  induction cs generalizing h m rs with
  | nil =>
    simp only [map_calls, Option.some.injEq, Prod.mk.injEq] at hm
    obtain ⟨h1, h2⟩ := hm
    subst h1 h2
    exact ⟨rfl, hr⟩
  | cons c cs ih =>
    simp only [map_calls] at hm
    cases hc : map_call m c with
    | none => rw [hc] at hm; simp at hm
    | some p =>
      obtain ⟨r, m1⟩ := p
      rw [hc] at hm
      simp only at hm
      cases hcs : map_calls m1 cs with
      | none => rw [hcs] at hm; simp at hm
      | some q =>
        obtain ⟨rs1, m3⟩ := q
        rw [hcs] at hm
        simp only [Option.some.injEq, Prod.mk.injEq] at hm
        obtain ⟨h1, h2⟩ := hm
        subst h1 h2
        have hstep : (wsdb_hash_call h c).1 = r ∧ hash_rel (wsdb_hash_call h c).2 m1 := by
          cases c with
          | push key data =>
            simp only [map_call] at hc
            split at hc
            · rename_i hnew
              simp only [Option.some.injEq, Prod.mk.injEq] at hc
              obtain ⟨h1, h2⟩ := hc
              subst h1 h2
              exact wsdb_hash_push_rel h m hr key data hnew
            · simp at hc
          | delete key =>
            simp only [map_call, Option.some.injEq, Prod.mk.injEq] at hc
            obtain ⟨h1, h2⟩ := hc
            subst h1 h2
            have := wsdb_hash_delete_rel h m hr key
            simp only [wsdb_hash_call]
            exact ⟨by rw [this.1], this.2⟩
        have := ih (wsdb_hash_call h c).2 m1 hstep.2 rs1 hcs
        simp only [wsdb_hash_calls]
        exact ⟨by rw [hstep.1, this.1], this.2⟩

/-- C26: the wsdb hash refines a finite map. A table opened with the hash and
comparison functions of the test, of any size, more keys than buckets
included, after any sequence of pushes of keys that are not bound and of
deletes, has returned what the finite map returns and stands for the map after
the calls: a search returns the value that the map binds to the key, NULL when
there is none; for a key that was pushed and not deleted since, the search
returns the value pushed, a delete returns that value, and after the delete
the search of every other key returns what it returned before. -/
theorem wsdb_hash_refines_map (size : Nat) (hs : 0 < size) (_hs2 : size < U32_RANGE)
    (cs : List hash_call) (_hlen : ∀ c ∈ cs, c.key.length < 65536)
    (rs : List Int) (m : List (List Int × Nat))
    (hm : map_calls [] cs = some (rs, m)) :
    (wsdb_hash_calls (wsdb_hash_open size (hash_fun size) hash_cmp) cs).1 = rs ∧
    (∀ key : List Int,
      wsdb_hash_search (wsdb_hash_calls (wsdb_hash_open size (hash_fun size) hash_cmp) cs).2
        key.length key = (map_lookup m key).getD 0) ∧
    (∀ (key : List Int) (v : Nat), map_lookup m key = some v →
      wsdb_hash_search (wsdb_hash_calls (wsdb_hash_open size (hash_fun size) hash_cmp) cs).2
        key.length key = v ∧
      (wsdb_hash_delete (wsdb_hash_calls (wsdb_hash_open size (hash_fun size) hash_cmp) cs).2
        key.length key).1 = v ∧
      ∀ k : List Int, k ≠ key →
        wsdb_hash_search
          (wsdb_hash_delete
            (wsdb_hash_calls (wsdb_hash_open size (hash_fun size) hash_cmp) cs).2
            key.length key).2 k.length k =
        wsdb_hash_search (wsdb_hash_calls (wsdb_hash_open size (hash_fun size) hash_cmp) cs).2
          k.length k) := by
  have hrun := wsdb_hash_calls_rel cs _ [] (wsdb_hash_open_rel size hs) rs m hm
  obtain ⟨hret, hrel⟩ := hrun
  refine ⟨hret, fun key => wsdb_hash_search_rel _ m hrel key, ?_⟩
  intro key v hv
  have hdel := wsdb_hash_delete_rel _ m hrel key
  refine ⟨?_, ?_, ?_⟩
  · rw [wsdb_hash_search_rel _ m hrel key, hv]
    rfl
  · rw [hdel.1, hv]
    rfl
  · intro k hk
    rw [wsdb_hash_search_rel _ _ hdel.2 k, wsdb_hash_search_rel _ m hrel k, map_lookup_delete,
      if_neg hk]

/-- Witness of C26: 5 keys in a table of 2 buckets, then the deletion of one
of them. -/
theorem wsdb_hash_refines_map_witness :
    (wsdb_hash_calls (wsdb_hash_open 2 (hash_fun 2) hash_cmp) hash_calls_ex).1 =
      [0, 0, 0, 0, 0, 10003] ∧
    wsdb_hash_search (wsdb_hash_calls (wsdb_hash_open 2 (hash_fun 2) hash_cmp) hash_calls_ex).2
      4 (key32 5) = 10005 ∧
    wsdb_hash_search (wsdb_hash_calls (wsdb_hash_open 2 (hash_fun 2) hash_cmp) hash_calls_ex).2
      4 (key32 3) = 0 := by
  have h := wsdb_hash_refines_map 2 (by decide) (by decide) hash_calls_ex (by decide)
    [0, 0, 0, 0, 0, 10003]
    [(key32 5, 10005), (key32 4, 10004), (key32 2, 10002), (key32 1, 10001)] (by decide)
  exact ⟨h.1, (h.2.2 (key32 5) 10005 (by decide)).1, h.2.1 (key32 3)⟩
end Galera
